import Mathlib

/-!
# Texture unpacking: a model of `TextureUnpacker::PerformTextureUnpack`

The development embeds `src/TestOpen3D/TextureUnpacker.cpp` in Lean.

Conventions of the embedding.

* A C++ `double` is an exact rational number: the rounding, the NaN and the
  infinities of `double` arithmetic are outside this model.  The quotient
  `step / baryc_max` with `baryc_max = 0` is the IEEE value `+∞`, written
  `none` in `barycStep`; the sweep over a degenerate triangle relies on it to
  stop after one sample.  The section on `double` values with NaN models the
  computation of the destination pixel once more, with overflow, infinities
  and NaN.
* A C++ `float` is a rational number with 24 significant bits: a conversion to
  `float` rounds (`float32`) and gives an infinity beyond the range
  (`toFloat`).
* A C++ `int` is an `Int`; the index arithmetic of the images is done in `Int`
  and an index is checked against the buffer when it is used.
* Unchecked accesses outside a buffer (`operator[]`, `PointerAt`) and the
  exception of `std::vector::at` end a run with a `Fault`.  The section on
  unchecked reads runs the compositing loops once more with the byte that the
  memory holds where a read leaves a source buffer.
* The packing engine (`UvpOpExecutorT`, `islandSolutionToMatrix`) and the
  image class of Open3D are not part of the repository; the engine is a
  parameter of the model and the image is modelled by its documented layout.
-/

namespace TextureUnpacker

/-! ## Data model -/

/-- Abnormal ends of a run of the model. -/
inductive Fault where
  /-- An unchecked access (`operator[]`, `PointerAt`) outside its buffer. -/
  | outOfBounds
  /-- The exception `std::out_of_range` thrown by `std::vector::at`. -/
  | outOfRange
  /-- The iteration budget of a modelled `for` loop is used up; this is how a
  loop that does not end shows. -/
  | fuel
  deriving DecidableEq

/-- One byte of an image buffer (`uint8_t`). -/
abbrev Byte := Fin 256

/-- Two doubles (`Eigen::Vector2d`). -/
structure Vector2d where
  x : ℚ
  y : ℚ
  deriving DecidableEq

/-- Three doubles (`Eigen::Vector3d`). -/
structure Vector3d where
  x : ℚ
  y : ℚ
  z : ℚ
  deriving DecidableEq

/-- Three ints (`Eigen::Vector3i`), the vertex indices of a triangle. -/
structure Vector3i where
  x : Int
  y : Int
  z : Int
  deriving DecidableEq

/-- A 4×4 matrix of doubles (`Eigen::Matrix4d`), entry `m i j` in row `i`. -/
abbrev Matrix4d := Fin 4 → Fin 4 → ℚ

/-- The identity matrix. -/
def Matrix4d.identity : Matrix4d := fun i j => if i = j then 1 else 0

/-- Component-wise `a - b` of `Eigen::Vector2d`. -/
def Vector2d.sub (a b : Vector2d) : Vector2d := ⟨a.x - b.x, a.y - b.y⟩

/-- Component-wise `a + b` of `Eigen::Vector2d`. -/
def Vector2d.add (a b : Vector2d) : Vector2d := ⟨a.x + b.x, a.y + b.y⟩

/-- The product `a * m` of an `Eigen::Vector2d` with a scalar. -/
def Vector2d.scale (a : Vector2d) (m : ℚ) : Vector2d := ⟨a.x * m, a.y * m⟩

/-- Modelled from the spec: the image class `open3d::geometry::Image` is not in
the repository.  The spec calls it a fixed-size 2D pixel buffer with a typed
channel layout (byte depth, channel count) and per-pixel typed access; the
fields and the row-major, channel-interleaved layout are those of Open3D. -/
structure Image where
  width_ : Int
  height_ : Int
  num_of_channels_ : Int
  bytes_per_channel_ : Int
  data_ : List Byte
  deriving DecidableEq

/-- Modelled from the spec: the per-pixel typed access `PointerAt<uint8_t>(u, v, ch)`
of the image class, as the offset into `data_` that the returned pointer has
(`sizeof(uint8_t)` is 1). -/
def Image.PointerAt (im : Image) (u v ch : Int) : Int :=
  ((v * im.width_ + u) * im.num_of_channels_ + ch) * 1

/-- Reading through a pointer into the buffer: `*p`. -/
def Image.load (im : Image) (off : Int) : Except Fault Byte :=
  if 0 ≤ off then
    match im.data_[off.toNat]? with
    | some b => .ok b
    | none => .error .outOfBounds
  else .error .outOfBounds

/-- Writing through a pointer into the buffer: `*p = b`. -/
def Image.store (im : Image) (off : Int) (b : Byte) : Except Fault Image :=
  if 0 ≤ off ∧ off.toNat < im.data_.length then
    .ok { im with data_ := im.data_.set off.toNat b }
  else .error .outOfBounds

/-- The fields of `open3d::geometry::TriangleMesh` that the program uses. -/
structure TriangleMesh where
  vertices_ : List Vector3d
  triangles_ : List Vector3i
  triangle_uvs_ : List Vector2d
  triangle_material_ids_ : List Int
  vertex_normals_ : List Vector3d := []
  vertex_colors_ : List Vector3d := []
  deriving DecidableEq

/-- Unchecked `v[i]` on a `std::vector`, with an `int` index. -/
def index {α : Type} (v : List α) (i : Int) : Except Fault α :=
  if 0 ≤ i then
    match v[i.toNat]? with
    | some a => .ok a
    | none => .error .outOfBounds
  else .error .outOfBounds

/-- Unchecked `v[i] = a` on a `std::vector`, with an `int` index. -/
def assign {α : Type} (v : List α) (i : Int) (a : α) : Except Fault (List α) :=
  if 0 ≤ i ∧ i.toNat < v.length then .ok (v.set i.toNat a) else .error .outOfBounds

/-- Checked `v.at(i)`: the `int` index is converted to `size_t`, so a negative
one is out of range as well. -/
def vectorAt {α : Type} (v : List α) (i : Int) : Except Fault α :=
  if 0 ≤ i then
    match v[i.toNat]? with
    | some a => .ok a
    | none => .error .outOfRange
  else .error .outOfRange

/-! ## The packing engine (UVPackmaster SDK)

The declarations of the SDK are not part of the repository.  The types below
carry the fields that the program reads or writes, under their names. -/

/-- A vertex of the UV model (`UvVertT`): UV coordinate and control id. -/
structure UvVertT where
  m_UvCoords : Vector2d
  m_ControlId : Int
  deriving DecidableEq

/-- A face of the UV model (`UvFaceT`): face id and vertex indices. -/
structure UvFaceT where
  m_FaceId : Int
  m_Verts : List Int
  deriving DecidableEq

/-- The UV model handed to the engine (`UvDataT`). -/
structure UvDataT where
  m_FaceCount : Nat
  m_pFaceArray : List UvFaceT
  m_VertCount : Nat
  m_pVertArray : List UvVertT
  deriving DecidableEq

/-- The operations of the engine that the program requests. -/
inductive UVP_OPCODE where
  | REPORT_VERSION
  | PACK
  deriving DecidableEq

/-- The status of a request: `SUCCESS` or one of the error codes. -/
inductive UVP_ERRORCODE where
  | SUCCESS
  | ERROR (code : Nat)
  deriving DecidableEq

/-- A request (`UvpOperationInputT`), with the fields the program sets. -/
structure UvpOperationInputT where
  m_pDeviceId : String
  m_RenderInvalidIslands : Bool
  m_RealtimeSolution : Bool
  m_Benchmark : Bool
  m_Opcode : UVP_OPCODE
  m_UvData : UvDataT
  deriving DecidableEq

/-- The `VERSION` message. -/
structure UvpVersionMessageT where
  m_VersionMajor : Nat
  m_VersionMinor : Nat
  m_VersionPatch : Nat
  deriving DecidableEq

/-- The `ISLANDS` message: the faces of every island. -/
structure UvpIslandsMessageT where
  m_Islands : List (List Int)
  deriving DecidableEq

/-- Modelled from the spec: the pack solution of one island
(`UvpIslandPackSolutionT`), which the spec describes as an island index with
an affine transform.  The program reads `m_IslandIdx`; the placement numbers
are only handed to `islandSolutionToMatrix`, a parameter of the model. -/
structure UvpIslandPackSolutionT where
  m_IslandIdx : Int
  m_Offset : Vector2d
  m_Scale : ℚ
  m_Angle : ℚ
  m_Pivot : Vector2d
  deriving DecidableEq

/-- The `PACK_SOLUTION` message. -/
structure UvpPackSolutionMessageT where
  m_IslandSolutions : List UvpIslandPackSolutionT
  deriving DecidableEq

/-- What `getLastMessage` of the executor answers for the three message codes
the program asks for; `none` is the null pointer. -/
structure Messages where
  VERSION : Option UvpVersionMessageT
  ISLANDS : Option UvpIslandsMessageT
  PACK_SOLUTION : Option UvpPackSolutionMessageT
  deriving DecidableEq

/-- A freshly constructed executor has received no message. -/
def Messages.empty : Messages := ⟨none, none, none⟩

/-- Modelled from the spec: the engine behind `UvpOpExecutorT::execute`, which
the spec describes as a request/response protocol returning a status code and
messages: from a request and the messages held so far, the status and the
messages held afterwards. -/
abbrev Engine := UvpOperationInputT → Messages → UVP_ERRORCODE × Messages

/-! ## Pixel arithmetic of one sample -/

/-- The call `std::clamp(v, lo, hi)`. -/
def clamp (v lo hi : ℚ) : ℚ := if v < lo then lo else if hi < v then hi else v

/-- Conversion of a double to `int`: truncation towards zero. -/
def toInt (q : ℚ) : Int := if 0 ≤ q then ⌊q⌋ else ⌈q⌉

/-- Lines 260-276: the atlas pixel `(u0, v0)` of a sample at `pixel1`. -/
def destPixel (w h : ℚ) (pixel1 : Vector2d) : Int × Int :=
  let x1 : ℚ := ⌊pixel1.x⌋
  let y1 : ℚ := ⌊pixel1.y⌋
  let u0 : Int := toInt (clamp x1 0 (w - 1))
  let v0 : Int := toInt (clamp y1 0 (h - 1))
  let v0 : Int := toInt (h - v0 - 1)
  (u0, v0)

/-- Lines 273-278: the source pixel `(u2, v2)` of a sample at `pixel2`. -/
def srcPixel (w2 h2 : ℚ) (pixel2 : Vector2d) : Int × Int :=
  let u2 : Int := toInt (clamp pixel2.x 0 (w2 - 1))
  let v2 : Int := toInt (clamp pixel2.y 0 (h2 - 1))
  let v2 : Int := toInt (h2 - v2 - 1)
  (u2, v2)

/-! ## Loops -/

/-- A range-based `for (x : xs) body`, and a counted `for` over its index list;
the first fault ends the loop. -/
def forEach {α σ : Type} (body : α → σ → Except Fault σ) : List α → σ → Except Fault σ
  | [], s => .ok s
  | a :: rest, s =>
    match body a s with
    | .error e => .error e
    | .ok s1 => forEach body rest s1

/-- The loop `for (double x = x0; x < bound; x += step) body`, run for at most
`fuel` tests of its condition.  A step of `none` is `+∞`: after the first
iteration the condition fails.  With a step of 0 the condition never fails and
the loop uses up any budget. -/
def forLoop {σ : Type} (body : ℚ → σ → Except Fault σ) (bound : ℚ) (step : Option ℚ) :
    Nat → ℚ → σ → Except Fault σ
  | 0, _, _ => .error .fuel
  | fuel + 1, x, s =>
    if x < bound then
      match body x s with
      | .error e => .error e
      | .ok s1 =>
        match step with
        | none => .ok s1
        | some d => forLoop body bound step fuel (x + d) s1
    else .ok s

/-- The number of condition tests the loop from `0` to `bound` needs. -/
def loopFuel (bound : ℚ) (step : Option ℚ) : Nat :=
  match step with
  | none => 2
  | some d => (⌈bound / d⌉).toNat + 1

/-! ## Building the UV model (lines 115-157) -/

/-- Lines 125-133: the body of the vertex loop, which appends the `UvVertT` of
mesh vertex `i`. -/
def pushVert (mesh : TriangleMesh) (i : Nat) (m_VertArray : List UvVertT) :
    Except Fault (List UvVertT) := do
  let uvs ← index mesh.triangle_uvs_ i
  pure (m_VertArray ++ [{ m_UvCoords := ⟨uvs.x, uvs.y⟩, m_ControlId := i }])

/-- Lines 123-134: one `UvVertT` per mesh vertex, with the UV entry of the same
index and the index as control id. -/
def buildVertArray (mesh : TriangleMesh) : Except Fault (List UvVertT) :=
  forEach (pushVert mesh) (List.range mesh.vertices_.length) []

/-- The coefficient `t[vertIdx]` of a triangle, for `vertIdx` in 0, 1, 2. -/
def Vector3i.coeff (t : Vector3i) (vertIdx : Nat) : Int :=
  match vertIdx with
  | 0 => t.x
  | 1 => t.y
  | _ => t.z

/-- Lines 147-150: the three `pushBack` calls of one face. -/
def pushFaceVerts (t : Vector3i) (faceSize : Nat) : List Int :=
  (List.range faceSize).foldl
    (fun (faceVerts : List Int) (vertIdx : Nat) => faceVerts ++ [t.coeff vertIdx]) []

/-- Lines 138-150: the body of the face loop, which appends the `UvFaceT` of
triangle `faceIdx`.  (The counter `m_PolyVertexCount` of the source is never
read and is left out.) -/
def pushFace (mesh : TriangleMesh) (m_FaceArray : List UvFaceT) (faceIdx : Nat) :
    List UvFaceT :=
  match mesh.triangles_[faceIdx]? with
  | some t => m_FaceArray ++ [{ m_FaceId := faceIdx, m_Verts := pushFaceVerts t 3 }]
  | none => m_FaceArray

/-- Lines 136-151: one `UvFaceT` per triangle. -/
def buildFaceArray (mesh : TriangleMesh) : List UvFaceT :=
  (List.range mesh.triangles_.length).foldl (pushFace mesh) []

/-! ## Compositing (lines 177-327) -/

/-- The three corners held by `baryc` and `baryc2` (vectors resized to 3). -/
structure Corners where
  c0 : Vector2d
  c1 : Vector2d
  c2 : Vector2d
  deriving DecidableEq

/-- The assignment `baryc[v_num] = p`. -/
def Corners.assign (b : Corners) (v_num : Nat) (p : Vector2d) : Except Fault Corners :=
  match v_num with
  | 0 => .ok { b with c0 := p }
  | 1 => .ok { b with c1 := p }
  | 2 => .ok { b with c2 := p }
  | _ => .error .outOfBounds

/-- One executed sample: the atlas pixel written, the source image index and
the source pixel read. -/
structure Sample where
  u0 : Int
  v0 : Int
  source_image : Int
  u2 : Int
  v2 : Int
  deriving DecidableEq

/-- The variables of the compositing loops.  `samples` is not a variable of the
program: it records the samples executed so far, oldest first. -/
structure State where
  outputImage : Image
  mesh : TriangleMesh
  uv_solution : List Int
  island_matrices : List Matrix4d
  baryc : Corners
  baryc2 : Corners
  samples : List Sample

/-- The constant `step = 1.0 / sqrt(2.0)`, as the double it evaluates to. -/
def step : ℚ := 1592262918131443 / 2251799813685248

/-- The power `2 ^ e` for an integer exponent. -/
def pow2 (e : Int) : ℚ :=
  if 0 ≤ e then ((2 ^ e.toNat : Nat) : ℚ) else 1 / ((2 ^ (-e).toNat : Nat) : ℚ)

/-- The position of the leading bit of `n`, found in at most `fuel` halvings. -/
def floorLog2 : Nat → Nat → Nat
  | 0, _ => 0
  | fuel + 1, n => if n < 2 then 0 else floorLog2 fuel (n / 2) + 1

/-- The exponent `e` with `2 ^ e ≤ q < 2 ^ (e + 1)` of a positive number. -/
def binade (q : ℚ) : Int :=
  let e : Int := (floorLog2 q.num.natAbs q.num.natAbs : Int) - (floorLog2 q.den q.den : Int)
  if pow2 e ≤ q then e else e - 1

/-- Rounding to the nearest integer, a tie to the even one. -/
def roundHalfEven (q : ℚ) : Int :=
  if q - ⌊q⌋ < 1 / 2 then ⌊q⌋
  else if 1 / 2 < q - ⌊q⌋ then ⌊q⌋ + 1
  else if ⌊q⌋ % 2 = 0 then ⌊q⌋ else ⌊q⌋ + 1

/-- Rounding to `float` precision (IEEE binary32, round to nearest, ties to
even): 24 significant bits, and multiples of `2 ^ -149` below `2 ^ -126`.  The
exponent is not bounded above here; `toFloat` adds the overflow. -/
def float32 (q : ℚ) : ℚ :=
  if q = 0 then 0
  else (roundHalfEven (q / pow2 (max (binade |q|) (-126) - 23)) : ℚ)
    * pow2 (max (binade |q|) (-126) - 23)

/-- The conversion of a number to `float`; `none` is an infinity, the result
when the rounded magnitude reaches `2 ^ 128`. -/
def toFloat (q : ℚ) : Option ℚ :=
  if |float32 q| < pow2 128 then some (float32 q) else none

/-- The quotient `step / baryc_max` of lines 246-247; `none` is `+∞`. -/
def barycStep (baryc_max : ℚ) : Option ℚ :=
  if baryc_max = 0 then none else some (step / baryc_max)

/-- Lines 243-247: the step for an edge of extent `extent`.  The extent is
stored in a `float` before the division; when it is `+∞` there, the step is
`step / ∞ = 0`. -/
def floatStep (extent : ℚ) : Option ℚ :=
  match toFloat extent with
  | some baryc_max => barycStep baryc_max
  | none => some 0

/-- The first two components of `solutionMatrix * Vector4d(u, v, 0, 1)`. -/
def transformUV (solutionMatrix : Matrix4d) (uv : Vector2d) : Vector2d :=
  ⟨solutionMatrix 0 0 * uv.x + solutionMatrix 0 1 * uv.y + solutionMatrix 0 2 * 0
      + solutionMatrix 0 3 * 1,
   solutionMatrix 1 0 * uv.x + solutionMatrix 1 1 * uv.y + solutionMatrix 1 2 * 0
      + solutionMatrix 1 3 * 1⟩

/-- Lines 280-282: copy the three colour channels of the source pixel. -/
def copyPixel (src : Image) (u0 v0 u2 v2 : Int) (out : Image) : Except Fault Image := do
  let b0 ← src.load (src.PointerAt u2 v2 0)
  let out ← out.store (out.PointerAt u0 v0 0) b0
  let b1 ← src.load (src.PointerAt u2 v2 1)
  let out ← out.store (out.PointerAt u0 v0 1) b1
  let b2 ← src.load (src.PointerAt u2 v2 2)
  out.store (out.PointerAt u0 v0 2) b2

/-- Lines 257-258: the combination `b[0] * m0 + b[1] * m1 + b[2] * m2`. -/
def barycentric (b : Corners) (m0 m1 m2 : ℚ) : Vector2d :=
  ((b.c0.scale m0).add (b.c1.scale m1)).add (b.c2.scale m2)

/-- Lines 253-282: the body of the inner loop, one sample. -/
def sampleStep (color_array : List Image) (w h w2 h2 : ℚ) (source_image : Int)
    (baryc_alpha baryc_beta : ℚ) (st : State) : Except Fault State := do
  let m0 := 1 - baryc_alpha - baryc_beta
  let m1 := baryc_alpha
  let m2 := baryc_beta
  let pixel1 := barycentric st.baryc m0 m1 m2
  let pixel2 := barycentric st.baryc2 m0 m1 m2
  let dest := destPixel w h pixel1
  let source := srcPixel w2 h2 pixel2
  let src ← vectorAt color_array source_image
  let out ← copyPixel src dest.1 dest.2 source.1 source.2 st.outputImage
  pure { st with outputImage := out,
                 samples := st.samples ++ [⟨dest.1, dest.2, source_image, source.1, source.2⟩] }

/-- Lines 221-238: the loop over the vertices of a face. -/
def vertexLoop (m_VertArray : List UvVertT) (w h w2 h2 : ℚ) (solutionMatrix : Matrix4d) :
    List Int → Nat → State → Except Fault State
  | [], _, st => .ok st
  | vertIdx :: rest, v_num, st => do
    let origVert ← index m_VertArray vertIdx
    let baryc2 ← st.baryc2.assign v_num
      ⟨origVert.m_UvCoords.x * w2, origVert.m_UvCoords.y * h2⟩
    let transformedUV := transformUV solutionMatrix origVert.m_UvCoords
    let uvs ← assign st.mesh.triangle_uvs_ vertIdx ⟨transformedUV.x, transformedUV.y⟩
    let uv_solution ← assign st.uv_solution vertIdx (st.island_matrices.length : Int)
    let baryc ← st.baryc.assign v_num ⟨transformedUV.x * w, transformedUV.y * h⟩
    vertexLoop m_VertArray w h w2 h2 solutionMatrix rest (v_num + 1)
      { st with mesh := { st.mesh with triangle_uvs_ := uvs },
                uv_solution := uv_solution, baryc := baryc, baryc2 := baryc2 }

/-- Lines 249-323: the barycentric sweep of one face. -/
def sweep (color_array : List Image) (w h w2 h2 : ℚ) (source_image : Int)
    (baryc_step_a baryc_step_b : Option ℚ) (st : State) : Except Fault State :=
  forLoop
    (fun baryc_alpha st =>
      forLoop (fun baryc_beta st => sampleStep color_array w h w2 h2 source_image
                  baryc_alpha baryc_beta st)
        (1 - baryc_alpha) baryc_step_b (loopFuel (1 - baryc_alpha) baryc_step_b) 0 st)
    1 baryc_step_a (loopFuel 1 baryc_step_a) 0 st

/-- Lines 213-324: the body of the loop over the faces of an island. -/
def faceStep (color_array : List Image) (m_VertArray : List UvVertT)
    (m_FaceArray : List UvFaceT) (w h w2 h2 : ℚ) (solutionMatrix : Matrix4d)
    (faceId : Int) (st : State) : Except Fault State := do
  let face ← index m_FaceArray faceId
  let source_image ← index st.mesh.triangle_material_ids_ faceId
  let st ← vertexLoop m_VertArray w h w2 h2 solutionMatrix face.m_Verts 0 st
  let baryc_dim_a := st.baryc.c0.sub st.baryc.c1
  let baryc_dim_b := st.baryc.c0.sub st.baryc.c2
  let baryc_step_a := floatStep (max |baryc_dim_a.x| |baryc_dim_a.y|)
  let baryc_step_b := floatStep (max |baryc_dim_b.x| |baryc_dim_b.y|)
  sweep color_array w h w2 h2 source_image baryc_step_a baryc_step_b st

/-- Lines 207-327: the body of the loop over the island solutions. -/
def islandStep (islandSolutionToMatrix : UvpIslandPackSolutionT → Matrix4d)
    (color_array : List Image) (m_VertArray : List UvVertT) (m_FaceArray : List UvFaceT)
    (islands : List (List Int)) (w h w2 h2 : ℚ)
    (islandSolution : UvpIslandPackSolutionT) (st : State) : Except Fault State := do
  let island ← index islands islandSolution.m_IslandIdx
  let solutionMatrix := islandSolutionToMatrix islandSolution
  let st ← forEach (faceStep color_array m_VertArray m_FaceArray w h w2 h2 solutionMatrix)
    island st
  pure { st with island_matrices := st.island_matrices ++ [solutionMatrix] }

/-- Lines 177-327: everything after the two messages have been received.  The
vector `image_weights` is only used by the commented-out blending code and is
left out; `baryc` and `baryc2` start as zero vectors (the program overwrites all
three corners of both before the first sample of every face reads them). -/
def composite (islandSolutionToMatrix : UvpIslandPackSolutionT → Matrix4d)
    (color_array : List Image) (mesh : TriangleMesh) (outputImage : Image)
    (m_VertArray : List UvVertT) (m_FaceArray : List UvFaceT)
    (pIslandsMsg : UvpIslandsMessageT) (pPackSolutionMsg : UvpPackSolutionMessageT) :
    Except Fault State := do
  let w : ℚ := outputImage.width_
  let h : ℚ := outputImage.height_
  let first ← vectorAt color_array 0
  let w2 : ℚ := first.width_
  let h2 : ℚ := first.height_
  let zero : Corners := ⟨⟨0, 0⟩, ⟨0, 0⟩, ⟨0, 0⟩⟩
  forEach
    (islandStep islandSolutionToMatrix color_array m_VertArray m_FaceArray
      pIslandsMsg.m_Islands w h w2 h2)
    pPackSolutionMsg.m_IslandSolutions
    { outputImage := outputImage, mesh := mesh,
      uv_solution := List.replicate mesh.triangle_uvs_.length 0,
      island_matrices := [], baryc := zero, baryc2 := zero, samples := [] }

/-- What the caller sees when the function returns: the returned flag, the
atlas and the mesh; and the samples that were executed. -/
structure Output where
  ret : Bool
  outputImage : Image
  mesh : TriangleMesh
  samples : List Sample
  deriving DecidableEq

/-- A run of the function: the requests passed to `execute`, in order, and
how the run ends. -/
structure Run where
  requests : List UvpOperationInputT
  result : Except Fault Output

/-- The request `reportVersionInput` (a default request with its opcode set). -/
def reportVersionInput : UvpOperationInputT :=
  { m_pDeviceId := "", m_RenderInvalidIslands := false, m_RealtimeSolution := false,
    m_Benchmark := false, m_Opcode := .REPORT_VERSION,
    m_UvData := { m_FaceCount := 0, m_pFaceArray := [], m_VertCount := 0, m_pVertArray := [] } }

/-- The request `uvpInput` with the UV model attached (lines 76-83, 153-157). -/
def packInput (m_VertArray : List UvVertT) (m_FaceArray : List UvFaceT) : UvpOperationInputT :=
  { m_pDeviceId := "cpu", m_RenderInvalidIslands := true, m_RealtimeSolution := true,
    m_Benchmark := true, m_Opcode := .PACK,
    m_UvData := { m_FaceCount := m_FaceArray.length, m_pFaceArray := m_FaceArray,
                  m_VertCount := m_VertArray.length, m_pVertArray := m_VertArray } }

/-- The function `TextureUnpacker::PerformTextureUnpack` (lines 74-330).  The
executor is constructed inside the function, so it starts without messages;
its debug flag is part of `engine`. -/
def PerformTextureUnpack (engine : Engine)
    (islandSolutionToMatrix : UvpIslandPackSolutionT → Matrix4d)
    (color_array : List Image) (mesh : TriangleMesh) (outputImage : Image) : Run :=
  let unchanged : Output := ⟨false, outputImage, mesh, []⟩
  let version := engine reportVersionInput Messages.empty
  if version.1 ≠ .SUCCESS then ⟨[reportVersionInput], .ok unchanged⟩
  else
    match version.2.VERSION with
    | none => ⟨[reportVersionInput], .ok unchanged⟩
    | some _ =>
      match buildVertArray mesh with
      | .error e => ⟨[reportVersionInput], .error e⟩
      | .ok m_VertArray =>
        let m_FaceArray := buildFaceArray mesh
        let uvpInput := packInput m_VertArray m_FaceArray
        let pack := engine uvpInput version.2
        let requests := [reportVersionInput, uvpInput]
        if pack.1 ≠ .SUCCESS then ⟨requests, .ok unchanged⟩
        else
          match pack.2.ISLANDS, pack.2.PACK_SOLUTION with
          | some pIslandsMsg, some pPackSolutionMsg =>
            match composite islandSolutionToMatrix color_array mesh outputImage
                    m_VertArray m_FaceArray pIslandsMsg pPackSolutionMsg with
            | .error e => ⟨requests, .error e⟩
            | .ok st => ⟨requests, .ok ⟨true, st.outputImage, st.mesh, st.samples⟩⟩
          | _, _ => ⟨requests, .ok unchanged⟩

/-! ## Reading a run -/

/-- The flag a run returns, when it returns. -/
def Run.returned (r : Run) : Option Bool :=
  match r.result with
  | .ok o => some o.ret
  | .error _ => none

/-- The fault a run ends with, when it does not return. -/
def Run.fault (r : Run) : Option Fault :=
  match r.result with
  | .ok _ => none
  | .error e => some e

/-- The samples a run executed, when it returns. -/
def Run.samples (r : Run) : List Sample :=
  match r.result with
  | .ok o => o.samples
  | .error _ => []

/-- The output of a run, or `fallback` when the run faults. -/
def Run.output (r : Run) (fallback : Output) : Output :=
  match r.result with
  | .ok o => o
  | .error _ => fallback

/-- The opcodes of the requests a run executed, in order. -/
def Run.opcodes (r : Run) : List UVP_OPCODE := r.requests.map (fun q => q.m_Opcode)

/-- The last sample of `samples` (oldest first) that wrote atlas pixel `(u, v)`. -/
def lastSample (u v : Int) (samples : List Sample) : Option Sample :=
  samples.reverse.find? (fun s => decide (s.u0 = u ∧ s.v0 = v))

/-- The byte of channel `ch` of the source pixel that sample `s` read. -/
def sourceByte (color_array : List Image) (s : Sample) (ch : Int) : Except Fault Byte :=
  match vectorAt color_array s.source_image with
  | .ok src => src.load (src.PointerAt s.u2 s.v2 ch)
  | .error e => .error e

/-- The relation between the atlas `init` before compositing and the state
after some samples: the layout is unchanged, every sample wrote inside the
atlas, a pixel without sample has its bytes of `init` and any other pixel has
the bytes that its last sample read. -/
def Composited (color_array : List Image) (init : Image) (st : State) : Prop :=
  st.outputImage.width_ = init.width_ ∧
  st.outputImage.height_ = init.height_ ∧
  st.outputImage.num_of_channels_ = init.num_of_channels_ ∧
  (∀ s ∈ st.samples, 0 ≤ s.u0 ∧ s.u0 < init.width_ ∧ 0 ≤ s.v0 ∧ s.v0 < init.height_) ∧
  (∀ u v ch : Int, 0 ≤ u → u < init.width_ → 0 ≤ v → v < init.height_ → 0 ≤ ch → ch < 3 →
    (lastSample u v st.samples = none →
      st.outputImage.load (st.outputImage.PointerAt u v ch)
        = init.load (init.PointerAt u v ch)) ∧
    (∀ s, lastSample u v st.samples = some s →
      ∃ b, sourceByte color_array s ch = .ok b ∧
        st.outputImage.load (st.outputImage.PointerAt u v ch) = .ok b))

/-- The relation that holds during compositing when source and atlas have the
same size and every transform is the identity: the two corner triples agree
and every sample read image 0 at the pixel it wrote. -/
def Aligned (st : State) : Prop :=
  st.baryc = st.baryc2 ∧
  ∀ s ∈ st.samples, s.source_image = 0 ∧ s.u2 = s.u0 ∧ s.v2 = s.v0

/-! ## Concrete inputs -/

/-- An RGB image, one byte per channel, whose byte at offset `i` is `f i`. -/
def rgbImage (w h : Int) (f : Nat → Byte) : Image :=
  ⟨w, h, 3, 1, (List.range (w * h * 3).toNat).map f⟩

/-- An engine that answers the version query and packs with the given islands
and solutions. -/
def engineOk (islands : List (List Int)) (solutions : List UvpIslandPackSolutionT) : Engine :=
  fun input _ =>
    match input.m_Opcode with
    | .REPORT_VERSION => (.SUCCESS, ⟨some ⟨3, 0, 0⟩, none, none⟩)
    | .PACK => (.SUCCESS, ⟨none, some ⟨islands⟩, some ⟨solutions⟩⟩)

/-- An engine whose version query fails. -/
def engineVersionFails : Engine :=
  fun input _ =>
    match input.m_Opcode with
    | .REPORT_VERSION => (.ERROR 1, ⟨none, none, none⟩)
    | .PACK => (.SUCCESS, ⟨none, some ⟨[[0]]⟩, some ⟨[]⟩⟩)

/-- An engine that reports success for `PACK` but sends no `ISLANDS` message. -/
def engineNoIslands : Engine :=
  fun input _ =>
    match input.m_Opcode with
    | .REPORT_VERSION => (.SUCCESS, ⟨some ⟨3, 0, 0⟩, none, none⟩)
    | .PACK => (.SUCCESS, ⟨none, none, some ⟨[]⟩⟩)

/-- The single triangle with UV corners (0,0), (1,0), (0,1), textured from
source image 0. -/
def triangleMesh : TriangleMesh :=
  { vertices_ := [⟨0, 0, 0⟩, ⟨1, 0, 0⟩, ⟨0, 1, 0⟩],
    triangles_ := [⟨0, 1, 2⟩],
    triangle_uvs_ := [⟨0, 0⟩, ⟨1, 0⟩, ⟨0, 1⟩],
    triangle_material_ids_ := [0] }

/-- A mesh whose first two vertices share a UV coordinate. -/
def seamMesh : TriangleMesh :=
  { vertices_ := [⟨0, 0, 0⟩, ⟨0, 0, 1⟩, ⟨0, 1, 0⟩],
    triangles_ := [⟨0, 1, 2⟩],
    triangle_uvs_ := [⟨0, 0⟩, ⟨0, 0⟩, ⟨0, 1⟩],
    triangle_material_ids_ := [0] }

/-- A mesh with 3 vertices, 5 UV entries, 1 face and no source-image id. -/
def mismatchedMesh : TriangleMesh :=
  { vertices_ := [⟨0, 0, 0⟩, ⟨1, 0, 0⟩, ⟨0, 1, 0⟩],
    triangles_ := [⟨0, 1, 2⟩],
    triangle_uvs_ := [⟨0, 0⟩, ⟨1, 0⟩, ⟨0, 1⟩, ⟨1, 1⟩, ⟨0, 0⟩],
    triangle_material_ids_ := [] }

/-- The solution that places island 0. -/
def islandZero : UvpIslandPackSolutionT :=
  { m_IslandIdx := 0, m_Offset := ⟨0, 0⟩, m_Scale := 1, m_Angle := 0, m_Pivot := ⟨0, 0⟩ }

/-- A 4×4 source image with distinct bytes. -/
def source4 : Image := rgbImage 4 4 (fun i => Fin.ofNat i)

/-- A 2×2 source image. -/
def source2 : Image := rgbImage 2 2 (fun i => Fin.ofNat (100 + i))

/-- A zeroed 4×4 atlas. -/
def atlas4 : Image := rgbImage 4 4 (fun _ => 0)

/-- The triangle of `triangleMesh`, textured from source image 1. -/
def secondImageMesh : TriangleMesh := { triangleMesh with triangle_material_ids_ := [1] }

/-- The spec's scenario: the triangle (0,0), (1,0), (0,1) in one island with the
identity transform, a 4×4 source image and a zeroed 4×4 atlas. -/
def identityRun : Run :=
  PerformTextureUnpack (engineOk [[0]] [islandZero]) (fun _ => Matrix4d.identity) [source4]
    triangleMesh atlas4

/-- The output of `identityRun`. -/
def identityOutput : Output := identityRun.output ⟨false, atlas4, triangleMesh, []⟩

/-- The same scenario with a second, 2×2 source image that the face selects. -/
def secondImageRun : Run :=
  PerformTextureUnpack (engineOk [[0]] [islandZero]) (fun _ => Matrix4d.identity)
    [source4, source2] secondImageMesh atlas4

/-! ## Concrete inputs for the island and source-image claims -/

/-- Two triangles over four vertices, both textured from source image 0. -/
def twoFaceMesh : TriangleMesh :=
  { vertices_ := [⟨0, 0, 0⟩, ⟨1, 0, 0⟩, ⟨0, 1, 0⟩, ⟨1, 1, 0⟩],
    triangles_ := [⟨0, 1, 2⟩, ⟨1, 3, 2⟩],
    triangle_uvs_ := [⟨0, 0⟩, ⟨1, 0⟩, ⟨0, 1⟩, ⟨1, 1⟩],
    triangle_material_ids_ := [0, 0] }

/-- A pack response with the two islands [0] and [1] and a solution for
island 0 only. -/
def partialRun : Run :=
  PerformTextureUnpack (engineOk [[0], [1]] [islandZero]) (fun _ => Matrix4d.identity)
    [source4] twoFaceMesh atlas4

/-- The state at the end of compositing, when image 0 is 2×2 and the face
selects the 4×4 image 1. -/
def swappedImagesState : Except Fault State :=
  composite (fun _ => Matrix4d.identity) [source2, source4] secondImageMesh atlas4
    [⟨⟨0, 0⟩, 0⟩, ⟨⟨1, 0⟩, 1⟩, ⟨⟨0, 1⟩, 2⟩] (buildFaceArray secondImageMesh)
    ⟨[[0]]⟩ ⟨[islandZero]⟩

/-- The corners `baryc2` of a state, when there is one. -/
def sourceCorners (r : Except Fault State) : Option Corners :=
  match r with
  | .ok st => some st.baryc2
  | .error _ => none

/-- An affine transform with the rows (1/2, 1/4, 9, 1/8), (1/3, 1/2, 9, 1/16),
(0, 0, 1, 0) and (0, 0, 0, 1). -/
def affineMatrix : Matrix4d := fun i j =>
  match i.val, j.val with
  | 0, 0 => 1 / 2
  | 0, 1 => 1 / 4
  | 0, 2 => 9
  | 0, 3 => 1 / 8
  | 1, 0 => 1 / 3
  | 1, 1 => 1 / 2
  | 1, 2 => 9
  | 1, 3 => 1 / 16
  | 2, 2 => 1
  | 3, 3 => 1
  | _, _ => 0

/-- A state in the middle of compositing `triangleMesh`: the UV entries of the
mesh have already been overwritten (with (9, 9)) by earlier faces. -/
def staleState : State :=
  { outputImage := atlas4,
    mesh := { triangleMesh with triangle_uvs_ := [⟨9, 9⟩, ⟨9, 9⟩, ⟨9, 9⟩] },
    uv_solution := [0, 0, 0], island_matrices := [],
    baryc := ⟨⟨7, 7⟩, ⟨7, 7⟩, ⟨7, 7⟩⟩, baryc2 := ⟨⟨7, 7⟩, ⟨7, 7⟩, ⟨7, 7⟩⟩, samples := [] }

/-- The state of a step of compositing, or `fallback` when the step faults. -/
def stateOr (r : Except Fault State) (fallback : State) : State :=
  match r with
  | .ok st => st
  | .error _ => fallback

/-- Whether a step of compositing ends without fault. -/
def succeeds (r : Except Fault State) : Bool :=
  match r with
  | .ok _ => true
  | .error _ => false

/-- Face 0 of `triangleMesh`, processed from `staleState` with the transform
`affineMatrix`, the vertex table being the one built from `triangleMesh`. -/
def staleFaceResult : Except Fault State :=
  faceStep [source4] [⟨⟨0, 0⟩, 0⟩, ⟨⟨1, 0⟩, 1⟩, ⟨⟨0, 1⟩, 2⟩] (buildFaceArray triangleMesh)
    4 4 4 4 affineMatrix 0 staleState

/-- An atlas filled with zeros: its buffer has the size of its layout and
every byte is 0. -/
def Image.zeroed (im : Image) : Prop :=
  im.data_ = List.replicate
    (im.width_ * im.height_ * im.num_of_channels_ * im.bytes_per_channel_).toNat 0

instance (im : Image) : Decidable im.zeroed :=
  inferInstanceAs (Decidable (im.data_ = List.replicate
    (im.width_ * im.height_ * im.num_of_channels_ * im.bytes_per_channel_).toNat 0))

/-! ## Relations between two runs of the compositing loops -/

/-- Two states have the same shape: the atlases have the same layout and
buffer size, the UV arrays and the `uv_solution` vectors the same length, and
the source-image ids are the same. -/
def SameShape (st1 st2 : State) : Prop :=
  st1.outputImage.width_ = st2.outputImage.width_ ∧
  st1.outputImage.num_of_channels_ = st2.outputImage.num_of_channels_ ∧
  st1.outputImage.data_.length = st2.outputImage.data_.length ∧
  st1.mesh.triangle_uvs_.length = st2.mesh.triangle_uvs_.length ∧
  st1.mesh.triangle_material_ids_ = st2.mesh.triangle_material_ids_ ∧
  st1.uv_solution.length = st2.uv_solution.length

/-- Two runs in lockstep: the states have the same shape and, since the runs
had the samples `p1` and `p2`, both executed the same samples. -/
def Lockstep (p1 p2 : List Sample) (st1 st2 : State) : Prop :=
  SameShape st1 st2 ∧ ∃ y, st1.samples = p1 ++ y ∧ st2.samples = p2 ++ y

/-- Two runs in lockstep inside the sweep of a face: in addition both hold the
same corners. -/
def LockstepSweep (p1 p2 : List Sample) (st1 st2 : State) : Prop :=
  Lockstep p1 p2 st1 st2 ∧ st1.baryc = st2.baryc ∧ st1.baryc2 = st2.baryc2

/-- The state in which the loop over the island solutions starts (lines
180-203). -/
def initialState (mesh : TriangleMesh) (outputImage : Image) : State :=
  { outputImage := outputImage, mesh := mesh,
    uv_solution := List.replicate mesh.triangle_uvs_.length 0,
    island_matrices := [], baryc := ⟨⟨0, 0⟩, ⟨0, 0⟩, ⟨0, 0⟩⟩,
    baryc2 := ⟨⟨0, 0⟩, ⟨0, 0⟩, ⟨0, 0⟩⟩, samples := [] }

/-- The samples of a state that was reached, none otherwise. -/
def samplesOr (r : Except Fault State) : List Sample :=
  match r with
  | .ok st => st.samples
  | .error _ => []

/-- The samples that the island of one solution executes, obtained by
processing the solution from the initial state; no sample when it faults. -/
def islandSamples (islandSolutionToMatrix : UvpIslandPackSolutionT → Matrix4d)
    (color_array : List Image) (mesh : TriangleMesh) (outputImage : Image)
    (m_VertArray : List UvVertT) (m_FaceArray : List UvFaceT) (islands : List (List Int))
    (islandSolution : UvpIslandPackSolutionT) : List Sample :=
  match vectorAt color_array 0 with
  | .error _ => []
  | .ok first =>
    samplesOr (islandStep islandSolutionToMatrix color_array m_VertArray m_FaceArray islands
      outputImage.width_ outputImage.height_ first.width_ first.height_ islandSolution
      (initialState mesh outputImage))

/-- Two islands write disjoint sets of atlas pixels. -/
def DisjointPixels (samples1 samples2 : List Sample) : Prop :=
  ∀ s ∈ samples1, ∀ t ∈ samples2, ¬ (s.u0 = t.u0 ∧ s.v0 = t.v0)

/-- The bytes of the atlas that belong to no pixel are kept: the byte depth
and the buffer size are those of `init` and every offset that is not the
offset of a channel of a pixel holds what it held in `init`. -/
def Kept (init : Image) (st : State) : Prop :=
  st.outputImage.bytes_per_channel_ = init.bytes_per_channel_ ∧
  st.outputImage.data_.length = init.data_.length ∧
  ∀ q : Int,
    (∀ u v ch : Int, 0 ≤ u → u < init.width_ → 0 ≤ v → v < init.height_ → 0 ≤ ch → ch < 3 →
      q ≠ init.PointerAt u v ch) →
    st.outputImage.load q = init.load q

instance (samples1 samples2 : List Sample) : Decidable (DisjointPixels samples1 samples2) :=
  inferInstanceAs (Decidable (∀ s ∈ samples1, ∀ t ∈ samples2, ¬ (s.u0 = t.u0 ∧ s.v0 = t.v0)))

/-- Two triangles whose UVs lie in opposite corners of the unit square. -/
def splitMesh : TriangleMesh :=
  { vertices_ := [⟨0, 0, 0⟩, ⟨1, 0, 0⟩, ⟨0, 1, 0⟩, ⟨2, 2, 0⟩, ⟨3, 2, 0⟩, ⟨2, 3, 0⟩],
    triangles_ := [⟨0, 1, 2⟩, ⟨3, 4, 5⟩],
    triangle_uvs_ := [⟨0, 0⟩, ⟨1 / 2, 0⟩, ⟨0, 1 / 2⟩, ⟨3 / 4, 3 / 4⟩, ⟨1, 3 / 4⟩, ⟨3 / 4, 1⟩],
    triangle_material_ids_ := [0, 0] }

/-- The vertex table of `splitMesh`. -/
def splitVertArray : List UvVertT :=
  [⟨⟨0, 0⟩, 0⟩, ⟨⟨1 / 2, 0⟩, 1⟩, ⟨⟨0, 1 / 2⟩, 2⟩, ⟨⟨3 / 4, 3 / 4⟩, 3⟩, ⟨⟨1, 3 / 4⟩, 4⟩,
    ⟨⟨3 / 4, 1⟩, 5⟩]

/-- A solution for island 1. -/
def islandOne : UvpIslandPackSolutionT :=
  { m_IslandIdx := 1, m_Offset := ⟨0, 0⟩, m_Scale := 1, m_Angle := 0, m_Pivot := ⟨0, 0⟩ }

/-- The two islands of `splitMesh`, solved in the order 0, 1. -/
def splitRun : Run :=
  PerformTextureUnpack (engineOk [[0], [1]] [islandZero, islandOne])
    (fun _ => Matrix4d.identity) [source4] splitMesh atlas4

/-- The two islands of `splitMesh`, solved in the order 1, 0. -/
def splitRunSwapped : Run :=
  PerformTextureUnpack (engineOk [[0], [1]] [islandOne, islandZero])
    (fun _ => Matrix4d.identity) [source4] splitMesh atlas4

/-- A mesh with 3 vertices and 2 UV entries. -/
def shortUvMesh : TriangleMesh :=
  { vertices_ := [⟨0, 0, 0⟩, ⟨1, 0, 0⟩, ⟨0, 1, 0⟩],
    triangles_ := [⟨0, 1, 2⟩],
    triangle_uvs_ := [⟨0, 0⟩, ⟨1, 0⟩],
    triangle_material_ids_ := [0] }

/-! ## The samples of a sweep -/

/-- Reading through a pointer `*p` without a check: inside the buffer the byte
of the buffer, outside it the byte that `memory` holds at that offset from the
start of the buffer. -/
def Image.loadRaw (memory : Int → Byte) (im : Image) (off : Int) : Byte :=
  match im.load off with
  | .ok b => b
  | .error _ => memory off

/-- Lines 280-282, with unchecked reads of the source pixel. -/
def copyPixelRaw (memory : Int → Byte) (src : Image) (u0 v0 u2 v2 : Int) (out : Image) :
    Except Fault Image := do
  let b0 := src.loadRaw memory (src.PointerAt u2 v2 0)
  let out ← out.store (out.PointerAt u0 v0 0) b0
  let b1 := src.loadRaw memory (src.PointerAt u2 v2 1)
  let out ← out.store (out.PointerAt u0 v0 1) b1
  let b2 := src.loadRaw memory (src.PointerAt u2 v2 2)
  out.store (out.PointerAt u0 v0 2) b2

/-- Lines 253-282 with unchecked reads; `memory i` is the memory around the
buffer of source image `i`. -/
def sampleStepRaw (memory : Int → Int → Byte) (color_array : List Image) (w h w2 h2 : ℚ)
    (source_image : Int) (baryc_alpha baryc_beta : ℚ) (st : State) : Except Fault State := do
  let m0 := 1 - baryc_alpha - baryc_beta
  let m1 := baryc_alpha
  let m2 := baryc_beta
  let pixel1 := barycentric st.baryc m0 m1 m2
  let pixel2 := barycentric st.baryc2 m0 m1 m2
  let dest := destPixel w h pixel1
  let source := srcPixel w2 h2 pixel2
  let src ← vectorAt color_array source_image
  let out ← copyPixelRaw (memory source_image) src dest.1 dest.2 source.1 source.2
    st.outputImage
  pure { st with outputImage := out,
                 samples := st.samples ++ [⟨dest.1, dest.2, source_image, source.1, source.2⟩] }

/-- Lines 249-323 with unchecked reads. -/
def sweepRaw (memory : Int → Int → Byte) (color_array : List Image) (w h w2 h2 : ℚ)
    (source_image : Int) (baryc_step_a baryc_step_b : Option ℚ) (st : State) :
    Except Fault State :=
  forLoop
    (fun baryc_alpha st =>
      forLoop (fun baryc_beta st => sampleStepRaw memory color_array w h w2 h2 source_image
                  baryc_alpha baryc_beta st)
        (1 - baryc_alpha) baryc_step_b (loopFuel (1 - baryc_alpha) baryc_step_b) 0 st)
    1 baryc_step_a (loopFuel 1 baryc_step_a) 0 st

/-- Lines 213-324 with unchecked reads. -/
def faceStepRaw (memory : Int → Int → Byte) (color_array : List Image)
    (m_VertArray : List UvVertT) (m_FaceArray : List UvFaceT) (w h w2 h2 : ℚ)
    (solutionMatrix : Matrix4d) (faceId : Int) (st : State) : Except Fault State := do
  let face ← index m_FaceArray faceId
  let source_image ← index st.mesh.triangle_material_ids_ faceId
  let st ← vertexLoop m_VertArray w h w2 h2 solutionMatrix face.m_Verts 0 st
  let baryc_dim_a := st.baryc.c0.sub st.baryc.c1
  let baryc_dim_b := st.baryc.c0.sub st.baryc.c2
  let baryc_step_a := floatStep (max |baryc_dim_a.x| |baryc_dim_a.y|)
  let baryc_step_b := floatStep (max |baryc_dim_b.x| |baryc_dim_b.y|)
  sweepRaw memory color_array w h w2 h2 source_image baryc_step_a baryc_step_b st

/-- Lines 207-327 with unchecked reads. -/
def islandStepRaw (memory : Int → Int → Byte)
    (islandSolutionToMatrix : UvpIslandPackSolutionT → Matrix4d)
    (color_array : List Image) (m_VertArray : List UvVertT) (m_FaceArray : List UvFaceT)
    (islands : List (List Int)) (w h w2 h2 : ℚ)
    (islandSolution : UvpIslandPackSolutionT) (st : State) : Except Fault State := do
  let island ← index islands islandSolution.m_IslandIdx
  let solutionMatrix := islandSolutionToMatrix islandSolution
  let st ← forEach
    (faceStepRaw memory color_array m_VertArray m_FaceArray w h w2 h2 solutionMatrix) island st
  pure { st with island_matrices := st.island_matrices ++ [solutionMatrix] }

/-- Lines 177-327 with unchecked reads. -/
def compositeRaw (memory : Int → Int → Byte)
    (islandSolutionToMatrix : UvpIslandPackSolutionT → Matrix4d)
    (color_array : List Image) (mesh : TriangleMesh) (outputImage : Image)
    (m_VertArray : List UvVertT) (m_FaceArray : List UvFaceT)
    (pIslandsMsg : UvpIslandsMessageT) (pPackSolutionMsg : UvpPackSolutionMessageT) :
    Except Fault State := do
  let w : ℚ := outputImage.width_
  let h : ℚ := outputImage.height_
  let first ← vectorAt color_array 0
  let w2 : ℚ := first.width_
  let h2 : ℚ := first.height_
  let zero : Corners := ⟨⟨0, 0⟩, ⟨0, 0⟩, ⟨0, 0⟩⟩
  forEach
    (islandStepRaw memory islandSolutionToMatrix color_array m_VertArray m_FaceArray
      pIslandsMsg.m_Islands w h w2 h2)
    pPackSolutionMsg.m_IslandSolutions
    { outputImage := outputImage, mesh := mesh,
      uv_solution := List.replicate mesh.triangle_uvs_.length 0,
      island_matrices := [], baryc := zero, baryc2 := zero, samples := [] }

/-- The function `TextureUnpacker::PerformTextureUnpack` (lines 74-330) with
unchecked reads of the source images. -/
def PerformTextureUnpackRaw (memory : Int → Int → Byte) (engine : Engine)
    (islandSolutionToMatrix : UvpIslandPackSolutionT → Matrix4d)
    (color_array : List Image) (mesh : TriangleMesh) (outputImage : Image) : Run :=
  let unchanged : Output := ⟨false, outputImage, mesh, []⟩
  let version := engine reportVersionInput Messages.empty
  if version.1 ≠ .SUCCESS then ⟨[reportVersionInput], .ok unchanged⟩
  else
    match version.2.VERSION with
    | none => ⟨[reportVersionInput], .ok unchanged⟩
    | some _ =>
      match buildVertArray mesh with
      | .error e => ⟨[reportVersionInput], .error e⟩
      | .ok m_VertArray =>
        let m_FaceArray := buildFaceArray mesh
        let uvpInput := packInput m_VertArray m_FaceArray
        let pack := engine uvpInput version.2
        let requests := [reportVersionInput, uvpInput]
        if pack.1 ≠ .SUCCESS then ⟨requests, .ok unchanged⟩
        else
          match pack.2.ISLANDS, pack.2.PACK_SOLUTION with
          | some pIslandsMsg, some pPackSolutionMsg =>
            match compositeRaw memory islandSolutionToMatrix color_array mesh outputImage
                    m_VertArray m_FaceArray pIslandsMsg pPackSolutionMsg with
            | .error e => ⟨requests, .error e⟩
            | .ok st => ⟨requests, .ok ⟨true, st.outputImage, st.mesh, st.samples⟩⟩
          | _, _ => ⟨requests, .ok unchanged⟩

/-- The run of `secondImageRun` (source images of 4×4 and 2×2 pixels, the face
textured from image 1, a zeroed 4×4 atlas) with unchecked reads, the memory
around the source images holding `fill` in every byte. -/
def secondImageRawRun (fill : Byte) : Run :=
  PerformTextureUnpackRaw (fun _ _ => fill) (engineOk [[0]] [islandZero])
    (fun _ => Matrix4d.identity) [source4, source2] secondImageMesh atlas4

/-- The atlas at the end of `secondImageRawRun`. -/
def secondImageRawAtlas (fill : Byte) : Image :=
  ((secondImageRawRun fill).output ⟨false, atlas4, secondImageMesh, []⟩).outputImage

/-! ## `double` values with infinities and NaN

The model above computes with exact rationals.  This section follows the
computation of the destination pixel of the first sample of a face once more
(lines 228, 235-236, 257 and 260-276), with the values that `double`
arithmetic has besides the finite ones.  A finite value is kept exact (it is
not rounded to 53 bits); a result whose magnitude reaches
`2 ^ 1024 - 2 ^ 970`, the least that rounds to an infinity, is an infinity. -/

/-- A `double` value: a finite number, `+∞`, `-∞` or a NaN. -/
inductive Double where
  | finite (q : ℚ)
  | posInf
  | negInf
  | nan
  deriving DecidableEq

/-- The `double` of an exact result: an infinity beyond the range. -/
def Double.ofRat (q : ℚ) : Double :=
  if 2 ^ 1024 - 2 ^ 970 ≤ q then .posInf
  else if q ≤ -(2 ^ 1024 - 2 ^ 970) then .negInf
  else .finite q

/-- The conversion `(double)n` of an `int`. -/
def Double.ofInt (n : Int) : Double := .finite n

/-- The infinity with the sign of `s`, a number other than 0. -/
def Double.infOfSign (s : ℚ) : Double := if 0 < s then .posInf else .negInf

/-- The product `a * b`: an infinity times zero is a NaN. -/
def Double.mul : Double → Double → Double
  | .finite a, .finite b => Double.ofRat (a * b)
  | .finite a, .posInf => if a = 0 then .nan else Double.infOfSign a
  | .finite a, .negInf => if a = 0 then .nan else Double.infOfSign (-a)
  | .posInf, .finite b => if b = 0 then .nan else Double.infOfSign b
  | .negInf, .finite b => if b = 0 then .nan else Double.infOfSign (-b)
  | .posInf, .posInf => .posInf
  | .posInf, .negInf => .negInf
  | .negInf, .posInf => .negInf
  | .negInf, .negInf => .posInf
  | .nan, _ => .nan
  | _, .nan => .nan

/-- The sum `a + b`: the sum of the two infinities is a NaN. -/
def Double.add : Double → Double → Double
  | .finite a, .finite b => Double.ofRat (a + b)
  | .finite _, .posInf => .posInf
  | .finite _, .negInf => .negInf
  | .posInf, .finite _ => .posInf
  | .negInf, .finite _ => .negInf
  | .posInf, .posInf => .posInf
  | .negInf, .negInf => .negInf
  | .posInf, .negInf => .nan
  | .negInf, .posInf => .nan
  | .nan, _ => .nan
  | _, .nan => .nan

/-- The negation `-a`. -/
def Double.neg : Double → Double
  | .finite a => .finite (-a)
  | .posInf => .negInf
  | .negInf => .posInf
  | .nan => .nan

/-- The difference `a - b`. -/
def Double.sub (a b : Double) : Double := a.add b.neg

/-- The call `std::floor(a)`: an infinity and a NaN are returned as they are. -/
def Double.floor : Double → Double
  | .finite a => .finite ⌊a⌋
  | .posInf => .posInf
  | .negInf => .negInf
  | .nan => .nan

/-- The comparison `a < b`, false when an operand is a NaN. -/
def Double.lt : Double → Double → Bool
  | .finite a, .finite b => decide (a < b)
  | .finite _, .posInf => true
  | .negInf, .finite _ => true
  | .negInf, .posInf => true
  | _, _ => false

/-- The call `std::clamp(v, lo, hi)`, which is
`(v < lo) ? lo : (hi < v) ? hi : v`: both comparisons are false for a NaN,
which is returned as it is. -/
def Double.clamp (v lo hi : Double) : Double :=
  if v.lt lo then lo else if hi.lt v then hi else v

/-- The conversion of a `double` to `int`: truncation towards zero when the
truncated value is an `int`.  For the other values (a NaN, an infinity, a
number outside the range of `int`) the conversion is undefined in C++; the
model gives the value that the conversion instruction of x86-64 delivers,
`INT_MIN`. -/
def Double.toInt : Double → Int
  | .finite q => if -2 ^ 31 - 1 < q ∧ q < 2 ^ 31 then TextureUnpacker.toInt q else -2 ^ 31
  | _ => -2 ^ 31

/-- Line 228: the first two components of `solutionMatrix * (u, v, 0, 1)`, in
`double` arithmetic, for a finite matrix and finite UV coordinates. -/
def transformUVDouble (solutionMatrix : Matrix4d) (uv : Vector2d) : Double × Double :=
  let row := fun (i : Fin 4) =>
    ((((Double.finite (solutionMatrix i 0)).mul (.finite uv.x)).add
        ((Double.finite (solutionMatrix i 1)).mul (.finite uv.y))).add
      ((Double.finite (solutionMatrix i 2)).mul (.finite 0))).add
    ((Double.finite (solutionMatrix i 3)).mul (.finite 1))
  (row 0, row 1)

/-- Lines 228 and 235-236: the corner `baryc[v_num]` of a vertex with the UV
coordinates `uv`, in `double` arithmetic. -/
def cornerDouble (solutionMatrix : Matrix4d) (uv : Vector2d) (w h : Double) : Double × Double :=
  ((transformUVDouble solutionMatrix uv).1.mul w, (transformUVDouble solutionMatrix uv).2.mul h)

/-- Line 257: the combination `baryc[0] * m0 + baryc[1] * m1 + baryc[2] * m2`,
in `double` arithmetic. -/
def barycentricDouble (b0 b1 b2 : Double × Double) (m0 m1 m2 : Double) : Double × Double :=
  (((b0.1.mul m0).add (b1.1.mul m1)).add (b2.1.mul m2),
   ((b0.2.mul m0).add (b1.2.mul m1)).add (b2.2.mul m2))

/-- Lines 260-276: the atlas pixel `(u0, v0)` of a sample at `pixel1`, in
`double` arithmetic. -/
def destPixelDouble (w h : Double) (pixel1 : Double × Double) : Int × Int :=
  let x1 := pixel1.1.floor
  let y1 := pixel1.2.floor
  let u0 : Int := (Double.clamp x1 (.finite 0) (w.sub (.finite 1))).toInt
  let v0 : Int := (Double.clamp y1 (.finite 0) (h.sub (.finite 1))).toInt
  let v0 : Int := ((h.sub (Double.ofInt v0)).sub (.finite 1)).toInt
  (u0, v0)

/-- The atlas pixel of the first sample of a face (`baryc_alpha = 0.0`,
`baryc_beta = 0.0`, which pass the loop conditions `0.0 < 1.0` and
`0.0 < 1.0 - 0.0` whatever the steps are): the weights are `m0 = 1.0`,
`m1 = 0.0`, `m2 = 0.0`.  The face has the UV coordinates `uv0`, `uv1`, `uv2`
and the atlas has `w` by `h` pixels. -/
def firstSampleDouble (solutionMatrix : Matrix4d) (uv0 uv1 uv2 : Vector2d) (w h : Int) :
    Int × Int :=
  let m0 := ((Double.finite 1).sub (.finite 0)).sub (.finite 0)
  destPixelDouble (Double.ofInt w) (Double.ofInt h)
    (barycentricDouble
      (cornerDouble solutionMatrix uv0 (Double.ofInt w) (Double.ofInt h))
      (cornerDouble solutionMatrix uv1 (Double.ofInt w) (Double.ofInt h))
      (cornerDouble solutionMatrix uv2 (Double.ofInt w) (Double.ofInt h))
      m0 (.finite 0) (.finite 0))

/-- A transform that scales `u` by `2 ^ 1023` and keeps `v`. -/
def hugeScale : Matrix4d := fun i j =>
  if i = j then (if i.val = 0 then 2 ^ 1023 else 1) else 0

end TextureUnpacker

/-!
# Mesh export: a model of `saveMesh` and `alembicCode` in `Main.cpp`

The values that the flattening functions hand to the exporter are
`float32_t`; like the doubles they are exact rationals in the model.  The time
sampling of line 333 is computed in `float` and is rounded (`float32`).  The
loops marked `#pragma omp for` write disjoint entries and are run in index
order.
-/

namespace MKV_Rendering

open TextureUnpacker

/-- Lines 120-133: `double3ToAlembic`.  The result is resized to `3 * size`
and the loop writes the three entries of every element. -/
def double3ToAlembic (source : List Vector3d) : List ℚ :=
  (List.range source.length).foldl
    (fun (result : List ℚ) (i : Nat) =>
      match source[i]? with
      | some p => ((result.set (i * 3 + 0) p.x).set (i * 3 + 1) p.y).set (i * 3 + 2) p.z
      | none => result)
    (List.replicate (source.length * 3) 0)

/-- Lines 135-148: `double3ToAlembicNegate`. -/
def double3ToAlembicNegate (source : List Vector3d) : List ℚ :=
  (List.range source.length).foldl
    (fun (result : List ℚ) (i : Nat) =>
      match source[i]? with
      | some p => ((result.set (i * 3 + 0) p.x).set (i * 3 + 1) p.y).set (i * 3 + 2) p.z
      | none => result)
    (List.replicate (source.length * 3) 0)

/-- Lines 150-160: `toAlembicColour`, one `C3f` per element. -/
def toAlembicColour (source : List Vector3d) : List Vector3d :=
  (List.range source.length).foldl
    (fun (result : List Vector3d) (i : Nat) =>
      match source[i]? with
      | some p => result.set i ⟨p.x, p.y, p.z⟩
      | none => result)
    (List.replicate source.length ⟨0, 0, 0⟩)

/-- Lines 162-171: `toAlembicUVs`. -/
def toAlembicUVs (source : List Vector2d) : List ℚ :=
  (List.range source.length).foldl
    (fun (result : List ℚ) (i : Nat) =>
      match source[i]? with
      | some p => (result.set (i * 2 + 0) p.x).set (i * 2 + 1) p.y
      | none => result)
    (List.replicate (source.length * 2) 0)

/-- Lines 126-128: the assignments of iteration `i` of the loop of
`double3ToAlembic`, each as the entry of `result` it writes and the value. -/
def double3Writes (source : List Vector3d) (i : Nat) : List (Nat × ℚ) :=
  match source[i]? with
  | some p => [(i * 3 + 0, p.x), (i * 3 + 1, p.y), (i * 3 + 2, p.z)]
  | none => []

/-- Lines 166-167: the assignments of iteration `i` of the loop of
`toAlembicUVs`. -/
def uvWrites (source : List Vector2d) (i : Nat) : List (Nat × ℚ) :=
  match source[i]? with
  | some p => [(i * 2 + 0, p.x), (i * 2 + 1, p.y)]
  | none => []

/-- A loop over the indices `order` whose iteration `i` executes the
assignments `writes i` on `result`. -/
def runWrites (writes : Nat → List (Nat × ℚ)) (order : List Nat) (result : List ℚ) : List ℚ :=
  order.foldl
    (fun (result : List ℚ) (i : Nat) =>
      (writes i).foldl (fun (result : List ℚ) (w : Nat × ℚ) => result.set w.1 w.2) result)
    result

/-- The fields of `AlembicMeshData` that `saveMesh` fills. -/
structure AlembicMeshData where
  vertices : List ℚ
  numVerts : Nat
  numIndicies : Nat
  indicies : List Int
  numCounts : Nat
  counts : List Int
  normals : List ℚ
  numNormals : Nat
  uvs : List ℚ
  numUvs : Nat
  vertexColours : List Vector3d
  deriving DecidableEq

/-- Modelled from the spec: the exporter `AlembicWriter` is not under `src/`.
The spec describes an animated-mesh container keyed by frame index with a
global time sampling (start time, per-frame delta); the model keeps the frames
handed to `saveFrame`, in order, and the arguments of the last
`setTimeSampling`, which are `float` values: `none` is a value that is not a
finite number (an infinity or a NaN). -/
structure AlembicWriter where
  frames : List AlembicMeshData
  startTime : Option ℚ
  deltaTime : Option ℚ
  deriving DecidableEq

/-- Modelled from the spec: `AlembicWriter::saveFrame` appends one frame. -/
def AlembicWriter.saveFrame (w : AlembicWriter) (meshData : AlembicMeshData) : AlembicWriter :=
  { w with frames := w.frames ++ [meshData] }

/-- Modelled from the spec: `AlembicWriter::setTimeSampling` records the start
time and the per-frame delta. -/
def AlembicWriter.setTimeSampling (w : AlembicWriter) (start delta : Option ℚ) :
    AlembicWriter :=
  { w with startTime := start, deltaTime := delta }

/-- Lines 186-191: the loop that fills `meshData.indicies`. -/
def fillIndicies (triangles_ : List Vector3i) (numIndicies : Nat) : List Int :=
  (List.range (numIndicies / 3)).foldl
    (fun (indicies : List Int) (i : Nat) =>
      match triangles_[i]? with
      | some t => ((indicies.set (i * 3 + 0) t.x).set (i * 3 + 1) t.z).set (i * 3 + 2) t.y
      | none => indicies)
    (List.replicate numIndicies 0)

/-- Lines 198-200: the loop that fills `meshData.counts`. -/
def fillCounts (numCounts : Nat) : List Int :=
  (List.range numCounts).foldl (fun (counts : List Int) (i : Nat) => counts.set i 3)
    (List.replicate numCounts 0)

/-- Lines 173-208: the `meshData` that `saveMesh` hands to the exporter. -/
def meshDataOf (object_to_draw : TriangleMesh) : AlembicMeshData :=
  let vertices := double3ToAlembic object_to_draw.vertices_
  let numVerts := vertices.length / 3
  let numIndicies := object_to_draw.triangles_.length * 3
  let indicies := fillIndicies object_to_draw.triangles_ numIndicies
  let numCounts := numIndicies / 3
  let counts := fillCounts numCounts
  let normals := double3ToAlembicNegate object_to_draw.vertex_normals_
  let numNormals := normals.length / 3
  let uvs := toAlembicUVs object_to_draw.triangle_uvs_
  let numUvs := object_to_draw.triangle_uvs_.length
  let vertexColours := toAlembicColour object_to_draw.vertex_colors_
  { vertices := vertices, numVerts := numVerts, numIndicies := numIndicies,
    indicies := indicies, numCounts := numCounts, counts := counts, normals := normals,
    numNormals := numNormals, uvs := uvs, numUvs := numUvs, vertexColours := vertexColours }

/-- Lines 172-212: `saveMesh`. -/
def saveMesh (object_to_draw : TriangleMesh) (alembicWriter : AlembicWriter) : AlembicWriter :=
  alembicWriter.saveFrame (meshDataOf object_to_draw)

/-- The operations of `CameraManager` that `alembicCode` calls; the class is
not under `src/` and is a parameter of the model, with `σ` its state. -/
structure CameraManager (σ : Type) where
  GetHighestTimestamp : σ → Nat
  CycleAllCamerasForward : σ → Bool × σ
  GetMesh : σ → TriangleMesh × σ
  CreateUVMapAndTexture : σ → TriangleMesh → TriangleMesh × σ

/-- A `uint64_t` value. -/
def toUInt64 (n : Int) : Nat := (n % 2 ^ 64).toNat

/-- Lines 316-329: the `while` loop of `alembicCode`, run for at most `fuel`
tests of its condition; `i` counts the iterations. -/
def alembicLoop {σ : Type} (ops : CameraManager σ) :
    Nat → σ → AlembicWriter → Nat → Option (σ × AlembicWriter × Nat)
  | 0, _, _, _ => none
  | fuel + 1, cm, alembicWriter, i =>
    let cycled := ops.CycleAllCamerasForward cm
    if cycled.1 then
      let alembicMesh := ops.GetMesh cycled.2
      let stitched := ops.CreateUVMapAndTexture alembicMesh.2 alembicMesh.1
      alembicLoop ops fuel stitched.2 (saveMesh stitched.1 alembicWriter) (i + 1)
    else some (cycled.2, alembicWriter, i)

/-- An `int` value: the count `i` of line 316 wraps to 32 bits (an `i++` past
`INT_MAX` is undefined in C++). -/
def toInt32 (n : Int) : Int := (n + 2 ^ 31) % 2 ^ 32 - 2 ^ 31

/-- The `float` quotient `a / b` of two finite `float` values: the exact
quotient rounded to `float`, and `none` when the result is not a finite number
(`b` is zero, or the rounded quotient reaches `2 ^ 128`). -/
def floatDiv (a b : ℚ) : Option ℚ := if b = 0 then none else toFloat (a / b)

/-- Lines 288-333: `alembicCode`, from the state `cm` of the camera manager
after its construction.  The result is the state of the camera manager and of
the writer at the end.  Line 333 computes in `float`: each of `(float)lowTime`,
`(float)(highTime - lowTime)`, `(float)i` and `(float)i * 1000000.0f` is
rounded to 24 significant bits (none of them reaches `2 ^ 128`, the operands
being below `2 ^ 64` and `2 ^ 31 * 1000000`), and so is each quotient. -/
def alembicCode {σ : Type} (ops : CameraManager σ) (fuel : Nat) (cm : σ) :
    Option (σ × AlembicWriter) :=
  let lowTime : Nat := toUInt64 (ops.GetHighestTimestamp cm)
  let alembicWriter : AlembicWriter :=
    { frames := [], startTime := some 1, deltaTime := floatDiv 1 30 }
  match alembicLoop ops fuel cm alembicWriter 0 with
  | none => none
  | some (cm1, alembicWriter1, i) =>
    let highTime : Nat := toUInt64 (ops.GetHighestTimestamp cm1)
    some (cm1, alembicWriter1.setTimeSampling
      (floatDiv (float32 (lowTime : ℚ)) 1000000)
      (floatDiv (float32 (toUInt64 ((highTime : Int) - (lowTime : Int)) : ℚ))
        (float32 (float32 ((toInt32 (i : Int) : Int) : ℚ) * 1000000))))

/-! ## Concrete inputs -/

/-- A mesh with the two vertices (1, 2, 3) and (4, 5, 6), the two UV entries
(7, 8) and (9, 10) and no triangle. -/
def twoVertexMesh : TriangleMesh :=
  { vertices_ := [⟨1, 2, 3⟩, ⟨4, 5, 6⟩], triangles_ := [],
    triangle_uvs_ := [⟨7, 8⟩, ⟨9, 10⟩], triangle_material_ids_ := [] }

/-- A camera manager over a recording: the state is the current timestamp and
the timestamps of the frames still to come; every frame yields `triangleMesh`. -/
def recordedCameras : CameraManager (Nat × List Nat) :=
  { GetHighestTimestamp := fun cm => cm.1,
    CycleAllCamerasForward := fun cm =>
      match cm.2 with
      | [] => (false, cm)
      | t :: rest => (true, (t, rest)),
    GetMesh := fun cm => (triangleMesh, cm),
    CreateUVMapAndTexture := fun cm mesh => (mesh, cm) }

/-- A mesh with the two vertex normals (-1, 2, -3) and (0, -5, 6). -/
def normalsMesh : TriangleMesh :=
  { vertices_ := [⟨1, 2, 3⟩, ⟨4, 5, 6⟩], triangles_ := [],
    triangle_uvs_ := [⟨7, 8⟩, ⟨9, 10⟩], triangle_material_ids_ := [],
    vertex_normals_ := [⟨-1, 2, -3⟩, ⟨0, -5, 6⟩] }

/-- An empty writer. -/
def emptyWriter : AlembicWriter := { frames := [], startTime := some 0, deltaTime := some 0 }

end MKV_Rendering

namespace TextureUnpacker

end TextureUnpacker

/-!
# Frame decoding: a model of `MKV_Data` in `MKV_Data.cpp`

The Azure Kinect SDK, libjpeg-turbo and `ErrorLogger` are not under `src/`.
A capture is a record of its images; the playback, the JPEG decoder and the
depth transformation are parameters of the model (`Sdk`).  The wrapper
`ErrorLogger::EXECUTE` is a plain call.
-/

namespace MKV_Data

open TextureUnpacker

/-- The ways a call can end without returning. -/
inductive Stop where
  /-- `ErrorLogger::LOG_ERROR` called with its flag set, when the logger
  throws on that flag. -/
  | fatal
  /-- The pointer `capture` is dereferenced while it is null. -/
  | nullCapture
  /-- An access outside an image buffer. -/
  | buffer (f : Fault)
  /-- The iteration budget of the modelled `while` loop is used up. -/
  | fuel
  deriving DecidableEq

/-- The image formats of the SDK. -/
inductive k4a_image_format_t where
  | K4A_IMAGE_FORMAT_COLOR_MJPG
  | K4A_IMAGE_FORMAT_COLOR_NV12
  | K4A_IMAGE_FORMAT_COLOR_YUY2
  | K4A_IMAGE_FORMAT_COLOR_BGRA32
  | K4A_IMAGE_FORMAT_DEPTH16
  | K4A_IMAGE_FORMAT_IR16
  | K4A_IMAGE_FORMAT_CUSTOM
  deriving DecidableEq

/-- An image of a capture, with what the getters of the SDK return. -/
structure k4a_image where
  format : k4a_image_format_t
  width_pixels : Int
  height_pixels : Int
  device_timestamp_usec : Nat
  buffer : List Byte
  deriving DecidableEq

/-- A capture; `none` is the null image handle. -/
structure k4a_capture where
  color_image : Option k4a_image
  depth_image : Option k4a_image
  ir_image : Option k4a_image
  deriving DecidableEq

/-- What `k4a_playback_get_next_capture` answers: on success the capture. -/
inductive k4a_stream_result_t where
  | K4A_STREAM_RESULT_SUCCEEDED (capture : k4a_capture)
  | K4A_STREAM_RESULT_FAILED
  | K4A_STREAM_RESULT_EOF
  deriving DecidableEq

/-- The external libraries, for a playback handle of type `P`.
`tjDecompress2` answers the decoded BGRA buffer, or `none` for a non-zero
return code; the depth transformation answers the transformed depth buffer, or
`none` for a failure; `fatalThrows` tells whether `ErrorLogger::LOG_ERROR`
throws when its flag is set. -/
structure Sdk (P : Type) where
  k4a_playback_get_next_capture : P → k4a_stream_result_t × P
  tjDecompress2 : List Byte → Int → Int → Option (List Byte)
  k4a_transformation_depth_image_to_color_camera : k4a_image → Int → Int → Option (List Byte)
  fatalThrows : Bool

/-- A colour image with its depth image (`open3d::geometry::RGBDImage`). -/
structure RGBDImage where
  color_ : Image
  depth_ : Image
  deriving DecidableEq

/-- The members of an `MKV_Data` object that the decoding uses, the two static
buffers of `DecompressCapture`, the messages logged so far and, not a variable
of the program, the number of calls of `k4a_playback_get_next_capture`.
`capture` is `none` for the null pointer and `some none` for a null handle. -/
structure Camera (P : Type) where
  mkv_file : String
  handle : P
  capture : Option (Option k4a_capture)
  _timestamp : Nat
  transform : Bool
  color_buffer : Option Image
  rgbd_buffer : Option RGBDImage
  errors : List String
  advanced : Nat

/-- The call `ErrorLogger::LOG_ERROR(message, flag)`. -/
def LOG_ERROR (fatalThrows : Bool) (message : String) (flag : Bool) (errors : List String) :
    Except Stop (List String) :=
  if flag && fatalThrows then .error .fatal else .ok (errors ++ [message])

/-- Modelled from the spec: `Image::Prepare` of the image class sets the layout
and resizes the buffer to `width * height * channels * bytes` bytes, keeping
the bytes it had and filling with zeros. -/
def Prepare (im : Image) (width height num_of_channels bytes_per_channel : Int) : Image :=
  let size := (width * height * num_of_channels * bytes_per_channel).toNat
  { width_ := width, height_ := height, num_of_channels_ := num_of_channels,
    bytes_per_channel_ := bytes_per_channel,
    data_ := im.data_.take size ++ List.replicate (size - im.data_.length) 0 }

/-- A default-constructed image. -/
def emptyImage : Image :=
  { width_ := 0, height_ := 0, num_of_channels_ := 0, bytes_per_channel_ := 0, data_ := [] }

/-- Lines 167-170: the assignment of one channel of one pixel. -/
def convertChannel (bgra : Image) (u v : Int) (c : Nat) (rgb : Image) : Except Fault Image := do
  let b ← bgra.load (bgra.PointerAt u v (2 - (c : Int)))
  rgb.store (rgb.PointerAt u v (c : Int)) b

/-- Lines 165-172: the three nested loops of `ConvertBGRAToRGB`. -/
def convertPixels (bgra rgb : Image) : Except Fault Image :=
  forEach
    (fun (v : Nat) (rgb : Image) =>
      forEach
        (fun (u : Nat) (rgb : Image) =>
          forEach (fun (c : Nat) (rgb : Image) => convertChannel bgra u v c rgb)
            (List.range 3) rgb)
        (List.range bgra.width_.toNat) rgb)
    (List.range bgra.height_.toNat) rgb

/-- Lines 141-174: `ConvertBGRAToRGB`; the result is the image `rgb` and the
log. -/
def ConvertBGRAToRGB (fatalThrows : Bool) (bgra rgb : Image) (errors : List String) :
    Except Stop (Image × List String) := do
  let errors ← if bgra.bytes_per_channel_ ≠ 1 then
      LOG_ERROR fatalThrows "BGRA input image must have 1 byte per channel." true errors
    else pure errors
  let errors ← if rgb.bytes_per_channel_ ≠ 1 then
      LOG_ERROR fatalThrows "RGB output image must have 1 byte per channel." true errors
    else pure errors
  let errors ← if bgra.num_of_channels_ ≠ 4 then
      LOG_ERROR fatalThrows "BGRA input image must have 4 channels." true errors
    else pure errors
  let errors ← if rgb.num_of_channels_ ≠ 3 then
      LOG_ERROR fatalThrows "RGB output image must have 3 channels." true errors
    else pure errors
  let errors ← if bgra.width_ ≠ rgb.width_ ∨ bgra.height_ ≠ rgb.height_ then
      LOG_ERROR fatalThrows "BGRA input image and RGB output image have different dimensions."
        true errors
    else pure errors
  match convertPixels bgra rgb with
  | .error f => .error (.buffer f)
  | .ok rgb1 => pure (rgb1, errors)

/-- Lines 143-160: the five checks at the head of `ConvertBGRAToRGB`, by
themselves; the result is the log after them. -/
def requirementChecks (fatalThrows : Bool) (bgra rgb : Image) (errors : List String) :
    Except Stop (List String) := do
  let errors ← if bgra.bytes_per_channel_ ≠ 1 then
      LOG_ERROR fatalThrows "BGRA input image must have 1 byte per channel." true errors
    else pure errors
  let errors ← if rgb.bytes_per_channel_ ≠ 1 then
      LOG_ERROR fatalThrows "RGB output image must have 1 byte per channel." true errors
    else pure errors
  let errors ← if bgra.num_of_channels_ ≠ 4 then
      LOG_ERROR fatalThrows "BGRA input image must have 4 channels." true errors
    else pure errors
  let errors ← if rgb.num_of_channels_ ≠ 3 then
      LOG_ERROR fatalThrows "RGB output image must have 3 channels." true errors
    else pure errors
  if bgra.width_ ≠ rgb.width_ ∨ bgra.height_ ≠ rgb.height_ then
    LOG_ERROR fatalThrows "BGRA input image and RGB output image have different dimensions."
      true errors
  else pure errors

/-- The two images that `ConvertBGRAToRGB` has references to. -/
structure ImageRefs where
  bgra : Image
  rgb : Image
  deriving DecidableEq

/-- Lines 167-170 on both images: the assignment reads `bgra` and writes
`rgb`. -/
def convertChannelRefs (u v : Int) (c : Nat) (s : ImageRefs) : Except Fault ImageRefs := do
  let b ← s.bgra.load (s.bgra.PointerAt u v (2 - (c : Int)))
  let rgb ← s.rgb.store (s.rgb.PointerAt u v (c : Int)) b
  pure { s with rgb := rgb }

/-- Lines 165-172 on both images. -/
def convertPixelsRefs (s : ImageRefs) : Except Fault ImageRefs :=
  forEach
    (fun (v : Nat) (s : ImageRefs) =>
      forEach
        (fun (u : Nat) (s : ImageRefs) =>
          forEach (fun (c : Nat) (s : ImageRefs) => convertChannelRefs u v c s)
            (List.range 3) s)
        (List.range s.bgra.width_.toNat) s)
    (List.range s.bgra.height_.toNat) s

/-- The channel indices of the pixels in the order of the three loops, as
(v, u, c). -/
def pixelChannels (width height : Int) : List (Nat × Nat × Nat) :=
  (List.range height.toNat).flatMap (fun v =>
    (List.range width.toNat).flatMap (fun u => (List.range 3).map (fun c => (v, u, c))))

/-- The image returned, if any. -/
def imageOr (r : Except Stop (Image × List String)) (fallback : Image) : Image :=
  match r with
  | .ok x => x.1
  | .error _ => fallback

/-- Lines 262-284: `GetCaptureTimestamp`, the smallest device timestamp of the
images of the capture, starting from `(uint64_t)-1`. -/
def GetCaptureTimestamp (capture : Option k4a_capture) : Nat :=
  let images : List (Option k4a_image) :=
    [capture.bind (fun c => c.color_image), capture.bind (fun c => c.depth_image),
     capture.bind (fun c => c.ir_image)]
  images.foldl
    (fun (min_timestamp : Nat) (image : Option k4a_image) =>
      match image with
      | some im =>
        if im.device_timestamp_usec % 2 ^ 64 < min_timestamp then
          im.device_timestamp_usec % 2 ^ 64
        else min_timestamp
      | none => min_timestamp)
    (2 ^ 64 - 1)

/-- Lines 286-310: `CycleCaptureForwards`. -/
def CycleCaptureForwards {P : Type} (sdk : Sdk P) (cam : Camera P) : Except Stop (Camera P) :=
  let next := sdk.k4a_playback_get_next_capture cam.handle
  let cam1 : Camera P :=
    { cam with capture := some none, handle := next.2, advanced := cam.advanced + 1 }
  match next.1 with
  | .K4A_STREAM_RESULT_EOF =>
    match LOG_ERROR sdk.fatalThrows ("Stream has reached EOF on: " ++ cam.mkv_file) true
        cam1.errors with
    | .error e => .error e
    | .ok errors => .ok { cam1 with errors := errors }
  | .K4A_STREAM_RESULT_FAILED =>
    match LOG_ERROR sdk.fatalThrows ("Stream failed on: " ++ cam.mkv_file) true cam1.errors with
    | .error e => .error e
    | .ok errors => .ok { cam1 with errors := errors }
  | .K4A_STREAM_RESULT_SUCCEEDED capture =>
    .ok { cam1 with capture := some (some capture),
                    _timestamp := GetCaptureTimestamp (some capture) }

/-- Lines 176-260: `DecompressCapture`.  The result is the returned pointer
(`none` for null) and the object afterwards. -/
def DecompressCapture {P : Type} (sdk : Sdk P) (cam : Camera P) :
    Except Stop (Option RGBDImage × Camera P) :=
  let color_buffer : Image := cam.color_buffer.getD emptyImage
  let rgbd_buffer : RGBDImage := cam.rgbd_buffer.getD ⟨emptyImage, emptyImage⟩
  let cam : Camera P :=
    { cam with color_buffer := some color_buffer, rgbd_buffer := some rgbd_buffer }
  match cam.capture with
  | none => .error .nullCapture
  | some capture =>
    match capture.bind (fun c => c.color_image), capture.bind (fun c => c.depth_image) with
    | some k4a_color, some k4a_depth =>
      if k4a_color.format ≠ .K4A_IMAGE_FORMAT_COLOR_MJPG then
        match LOG_ERROR sdk.fatalThrows
            ("Unexpected image format at " ++ toString cam._timestamp
              ++ ". The stream may have been corrupted.") false cam.errors with
        | .error e => .error e
        | .ok errors => .ok (none, { cam with errors := errors })
      else
        let width := k4a_color.width_pixels
        let height := k4a_color.height_pixels
        let rgb := Prepare rgbd_buffer.color_ width height 3 1
        let bgra := Prepare color_buffer width height 4 1
        match sdk.tjDecompress2 k4a_color.buffer width height with
        | none =>
          match LOG_ERROR sdk.fatalThrows
              ("Failed to decompress color image at " ++ toString cam._timestamp ++ ".")
              false cam.errors with
          | .error e => .error e
          | .ok errors =>
            .ok (none, { cam with color_buffer := some bgra,
                                  rgbd_buffer := some { rgbd_buffer with color_ := rgb },
                                  errors := errors })
        | some decoded =>
          let bgra := { bgra with data_ := decoded }
          match ConvertBGRAToRGB sdk.fatalThrows bgra rgb cam.errors with
          | .error e => .error e
          | .ok (rgb, errors) =>
            if cam.transform then
              let depth := Prepare rgbd_buffer.depth_ width height 1 2
              match sdk.k4a_transformation_depth_image_to_color_camera k4a_depth width height with
              | none =>
                match LOG_ERROR sdk.fatalThrows
                    ("Failed to transform depth frame to color frame at "
                      ++ toString cam._timestamp ++ ".") true errors with
                | .error e => .error e
                | .ok errors =>
                  .ok (none, { cam with color_buffer := some bgra,
                                        rgbd_buffer := some ⟨rgb, depth⟩, errors := errors })
              | some transformed =>
                let frame : RGBDImage := ⟨rgb, { depth with data_ := transformed }⟩
                .ok (some frame, { cam with color_buffer := some bgra,
                                            rgbd_buffer := some frame, errors := errors })
            else
              let depth := Prepare rgbd_buffer.depth_ k4a_depth.width_pixels
                k4a_depth.height_pixels 1 2
              if k4a_depth.buffer.length ≤ depth.data_.length then
                let frame : RGBDImage :=
                  ⟨rgb, { depth with
                    data_ := k4a_depth.buffer ++ depth.data_.drop k4a_depth.buffer.length }⟩
                .ok (some frame, { cam with color_buffer := some bgra,
                                            rgbd_buffer := some frame, errors := errors })
              else .error (.buffer .outOfBounds)
    | _, _ =>
      match LOG_ERROR sdk.fatalThrows
          ("Capture at " ++ toString cam._timestamp ++ " empty, skipping") false cam.errors with
      | .error e => .error e
      | .ok errors => .ok (none, { cam with errors := errors })

/-- Lines 418-437: `GetFrameRGBD`, with at most `fuel` iterations of its
`while` loop. -/
def GetFrameRGBD {P : Type} (sdk : Sdk P) : Nat → Camera P → Except Stop (RGBDImage × Camera P)
  | 0, _ => .error .fuel
  | fuel + 1, cam =>
    match DecompressCapture sdk cam with
    | .error e => .error e
    | .ok (some rgbd, cam1) => .ok (rgbd, cam1)
    | .ok (none, cam1) =>
      match CycleCaptureForwards sdk cam1 with
      | .error e => .error e
      | .ok cam2 => GetFrameRGBD sdk fuel cam2

/-- The object `last` is reached from `first` by skipping `k` captures: `k`
times, `DecompressCapture` returned null and `CycleCaptureForwards` was
called. -/
inductive SkipsTo {P : Type} (sdk : Sdk P) : Camera P → Nat → Camera P → Prop where
  | here (cam : Camera P) : SkipsTo sdk cam 0 cam
  | skip (cam cam1 cam2 last : Camera P) (k : Nat) :
      DecompressCapture sdk cam = .ok (none, cam1) →
      CycleCaptureForwards sdk cam1 = .ok cam2 →
      SkipsTo sdk cam2 k last → SkipsTo sdk cam (k + 1) last

/-- The frame and object a call returned, or `fallback` when it did not
return. -/
def returnedOr {P : Type} (r : Except Stop (RGBDImage × Camera P))
    (fallback : RGBDImage × Camera P) : RGBDImage × Camera P :=
  match r with
  | .ok x => x
  | .error _ => fallback

/-- Whether a call returned. -/
def returns {P : Type} (r : Except Stop (RGBDImage × Camera P)) : Bool :=
  match r with
  | .ok _ => true
  | .error _ => false

/-! ## Concrete inputs -/

/-- A playback over a list of captures, a decoder that fails on an empty JPEG
buffer, and a logger that does not throw. -/
def listSdk : Sdk (List k4a_capture) :=
  { k4a_playback_get_next_capture := fun l =>
      match l with
      | [] => (.K4A_STREAM_RESULT_EOF, [])
      | c :: rest => (.K4A_STREAM_RESULT_SUCCEEDED c, rest),
    tjDecompress2 := fun buffer width height =>
      if buffer = [] then none else some (List.replicate (width * height * 4).toNat 7),
    k4a_transformation_depth_image_to_color_camera := fun _ width height =>
      some (List.replicate (width * height * 2).toNat 0),
    fatalThrows := false }

/-- A 1×1 MJPG colour image. -/
def colourImage : k4a_image :=
  { format := .K4A_IMAGE_FORMAT_COLOR_MJPG, width_pixels := 1, height_pixels := 1,
    device_timestamp_usec := 100, buffer := [1] }

/-- A 1×1 depth image. -/
def depthImage : k4a_image :=
  { format := .K4A_IMAGE_FORMAT_DEPTH16, width_pixels := 1, height_pixels := 1,
    device_timestamp_usec := 100, buffer := [0, 0] }

/-- A capture with colour and depth. -/
def goodCapture : k4a_capture :=
  { color_image := some colourImage, depth_image := some depthImage, ir_image := none }

/-- A capture without depth image. -/
def noDepthCapture : k4a_capture :=
  { color_image := some colourImage, depth_image := none, ir_image := none }

/-- A 2×1 BGRA image with the pixels (10, 20, 30, 255) and (40, 50, 60, 255). -/
def bgraImage : Image :=
  { width_ := 2, height_ := 1, num_of_channels_ := 4, bytes_per_channel_ := 1,
    data_ := [10, 20, 30, 255, 40, 50, 60, 255] }

/-- The image `bgraImage` with other bytes in channel 3. -/
def bgraImageClear : Image :=
  { width_ := 2, height_ := 1, num_of_channels_ := 4, bytes_per_channel_ := 1,
    data_ := [10, 20, 30, 0, 40, 50, 60, 1] }

/-- A zeroed 2×1 RGB image. -/
def rgbZero : Image :=
  { width_ := 2, height_ := 1, num_of_channels_ := 3, bytes_per_channel_ := 1,
    data_ := [0, 0, 0, 0, 0, 0] }

/-- A camera whose current capture lacks the depth image and whose next
capture is good. -/
def startCamera : Camera (List k4a_capture) :=
  { mkv_file := "a.mkv", handle := [goodCapture], capture := some (some noDepthCapture),
    _timestamp := 0, transform := true, color_buffer := none, rgbd_buffer := none,
    errors := [], advanced := 0 }

end MKV_Data

namespace TextureUnpacker

/-! ## Pixel arithmetic -/

theorem toInt_intCast (z : Int) : toInt (z : ℚ) = z := by
  unfold toInt
  split_ifs <;> simp

theorem clamp_intCast (a lo hi : Int) :
    clamp (a : ℚ) (lo : ℚ) (hi : ℚ)
      = ((if a < lo then lo else if hi < a then hi else a : Int) : ℚ) := by
  unfold clamp
  by_cases h1 : a < lo
  · have : (a : ℚ) < (lo : ℚ) := by exact_mod_cast h1
    simp [h1, this]
  · have h1q : ¬ (a : ℚ) < (lo : ℚ) := by exact_mod_cast h1
    by_cases h2 : hi < a
    · have : (hi : ℚ) < (a : ℚ) := by exact_mod_cast h2
      simp [h1, h1q, h2, this]
    · have : ¬ (hi : ℚ) < (a : ℚ) := by exact_mod_cast h2
      simp [h1, h1q, h2, this]

/-- The clamped pixel index of a floored coordinate, as an integer. -/
theorem toInt_clamp_floor (x : ℚ) (n : Int) :
    toInt (clamp ((⌊x⌋ : Int) : ℚ) 0 ((n : ℚ) - 1))
      = if ⌊x⌋ < 0 then 0 else if n - 1 < ⌊x⌋ then n - 1 else ⌊x⌋ := by
  have h := clamp_intCast ⌊x⌋ 0 (n - 1)
  have e : (((n - 1 : Int)) : ℚ) = (n : ℚ) - 1 := by push_cast; ring
  rw [e] at h
  simp only [Int.cast_zero] at h
  rw [h, toInt_intCast]

theorem destPixel_fst (w h : Int) (pixel1 : Vector2d) :
    (destPixel w h pixel1).1
      = if ⌊pixel1.x⌋ < 0 then 0 else if w - 1 < ⌊pixel1.x⌋ then w - 1 else ⌊pixel1.x⌋ := by
  simp only [destPixel]
  exact toInt_clamp_floor pixel1.x w

theorem destPixel_snd (w h : Int) (pixel1 : Vector2d) :
    (destPixel w h pixel1).2
      = h - (if ⌊pixel1.y⌋ < 0 then 0 else if h - 1 < ⌊pixel1.y⌋ then h - 1 else ⌊pixel1.y⌋) - 1 := by
  simp only [destPixel]
  rw [toInt_clamp_floor pixel1.y h]
  have e : ∀ z : Int, (h : ℚ) - (z : ℚ) - 1 = ((h - z - 1 : Int) : ℚ) := by
    intro z; push_cast; ring
  rw [e, toInt_intCast]

theorem destPixel_bounds (w h : Int) (hw : 1 ≤ w) (hh : 1 ≤ h) (pixel1 : Vector2d) :
    0 ≤ (destPixel w h pixel1).1 ∧ (destPixel w h pixel1).1 < w ∧
    0 ≤ (destPixel w h pixel1).2 ∧ (destPixel w h pixel1).2 < h := by
  rw [destPixel_fst, destPixel_snd]
  split_ifs <;> omega

/-- The clamped pixel index of an unfloored coordinate is that of its floor. -/
theorem toInt_clamp (x : ℚ) (n : Int) :
    toInt (clamp x 0 ((n : ℚ) - 1))
      = if ⌊x⌋ < 0 then 0 else if n - 1 < ⌊x⌋ then n - 1 else ⌊x⌋ := by
  have e : (((n - 1 : Int)) : ℚ) = (n : ℚ) - 1 := by push_cast; ring
  unfold clamp
  by_cases h1 : x < 0
  · have hf : ⌊x⌋ < 0 := Int.floor_lt.2 (by exact_mod_cast h1)
    rw [if_pos h1, if_pos hf]
    exact toInt_intCast 0
  · have hf : ¬ ⌊x⌋ < 0 := fun hlt => h1 (by exact_mod_cast Int.floor_lt.1 hlt)
    rw [if_neg h1, if_neg hf]
    by_cases h2 : (n : ℚ) - 1 < x
    · rw [if_pos h2, ← e, toInt_intCast]
      have hle : n - 1 ≤ ⌊x⌋ := Int.le_floor.2 (by rw [e]; exact le_of_lt h2)
      split_ifs <;> omega
    · rw [if_neg h2]
      have hx0 : 0 ≤ x := not_lt.1 h1
      have hle : ⌊x⌋ ≤ n - 1 := by
        have h3 : ((⌊x⌋ : Int) : ℚ) ≤ ((n - 1 : Int) : ℚ) := by
          rw [e]; exact le_trans (Int.floor_le x) (not_lt.1 h2)
        exact_mod_cast h3
      rw [if_neg (by omega)]
      simp [toInt, hx0]

theorem srcPixel_fst (w2 h2 : Int) (pixel2 : Vector2d) :
    (srcPixel w2 h2 pixel2).1
      = if ⌊pixel2.x⌋ < 0 then 0 else if w2 - 1 < ⌊pixel2.x⌋ then w2 - 1 else ⌊pixel2.x⌋ := by
  simp only [srcPixel]
  exact toInt_clamp pixel2.x w2

theorem srcPixel_snd_flip (w2 h2 : Int) (pixel2 : Vector2d) :
    (srcPixel w2 h2 pixel2).2 = h2 - 1 - toInt (clamp pixel2.y 0 ((h2 : ℚ) - 1)) := by
  simp only [srcPixel]
  have e : ∀ z : Int, (h2 : ℚ) - (z : ℚ) - 1 = ((h2 - z - 1 : Int) : ℚ) := by
    intro z; push_cast; ring
  rw [e, toInt_intCast]
  omega

theorem destPixel_snd_flip (w h : Int) (pixel1 : Vector2d) :
    (destPixel w h pixel1).2
      = h - 1 - toInt (clamp ((⌊pixel1.y⌋ : Int) : ℚ) 0 ((h : ℚ) - 1)) := by
  rw [destPixel_snd, toInt_clamp_floor]
  omega

/-- With equal sizes, a point has the same pixel in the source and in the
atlas. -/
theorem srcPixel_eq_destPixel (w h : Int) (p : Vector2d) :
    srcPixel w h p = destPixel w h p := by
  apply Prod.ext
  · rw [srcPixel_fst, destPixel_fst]
  · rw [srcPixel_snd_flip, destPixel_snd, toInt_clamp]
    omega

theorem destPixel_top_row (w h : Int) (pixel1 : Vector2d) (hh : 1 ≤ h)
    (hlo : (h : ℚ) - 1 ≤ pixel1.y) (hhi : pixel1.y < h) : (destPixel w h pixel1).2 = 0 := by
  have hfl : ⌊pixel1.y⌋ = h - 1 := by
    rw [Int.floor_eq_iff]
    constructor
    · push_cast; exact hlo
    · push_cast; linarith
  rw [destPixel_snd, hfl]
  split_ifs <;> omega

/-! ## The UV model -/

theorem pushFaceVerts_three (t : Vector3i) : pushFaceVerts t 3 = [t.x, t.y, t.z] := by
  simp [pushFaceVerts, List.range_succ, Vector3i.coeff]

/-- The face that the model holds for triangle `i`. -/
theorem faceLoop_prefix (mesh : TriangleMesh) (k : Nat) (hk : k ≤ mesh.triangles_.length) :
    (List.range k).foldl (pushFace mesh) []
      = (List.range k).map (fun (i : Nat) =>
          ({ m_FaceId := (i : Int),
             m_Verts := pushFaceVerts (mesh.triangles_.getD i ⟨0, 0, 0⟩) 3 } : UvFaceT)) := by
  induction k with
  | zero => simp
  | succ k ih =>
    have hk1 : k < mesh.triangles_.length := hk
    rw [List.range_succ, List.foldl_append, ih (Nat.le_of_lt hk1), List.map_append]
    simp [pushFace, List.getElem?_eq_getElem hk1, List.getD_eq_getElem _ _ hk1]

theorem buildFaceArray_eq (mesh : TriangleMesh) :
    buildFaceArray mesh
      = (List.range mesh.triangles_.length).map (fun (i : Nat) =>
          ({ m_FaceId := (i : Int),
             m_Verts := pushFaceVerts (mesh.triangles_.getD i ⟨0, 0, 0⟩) 3 } : UvFaceT)) :=
  faceLoop_prefix mesh _ (Nat.le_refl _)

theorem buildFaceArray_length (mesh : TriangleMesh) :
    (buildFaceArray mesh).length = mesh.triangles_.length := by
  simp [buildFaceArray_eq]

theorem buildFaceArray_getElem? (mesh : TriangleMesh) (i : Nat) (t : Vector3i)
    (ht : mesh.triangles_[i]? = some t) :
    (buildFaceArray mesh)[i]? = some { m_FaceId := i, m_Verts := [t.x, t.y, t.z] } := by
  have hi : i < mesh.triangles_.length := by
    rcases List.getElem?_eq_some_iff.1 ht with ⟨h, _⟩
    exact h
  have e : mesh.triangles_.getD i ⟨0, 0, 0⟩ = t := by
    rw [List.getD_eq_getElem?_getD, ht]; rfl
  rw [buildFaceArray_eq, List.getElem?_map, List.getElem?_range hi]
  simp only [Option.map_some', e, pushFaceVerts_three]

theorem index_natCast {α : Type} (v : List α) (i : Nat) :
    index v (i : Int) = match v[i]? with
      | some a => .ok a
      | none => .error .outOfBounds := by
  simp [index]

theorem pushVert_ok (mesh : TriangleMesh) (i : Nat) (acc : List UvVertT)
    (hi : i < mesh.triangle_uvs_.length) :
    pushVert mesh i acc
      = .ok (acc ++ [{ m_UvCoords := mesh.triangle_uvs_.getD i ⟨0, 0⟩, m_ControlId := i }]) := by
  have e : index mesh.triangle_uvs_ (i : Int) = .ok mesh.triangle_uvs_[i] := by
    rw [index_natCast, List.getElem?_eq_getElem hi]
  rw [List.getD_eq_getElem _ _ hi]
  simp [pushVert, e, bind, Except.bind, pure, Except.pure]

theorem pushVert_fault (mesh : TriangleMesh) (i : Nat) (acc : List UvVertT)
    (hi : mesh.triangle_uvs_.length ≤ i) :
    pushVert mesh i acc = .error .outOfBounds := by
  have e : index mesh.triangle_uvs_ (i : Int) = .error .outOfBounds := by
    rw [index_natCast, List.getElem?_eq_none (by omega)]
  simp [pushVert, e, bind, Except.bind]

/-- The vertex loop over any index list whose entries are in range. -/
theorem vertLoop_ok (mesh : TriangleMesh) (idxs : List Nat) (acc : List UvVertT)
    (h : ∀ i ∈ idxs, i < mesh.triangle_uvs_.length) :
    forEach (pushVert mesh) idxs acc
      = .ok (acc ++ idxs.map (fun (i : Nat) =>
          ({ m_UvCoords := mesh.triangle_uvs_.getD i ⟨0, 0⟩, m_ControlId := (i : Int) } : UvVertT))) := by
  induction idxs generalizing acc with
  | nil => simp [forEach]
  | cons i rest ih =>
    have hi : i < mesh.triangle_uvs_.length := h i (List.mem_cons_self _ _)
    have hrest : ∀ j ∈ rest, j < mesh.triangle_uvs_.length :=
      fun j hj => h j (List.mem_cons_of_mem _ hj)
    rw [forEach, pushVert_ok mesh i acc hi]
    simp only []
    rw [ih _ hrest]
    simp

/-- The vertex loop faults when it meets an index out of range. -/
theorem vertLoop_fault (mesh : TriangleMesh) (idxs : List Nat) (acc : List UvVertT)
    (h : ∃ i ∈ idxs, mesh.triangle_uvs_.length ≤ i) :
    forEach (pushVert mesh) idxs acc = .error .outOfBounds := by
  induction idxs generalizing acc with
  | nil => simp at h
  | cons i rest ih =>
    by_cases hi : i < mesh.triangle_uvs_.length
    · rw [forEach, pushVert_ok mesh i acc hi]
      simp only []
      apply ih
      rcases h with ⟨j, hj, hlen⟩
      rcases List.mem_cons.1 hj with rfl | hj
      · omega
      · exact ⟨j, hj, hlen⟩
    · rw [forEach, pushVert_fault mesh i acc (by omega)]

theorem buildVertArray_ok (mesh : TriangleMesh)
    (h : mesh.vertices_.length ≤ mesh.triangle_uvs_.length) :
    buildVertArray mesh
      = .ok ((List.range mesh.vertices_.length).map (fun (i : Nat) =>
          ({ m_UvCoords := mesh.triangle_uvs_.getD i ⟨0, 0⟩, m_ControlId := (i : Int) } : UvVertT))) := by
  have := vertLoop_ok mesh (List.range mesh.vertices_.length) []
    (fun i hi => by have := List.mem_range.1 hi; omega)
  simpa [buildVertArray] using this

theorem buildVertArray_fault (mesh : TriangleMesh)
    (h : mesh.triangle_uvs_.length < mesh.vertices_.length) :
    buildVertArray mesh = .error .outOfBounds :=
  vertLoop_fault mesh (List.range mesh.vertices_.length) []
    ⟨mesh.triangle_uvs_.length, List.mem_range.2 h, Nat.le_refl _⟩

theorem buildVertArray_length (mesh : TriangleMesh) (m_VertArray : List UvVertT)
    (h : buildVertArray mesh = .ok m_VertArray) :
    mesh.vertices_.length ≤ mesh.triangle_uvs_.length ∧
    m_VertArray = (List.range mesh.vertices_.length).map (fun (i : Nat) =>
      ({ m_UvCoords := mesh.triangle_uvs_.getD i ⟨0, 0⟩, m_ControlId := (i : Int) } : UvVertT)) := by
  by_cases hlen : mesh.vertices_.length ≤ mesh.triangle_uvs_.length
  · rw [buildVertArray_ok mesh hlen] at h
    exact ⟨hlen, (Except.ok.inj h).symm⟩
  · rw [buildVertArray_fault mesh (by omega)] at h
    exact absurd h (by simp)

theorem index_ok_of_lt {α : Type} (v : List α) (i : Int) (h0 : 0 ≤ i) (h1 : i < v.length) :
    ∃ a, index v i = .ok a := by
  have hlt : i.toNat < v.length := by omega
  refine ⟨v[i.toNat], ?_⟩
  simp [index, h0, List.getElem?_eq_getElem hlt]

/-! ## Image buffers -/

theorem bind_eq_ok {α β : Type} (x : Except Fault α) (f : α → Except Fault β) (b : β) :
    (x >>= f) = .ok b ↔ ∃ a, x = .ok a ∧ f a = .ok b := by
  cases x with
  | error e => simp [bind, Except.bind]
  | ok a => simp [bind, Except.bind]

theorem store_layout (im out : Image) (p : Int) (b : Byte) (h : im.store p b = .ok out) :
    out.width_ = im.width_ ∧ out.height_ = im.height_ ∧
    out.num_of_channels_ = im.num_of_channels_ := by
  unfold Image.store at h
  split_ifs at h
  cases h
  exact ⟨rfl, rfl, rfl⟩

theorem load_store (im out : Image) (p : Int) (b : Byte) (h : im.store p b = .ok out)
    (q : Int) : out.load q = if q = p then .ok b else im.load q := by
  unfold Image.store at h
  split_ifs at h with hc
  cases h
  unfold Image.load
  by_cases hq : q = p
  · subst hq
    simp [hc.1, List.getElem?_set_self hc.2]
  · simp only [hq, if_false]
    by_cases hq0 : 0 ≤ q
    · have hne : p.toNat ≠ q.toNat := by omega
      simp [hq0, List.getElem?_set_ne hne]
    · simp [hq0]

theorem PointerAt_layout (im out : Image) (hw : out.width_ = im.width_)
    (hn : out.num_of_channels_ = im.num_of_channels_) (u v ch : Int) :
    out.PointerAt u v ch = im.PointerAt u v ch := by
  simp [Image.PointerAt, hw, hn]

theorem PointerAt_channel (im : Image) (u v ch : Int) :
    im.PointerAt u v ch = im.PointerAt u v 0 + ch := by
  simp [Image.PointerAt]

/-- Distinct pixels and channels of an RGB image have distinct offsets. -/
theorem PointerAt_inj (im : Image) (hn : im.num_of_channels_ = 3)
    (u v ch u1 v1 ch1 : Int) (hu : 0 ≤ u) (huw : u < im.width_) (hu1 : 0 ≤ u1)
    (hu1w : u1 < im.width_) (hc : 0 ≤ ch) (hc3 : ch < 3) (hc1 : 0 ≤ ch1) (hc13 : ch1 < 3)
    (h : im.PointerAt u v ch = im.PointerAt u1 v1 ch1) : u = u1 ∧ v = v1 ∧ ch = ch1 := by
  simp only [Image.PointerAt, hn, mul_one] at h
  have hch : ch = ch1 := by omega
  have hpix : v * im.width_ + u = v1 * im.width_ + u1 := by omega
  have hv : v = v1 := by
    rcases lt_trichotomy v v1 with hlt | heq | hgt
    · exfalso
      have : (v + 1) * im.width_ ≤ v1 * im.width_ :=
        mul_le_mul_of_nonneg_right (by omega) (by omega)
      nlinarith
    · exact heq
    · exfalso
      have : (v1 + 1) * im.width_ ≤ v * im.width_ :=
        mul_le_mul_of_nonneg_right (by omega) (by omega)
      nlinarith
  subst hv
  exact ⟨by omega, rfl, hch⟩

/-- What `copyPixel` does: the three channels of the atlas pixel receive the
three channels of the source pixel and no other byte changes. -/
theorem copyPixel_spec (src out res : Image) (u0 v0 u2 v2 : Int)
    (h : copyPixel src u0 v0 u2 v2 out = .ok res) :
    res.width_ = out.width_ ∧ res.height_ = out.height_ ∧
    res.num_of_channels_ = out.num_of_channels_ ∧
    (∀ ch : Int, 0 ≤ ch → ch < 3 →
      ∃ b, src.load (src.PointerAt u2 v2 ch) = .ok b ∧
        res.load (out.PointerAt u0 v0 ch) = .ok b) ∧
    (∀ q : Int, (∀ ch : Int, 0 ≤ ch → ch < 3 → q ≠ out.PointerAt u0 v0 ch) →
      res.load q = out.load q) := by
  simp only [copyPixel, bind_eq_ok] at h
  obtain ⟨b0, hb0, o1, ho1, b1, hb1, o2, ho2, b2, hb2, ho3⟩ := h
  obtain ⟨w1, h1, n1⟩ := store_layout _ _ _ _ ho1
  obtain ⟨w2, h2, n2⟩ := store_layout _ _ _ _ ho2
  obtain ⟨w3, h3, n3⟩ := store_layout _ _ _ _ ho3
  have p1 : ∀ ch, o1.PointerAt u0 v0 ch = out.PointerAt u0 v0 ch :=
    PointerAt_layout out o1 w1 n1 u0 v0
  have p2 : ∀ ch, o2.PointerAt u0 v0 ch = out.PointerAt u0 v0 ch := fun ch => by
    rw [PointerAt_layout o1 o2 w2 n2, p1]
  rw [p1] at ho2
  rw [p2] at ho3
  have l1 := load_store _ _ _ _ ho1
  have l2 := load_store _ _ _ _ ho2
  have l3 := load_store _ _ _ _ ho3
  have c1 := PointerAt_channel out u0 v0 1
  have c2 := PointerAt_channel out u0 v0 2
  have c0 := PointerAt_channel out u0 v0 0
  refine ⟨by rw [w3, w2, w1], by rw [h3, h2, h1], by rw [n3, n2, n1], ?_, ?_⟩
  · intro ch hc0 hc3
    have hcases : ch = 0 ∨ ch = 1 ∨ ch = 2 := by omega
    rcases hcases with rfl | rfl | rfl
    · exact ⟨b0, hb0, by
        rw [l3, if_neg (by omega), l2, if_neg (by omega), l1, if_pos rfl]⟩
    · exact ⟨b1, hb1, by rw [l3, if_neg (by omega), l2, if_pos rfl]⟩
    · exact ⟨b2, hb2, by rw [l3, if_pos rfl]⟩
  · intro q hq
    rw [l3, if_neg (hq 2 (by omega) (by omega)), l2, if_neg (hq 1 (by omega) (by omega)),
      l1, if_neg (hq 0 (by omega) (by omega))]

/-! ## Invariants of the loops -/

theorem forEach_inv {α σ : Type} (P : σ → Prop) (body : α → σ → Except Fault σ)
    (l : List α) (hbody : ∀ a ∈ l, ∀ s s1, P s → body a s = .ok s1 → P s1) :
    ∀ s s1, P s → forEach body l s = .ok s1 → P s1 := by
  induction l with
  | nil =>
    intro s s1 hP h
    simp only [forEach] at h
    cases h
    exact hP
  | cons a rest ih =>
    intro s s1 hP h
    rw [forEach] at h
    cases hb : body a s with
    | error e => rw [hb] at h; exact absurd h (by simp)
    | ok s2 =>
      rw [hb] at h
      exact ih (fun b hbm => hbody b (List.mem_cons_of_mem _ hbm)) s2 s1
        (hbody a (List.mem_cons_self _ _) s s2 hP hb) h

theorem forLoop_inv {σ : Type} (P : σ → Prop) (body : ℚ → σ → Except Fault σ)
    (bound : ℚ) (step : Option ℚ) (hbody : ∀ x s s1, P s → body x s = .ok s1 → P s1) :
    ∀ (fuel : Nat) (x : ℚ) (s s1 : σ), P s → forLoop body bound step fuel x s = .ok s1 → P s1 := by
  intro fuel
  induction fuel with
  | zero =>
    intro x s s1 _ h
    simp [forLoop] at h
  | succ n ih =>
    intro x s s1 hP h
    rw [forLoop] at h
    split_ifs at h with hx
    · cases hb : body x s with
      | error e => rw [hb] at h; exact absurd h (by simp)
      | ok s2 =>
        rw [hb] at h
        have hP2 := hbody x s s2 hP hb
        cases step with
        | none =>
          simp only [] at h
          cases h
          exact hP2
        | some d =>
          simp only [] at h
          exact ih (x + d) s2 s1 hP2 h
    · cases h
      exact hP

theorem sampleStep_spec (color_array : List Image) (w h w2 h2 : ℚ) (source_image : Int)
    (baryc_alpha baryc_beta : ℚ) (st st1 : State)
    (hstep : sampleStep color_array w h w2 h2 source_image baryc_alpha baryc_beta st = .ok st1) :
    ∃ src out, vectorAt color_array source_image = .ok src ∧
      copyPixel src
        (destPixel w h (barycentric st.baryc (1 - baryc_alpha - baryc_beta) baryc_alpha baryc_beta)).1
        (destPixel w h (barycentric st.baryc (1 - baryc_alpha - baryc_beta) baryc_alpha baryc_beta)).2
        (srcPixel w2 h2 (barycentric st.baryc2 (1 - baryc_alpha - baryc_beta) baryc_alpha baryc_beta)).1
        (srcPixel w2 h2 (barycentric st.baryc2 (1 - baryc_alpha - baryc_beta) baryc_alpha baryc_beta)).2
        st.outputImage = .ok out ∧
      st1 = { st with
        outputImage := out,
        samples := st.samples ++ [⟨
          (destPixel w h (barycentric st.baryc (1 - baryc_alpha - baryc_beta) baryc_alpha baryc_beta)).1,
          (destPixel w h (barycentric st.baryc (1 - baryc_alpha - baryc_beta) baryc_alpha baryc_beta)).2,
          source_image,
          (srcPixel w2 h2 (barycentric st.baryc2 (1 - baryc_alpha - baryc_beta) baryc_alpha baryc_beta)).1,
          (srcPixel w2 h2 (barycentric st.baryc2 (1 - baryc_alpha - baryc_beta) baryc_alpha baryc_beta)).2⟩] } := by
  simp only [sampleStep, bind_eq_ok, pure, Except.pure] at hstep
  obtain ⟨src, hsrc, out, hout, hst⟩ := hstep
  exact ⟨src, out, hsrc, hout, (Except.ok.inj hst).symm⟩

theorem lastSample_append (u v : Int) (samples : List Sample) (s : Sample) :
    lastSample u v (samples ++ [s])
      = if s.u0 = u ∧ s.v0 = v then some s else lastSample u v samples := by
  simp only [lastSample, List.reverse_append, List.reverse_cons, List.reverse_nil,
    List.nil_append, List.singleton_append, List.find?_cons]
  by_cases h : s.u0 = u ∧ s.v0 = v
  · simp [h]
  · simp [h]

theorem lastSample_some (u v : Int) (samples : List Sample) (s : Sample)
    (h : lastSample u v samples = some s) : s ∈ samples ∧ s.u0 = u ∧ s.v0 = v := by
  unfold lastSample at h
  have hm := List.mem_of_find?_eq_some h
  have hp := List.find?_some h
  exact ⟨List.mem_reverse.1 hm, by simpa using hp⟩

theorem lastSample_of_mem (samples : List Sample) (s : Sample) (h : s ∈ samples) :
    ∃ s1, lastSample s.u0 s.v0 samples = some s1 := by
  cases hl : lastSample s.u0 s.v0 samples with
  | some s1 => exact ⟨s1, rfl⟩
  | none =>
    unfold lastSample at hl
    rw [List.find?_eq_none] at hl
    have := hl s (List.mem_reverse.2 h)
    simp at this

theorem forEach_append {α σ : Type} (body : α → σ → Except Fault σ) (l1 l2 : List α) :
    ∀ s, forEach body (l1 ++ l2) s
      = match forEach body l1 s with
        | .error e => .error e
        | .ok s1 => forEach body l2 s1 := by
  induction l1 with
  | nil => intro s; rfl
  | cons a rest ih =>
    intro s
    rw [List.cons_append, forEach, forEach]
    cases body a s with
    | error e => rfl
    | ok s1 => exact ih s1

theorem forEach_map {α β σ : Type} (f : α → β) (body : β → σ → Except Fault σ) (l : List α) :
    ∀ s, forEach body (l.map f) s = forEach (fun a s => body (f a) s) l s := by
  induction l with
  | nil => intro s; rfl
  | cons a rest ih =>
    intro s
    rw [List.map_cons, forEach, forEach]
    cases body (f a) s with
    | error e => rfl
    | ok s1 => exact ih s1

/-- A loop over the concatenation of lists is the nest of two loops. -/
theorem forEach_flatMap {α β σ : Type} (g : α → List β) (body : β → σ → Except Fault σ)
    (l : List α) :
    ∀ s, forEach body (l.flatMap g) s = forEach (fun a s => forEach body (g a) s) l s := by
  induction l with
  | nil => intro s; rfl
  | cons a rest ih =>
    intro s
    rw [List.flatMap_cons, forEach_append, forEach]
    cases forEach body (g a) s with
    | error e => rfl
    | ok s1 => exact ih s1

theorem sampleStep_composited (color_array : List Image) (init : Image)
    (hn : init.num_of_channels_ = 3) (hw : 1 ≤ init.width_) (hh : 1 ≤ init.height_)
    (w2 h2 : ℚ) (source_image : Int) (baryc_alpha baryc_beta : ℚ) (st st1 : State)
    (hP : Composited color_array init st)
    (hstep : sampleStep color_array init.width_ init.height_ w2 h2 source_image
      baryc_alpha baryc_beta st = .ok st1) :
    Composited color_array init st1 := by
  obtain ⟨src, out, hsrc, hcopy, rfl⟩ := sampleStep_spec _ _ _ _ _ _ _ _ _ _ hstep
  obtain ⟨hW, hH, hN, hS, hL⟩ := hP
  obtain ⟨cw, chh, cn, cwrite, cframe⟩ := copyPixel_spec _ _ _ _ _ _ _ hcopy
  have hd := destPixel_bounds init.width_ init.height_ hw hh
    (barycentric st.baryc (1 - baryc_alpha - baryc_beta) baryc_alpha baryc_beta)
  refine ⟨cw.trans hW, chh.trans hH, cn.trans hN, ?_, ?_⟩
  · intro s hs
    rcases List.mem_append.1 hs with h | h
    · exact hS s h
    · rw [List.mem_singleton.1 h]
      exact hd
  · intro u v ch hu huw hv hvh hc hc3
    have hptr : out.PointerAt u v ch = st.outputImage.PointerAt u v ch :=
      PointerAt_layout st.outputImage out cw cn u v ch
    simp only [lastSample_append]
    by_cases hm :
        (destPixel init.width_ init.height_
          (barycentric st.baryc (1 - baryc_alpha - baryc_beta) baryc_alpha baryc_beta)).1 = u ∧
        (destPixel init.width_ init.height_
          (barycentric st.baryc (1 - baryc_alpha - baryc_beta) baryc_alpha baryc_beta)).2 = v
    · rw [if_pos hm]
      refine ⟨fun h => absurd h (by simp), ?_⟩
      intro s hs
      cases hs
      obtain ⟨b, hb1, hb2⟩ := cwrite ch hc hc3
      refine ⟨b, ?_, ?_⟩
      · simp only [sourceByte, hsrc]
        exact hb1
      · rw [hptr, ← hm.1, ← hm.2]
        exact hb2
    · rw [if_neg hm]
      have hframe : out.load (out.PointerAt u v ch)
          = st.outputImage.load (st.outputImage.PointerAt u v ch) := by
        rw [hptr]
        apply cframe
        intro ch1 h0 h3 heq
        have hinj := PointerAt_inj st.outputImage (hN.trans hn) u v ch _ _ ch1 hu
          (by rw [hW]; exact huw) hd.1 (by rw [hW]; exact hd.2.1) hc hc3 h0 h3 heq
        exact hm ⟨hinj.1.symm, hinj.2.1.symm⟩
      have hold := hL u v ch hu huw hv hvh hc hc3
      refine ⟨fun h => ?_, fun s hs => ?_⟩
      · show out.load (out.PointerAt u v ch) = _
        rw [hframe]
        exact hold.1 h
      · obtain ⟨b, hb1, hb2⟩ := hold.2 s hs
        exact ⟨b, hb1, by
          show out.load (out.PointerAt u v ch) = _
          rw [hframe]; exact hb2⟩

theorem vertexLoop_frame (m_VertArray : List UvVertT) (w h w2 h2 : ℚ)
    (solutionMatrix : Matrix4d) :
    ∀ (l : List Int) (v_num : Nat) (st st1 : State),
      vertexLoop m_VertArray w h w2 h2 solutionMatrix l v_num st = .ok st1 →
      st1.outputImage = st.outputImage ∧ st1.samples = st.samples := by
  intro l
  induction l with
  | nil =>
    intro v_num st st1 h
    simp only [vertexLoop] at h
    cases h
    exact ⟨rfl, rfl⟩
  | cons vertIdx rest ih =>
    intro v_num st st1 h
    simp only [vertexLoop, bind_eq_ok] at h
    obtain ⟨_, _, _, _, _, _, _, _, _, _, hrec⟩ := h
    have hfr := ih _ _ _ hrec
    exact ⟨hfr.1, hfr.2⟩

theorem Composited_frame (color_array : List Image) (init : Image) (st st1 : State)
    (hi : st1.outputImage = st.outputImage) (hs : st1.samples = st.samples)
    (hP : Composited color_array init st) : Composited color_array init st1 := by
  unfold Composited at hP ⊢
  rw [hi, hs]
  exact hP

theorem sweep_inv (P : State → Prop) (color_array : List Image) (w h w2 h2 : ℚ)
    (source_image : Int) (baryc_step_a baryc_step_b : Option ℚ)
    (hsample : ∀ a b s s1, P s → sampleStep color_array w h w2 h2 source_image a b s = .ok s1 →
      P s1)
    (st st1 : State) (hP : P st)
    (hrun : sweep color_array w h w2 h2 source_image baryc_step_a baryc_step_b st = .ok st1) :
    P st1 := by
  unfold sweep at hrun
  refine forLoop_inv P _ _ _ ?_ _ _ _ _ hP hrun
  intro alpha s s1 hs hinner
  exact forLoop_inv P _ _ _ (fun beta => hsample alpha beta) _ _ _ _ hs hinner

theorem faceStep_inv (P : State → Prop) (color_array : List Image)
    (m_VertArray : List UvVertT) (m_FaceArray : List UvFaceT) (w h w2 h2 : ℚ)
    (solutionMatrix : Matrix4d) (faceId : Int)
    (hsample : ∀ si a b s s1, P s → sampleStep color_array w h w2 h2 si a b s = .ok s1 → P s1)
    (hvertex : ∀ l n s s1, P s →
      vertexLoop m_VertArray w h w2 h2 solutionMatrix l n s = .ok s1 → P s1)
    (st st1 : State) (hP : P st)
    (hrun : faceStep color_array m_VertArray m_FaceArray w h w2 h2 solutionMatrix faceId st
      = .ok st1) : P st1 := by
  simp only [faceStep, bind_eq_ok] at hrun
  obtain ⟨face, _, source_image, _, st2, hv, hsw⟩ := hrun
  exact sweep_inv P color_array w h w2 h2 source_image _ _ (hsample source_image) st2 st1
    (hvertex _ _ _ _ hP hv) hsw

theorem islandStep_inv (P : State → Prop)
    (islandSolutionToMatrix : UvpIslandPackSolutionT → Matrix4d)
    (color_array : List Image) (m_VertArray : List UvVertT) (m_FaceArray : List UvFaceT)
    (islands : List (List Int)) (w h w2 h2 : ℚ) (islandSolution : UvpIslandPackSolutionT)
    (hsample : ∀ si a b s s1, P s → sampleStep color_array w h w2 h2 si a b s = .ok s1 → P s1)
    (hvertex : ∀ l n s s1, P s →
      vertexLoop m_VertArray w h w2 h2 (islandSolutionToMatrix islandSolution) l n s = .ok s1 →
      P s1)
    (hpush : ∀ (s : State) (m : Matrix4d), P s →
      P { s with island_matrices := s.island_matrices ++ [m] })
    (st st1 : State) (hP : P st)
    (hrun : islandStep islandSolutionToMatrix color_array m_VertArray m_FaceArray islands
      w h w2 h2 islandSolution st = .ok st1) : P st1 := by
  simp only [islandStep, bind_eq_ok, pure, Except.pure] at hrun
  obtain ⟨island, _, st2, hfaces, hst⟩ := hrun
  cases hst
  apply hpush
  exact forEach_inv P _ island
    (fun faceId _ s s1 hs hf =>
      faceStep_inv P color_array m_VertArray m_FaceArray w h w2 h2 _ faceId hsample hvertex
        s s1 hs hf) st st2 hP hfaces

/-- The state in which the loop over the island solutions starts. -/
theorem composite_spec (islandSolutionToMatrix : UvpIslandPackSolutionT → Matrix4d)
    (color_array : List Image) (mesh : TriangleMesh) (outputImage : Image)
    (m_VertArray : List UvVertT) (m_FaceArray : List UvFaceT)
    (pIslandsMsg : UvpIslandsMessageT) (pPackSolutionMsg : UvpPackSolutionMessageT)
    (st : State)
    (hrun : composite islandSolutionToMatrix color_array mesh outputImage m_VertArray
      m_FaceArray pIslandsMsg pPackSolutionMsg = .ok st) :
    ∃ first, vectorAt color_array 0 = .ok first ∧
      forEach
        (islandStep islandSolutionToMatrix color_array m_VertArray m_FaceArray
          pIslandsMsg.m_Islands outputImage.width_ outputImage.height_
          first.width_ first.height_)
        pPackSolutionMsg.m_IslandSolutions
        { outputImage := outputImage, mesh := mesh,
          uv_solution := List.replicate mesh.triangle_uvs_.length 0,
          island_matrices := [], baryc := ⟨⟨0, 0⟩, ⟨0, 0⟩, ⟨0, 0⟩⟩,
          baryc2 := ⟨⟨0, 0⟩, ⟨0, 0⟩, ⟨0, 0⟩⟩, samples := [] } = .ok st := by
  simp only [composite, bind_eq_ok] at hrun
  obtain ⟨first, hfirst, hloop⟩ := hrun
  exact ⟨first, hfirst, hloop⟩

/-- A run that returns true went through the compositing loops. -/
theorem run_true_spec (engine : Engine)
    (islandSolutionToMatrix : UvpIslandPackSolutionT → Matrix4d)
    (color_array : List Image) (mesh : TriangleMesh) (outputImage : Image) (o : Output)
    (hrun : (PerformTextureUnpack engine islandSolutionToMatrix color_array mesh
      outputImage).result = .ok o) (hret : o.ret = true) :
    ∃ m_VertArray pIslandsMsg pPackSolutionMsg st,
      buildVertArray mesh = .ok m_VertArray ∧
      (engine (packInput m_VertArray (buildFaceArray mesh))
        (engine reportVersionInput Messages.empty).2).2.ISLANDS = some pIslandsMsg ∧
      (engine (packInput m_VertArray (buildFaceArray mesh))
        (engine reportVersionInput Messages.empty).2).2.PACK_SOLUTION = some pPackSolutionMsg ∧
      composite islandSolutionToMatrix color_array mesh outputImage m_VertArray
        (buildFaceArray mesh) pIslandsMsg pPackSolutionMsg = .ok st ∧
      o = ⟨true, st.outputImage, st.mesh, st.samples⟩ := by
  unfold PerformTextureUnpack at hrun
  dsimp only at hrun
  have hfalse : ∀ (x : Output), x.ret = false →
      (Except.ok x : Except Fault Output) = Except.ok o → False := by
    intro x hx he
    have h1 : x = o := Except.ok.inj he
    rw [h1] at hx
    rw [hx] at hret
    exact absurd hret (by simp)
  split_ifs at hrun with h1
  · exact (hfalse _ rfl hrun).elim
  · split at hrun
    · exact (hfalse _ rfl hrun).elim
    · split at hrun
      · exact absurd hrun (by simp)
      · rename_i m_VertArray hbuild
        split_ifs at hrun with h2
        · exact (hfalse _ rfl hrun).elim
        · split at hrun
          · rename_i pI pP hI hP
            split at hrun
            · exact absurd hrun (by simp)
            · rename_i st hst
              exact ⟨m_VertArray, pI, pP, st, hbuild, hI, hP, hst, (Except.ok.inj hrun).symm⟩
          · exact (hfalse _ rfl hrun).elim

theorem vectorAt_singleton {α : Type} (a b : α) (i : Int)
    (h : vectorAt [a] i = .ok b) : i = 0 ∧ b = a := by
  unfold vectorAt at h
  split_ifs at h with h0
  cases hi : i.toNat with
  | zero =>
    rw [hi] at h
    simp only [List.getElem?_cons_zero] at h
    exact ⟨by omega, (Except.ok.inj h).symm⟩
  | succ n =>
    rw [hi] at h
    simp at h

theorem transformUV_identity (uv : Vector2d) : transformUV Matrix4d.identity uv = uv := by
  cases uv
  simp [transformUV, Matrix4d.identity]

theorem sampleStep_aligned (src : Image) (w h : Int) (source_image : Int)
    (baryc_alpha baryc_beta : ℚ) (st st1 : State) (hP : Aligned st)
    (hstep : sampleStep [src] w h w h source_image baryc_alpha baryc_beta st = .ok st1) :
    Aligned st1 := by
  obtain ⟨src1, out, hsrc, _, rfl⟩ := sampleStep_spec _ _ _ _ _ _ _ _ _ _ hstep
  obtain ⟨hB, hS⟩ := hP
  refine ⟨hB, ?_⟩
  intro s hs
  rcases List.mem_append.1 hs with hmem | hmem
  · exact hS s hmem
  · rw [List.mem_singleton.1 hmem]
    refine ⟨(vectorAt_singleton _ _ _ hsrc).1, ?_, ?_⟩
    · show (srcPixel w h _).1 = (destPixel w h _).1
      rw [srcPixel_eq_destPixel, hB]
    · show (srcPixel w h _).2 = (destPixel w h _).2
      rw [srcPixel_eq_destPixel, hB]

theorem vertexLoop_aligned (m_VertArray : List UvVertT) (w h : ℚ) :
    ∀ (l : List Int) (v_num : Nat) (st st1 : State), Aligned st →
      vertexLoop m_VertArray w h w h Matrix4d.identity l v_num st = .ok st1 → Aligned st1 := by
  intro l
  induction l with
  | nil =>
    intro v_num st st1 hP hrun
    simp only [vertexLoop] at hrun
    cases hrun
    exact hP
  | cons vertIdx rest ih =>
    intro v_num st st1 hP hrun
    simp only [vertexLoop, bind_eq_ok, transformUV_identity] at hrun
    obtain ⟨origVert, _, b2, hb2, uvs, _, sol, _, b1, hb1, hrec⟩ := hrun
    refine ih _ _ _ ?_ hrec
    refine ⟨?_, hP.2⟩
    show b1 = b2
    rw [hP.1] at hb1
    rw [hb1] at hb2
    exact Except.ok.inj hb2

/-- How a run that returns can end: unchanged with false, or through the
compositing loops with true. -/
theorem run_spec (engine : Engine)
    (islandSolutionToMatrix : UvpIslandPackSolutionT → Matrix4d)
    (color_array : List Image) (mesh : TriangleMesh) (outputImage : Image) (o : Output)
    (hrun : (PerformTextureUnpack engine islandSolutionToMatrix color_array mesh
      outputImage).result = .ok o) :
    o = ⟨false, outputImage, mesh, []⟩ ∨
    ∃ m_VertArray pIslandsMsg pPackSolutionMsg st,
      buildVertArray mesh = .ok m_VertArray ∧
      (engine (packInput m_VertArray (buildFaceArray mesh))
        (engine reportVersionInput Messages.empty).2).2.ISLANDS = some pIslandsMsg ∧
      (engine (packInput m_VertArray (buildFaceArray mesh))
        (engine reportVersionInput Messages.empty).2).2.PACK_SOLUTION = some pPackSolutionMsg ∧
      composite islandSolutionToMatrix color_array mesh outputImage m_VertArray
        (buildFaceArray mesh) pIslandsMsg pPackSolutionMsg = .ok st ∧
      o = ⟨true, st.outputImage, st.mesh, st.samples⟩ := by
  by_cases hret : o.ret = true
  · exact Or.inr (run_true_spec engine islandSolutionToMatrix color_array mesh outputImage o
      hrun hret)
  · left
    unfold PerformTextureUnpack at hrun
    dsimp only at hrun
    have htrue : ∀ (x : Output), x.ret = true →
        (Except.ok x : Except Fault Output) = Except.ok o → False := by
      intro x hx he
      have h1 : x = o := Except.ok.inj he
      rw [h1] at hx
      exact hret hx
    split_ifs at hrun with h1
    · exact (Except.ok.inj hrun).symm
    · split at hrun
      · exact (Except.ok.inj hrun).symm
      · split at hrun
        · exact absurd hrun (by simp)
        · split_ifs at hrun with h2
          · exact (Except.ok.inj hrun).symm
          · split at hrun
            · split at hrun
              · exact absurd hrun (by simp)
              · exact (htrue _ rfl hrun).elim
            · exact (Except.ok.inj hrun).symm

/-- Every state reached by the compositing loops satisfies `Composited`. -/
theorem composite_composited (islandSolutionToMatrix : UvpIslandPackSolutionT → Matrix4d)
    (color_array : List Image) (mesh : TriangleMesh) (outputImage : Image)
    (m_VertArray : List UvVertT) (m_FaceArray : List UvFaceT)
    (pIslandsMsg : UvpIslandsMessageT) (pPackSolutionMsg : UvpPackSolutionMessageT)
    (st : State) (hn : outputImage.num_of_channels_ = 3)
    (hw : 1 ≤ outputImage.width_) (hh : 1 ≤ outputImage.height_)
    (hrun : composite islandSolutionToMatrix color_array mesh outputImage m_VertArray
      m_FaceArray pIslandsMsg pPackSolutionMsg = .ok st) :
    Composited color_array outputImage st := by
  obtain ⟨first, _, hloop⟩ := composite_spec _ _ _ _ _ _ _ _ _ hrun
  refine forEach_inv (Composited color_array outputImage) _ _ ?_ _ _ ?_ hloop
  · intro sol _ s s1 hs hstep
    refine islandStep_inv (Composited color_array outputImage) _ _ _ _ _ _ _ _ _ sol
      ?_ ?_ ?_ s s1 hs hstep
    · intro si a b s2 s3 h2 h3
      exact sampleStep_composited color_array outputImage hn hw hh _ _ si a b s2 s3 h2 h3
    · intro l n s2 s3 h2 h3
      obtain ⟨hi, hsm⟩ := vertexLoop_frame _ _ _ _ _ _ l n s2 s3 h3
      exact Composited_frame color_array outputImage s2 s3 hi hsm h2
    · intro s2 m h2
      exact Composited_frame color_array outputImage s2 _ rfl rfl h2
  · refine ⟨rfl, rfl, rfl, ?_, ?_⟩
    · intro s hs
      simp at hs
    · intro u v ch _ _ _ _ _ _
      refine ⟨fun _ => rfl, fun s hs => ?_⟩
      simp [lastSample] at hs

/-- Every state reached by the compositing loops satisfies `Aligned` when the
single source image has the size of the atlas and every transform is the
identity. -/
theorem composite_aligned (islandSolutionToMatrix : UvpIslandPackSolutionT → Matrix4d)
    (src : Image) (mesh : TriangleMesh) (outputImage : Image)
    (m_VertArray : List UvVertT) (m_FaceArray : List UvFaceT)
    (pIslandsMsg : UvpIslandsMessageT) (pPackSolutionMsg : UvpPackSolutionMessageT)
    (st : State) (hw : src.width_ = outputImage.width_)
    (hh : src.height_ = outputImage.height_)
    (hid : ∀ sol ∈ pPackSolutionMsg.m_IslandSolutions,
      islandSolutionToMatrix sol = Matrix4d.identity)
    (hrun : composite islandSolutionToMatrix [src] mesh outputImage m_VertArray
      m_FaceArray pIslandsMsg pPackSolutionMsg = .ok st) :
    Aligned st := by
  obtain ⟨first, hfirst, hloop⟩ := composite_spec _ _ _ _ _ _ _ _ _ hrun
  have hsrc : first = src := (vectorAt_singleton _ _ _ hfirst).2
  rw [hsrc, hw, hh] at hloop
  refine forEach_inv Aligned _ _ ?_ _ _ ?_ hloop
  · intro sol hsol s s1 hs hstep
    refine islandStep_inv Aligned _ _ _ _ _ _ _ _ _ sol ?_ ?_ ?_ s s1 hs hstep
    · intro si a b s2 s3 h2 h3
      exact sampleStep_aligned src _ _ si a b s2 s3 h2 h3
    · intro l n s2 s3 h2 h3
      rw [hid sol hsol] at h3
      exact vertexLoop_aligned _ _ _ l n s2 s3 h2 h3
    · intro s2 m h2
      exact h2
  · exact ⟨rfl, fun s hs => by simp at hs⟩

/-- A run that executed a second request passed the version query and built
the model; the second request is the `PACK` request with that model. -/
theorem run_requests_pack (engine : Engine)
    (islandSolutionToMatrix : UvpIslandPackSolutionT → Matrix4d)
    (color_array : List Image) (mesh : TriangleMesh) (outputImage : Image)
    (uvpInput : UvpOperationInputT)
    (hexec : (PerformTextureUnpack engine islandSolutionToMatrix color_array mesh
      outputImage).requests = [reportVersionInput, uvpInput]) :
    ∃ m_VertArray v,
      (engine reportVersionInput Messages.empty).1 = .SUCCESS ∧
      (engine reportVersionInput Messages.empty).2.VERSION = some v ∧
      buildVertArray mesh = .ok m_VertArray ∧
      packInput m_VertArray (buildFaceArray mesh) = uvpInput := by
  unfold PerformTextureUnpack at hexec
  dsimp only at hexec
  by_cases h1 : (engine reportVersionInput Messages.empty).1 = .SUCCESS
  · rw [if_neg (not_not.2 h1)] at hexec
    cases hv : (engine reportVersionInput Messages.empty).2.VERSION with
    | none =>
      rw [hv] at hexec
      simp at hexec
    | some v =>
      rw [hv] at hexec
      dsimp only at hexec
      cases hb : buildVertArray mesh with
      | error e =>
        rw [hb] at hexec
        simp at hexec
      | ok m_VertArray =>
        rw [hb] at hexec
        dsimp only at hexec
        refine ⟨m_VertArray, v, h1, rfl, rfl, ?_⟩
        split_ifs at hexec
        · simpa using hexec
        · split at hexec
          · split at hexec <;> simpa using hexec
          · simpa using hexec
  · rw [if_pos h1] at hexec
    simp at hexec

/-! ## The iteration budget is never used up -/

theorem bind_eq_error {α β : Type} (x : Except Fault α) (f : α → Except Fault β) (e : Fault) :
    (x >>= f) = .error e ↔ x = .error e ∨ ∃ a, x = .ok a ∧ f a = .error e := by
  cases x with
  | error e1 => simp [bind, Except.bind]
  | ok a => simp [bind, Except.bind]

theorem index_ne_fuel {α : Type} (v : List α) (i : Int) : index v i ≠ .error .fuel := by
  unfold index
  split_ifs
  · split <;> simp
  · simp

theorem assign_ne_fuel {α : Type} (v : List α) (i : Int) (a : α) :
    assign v i a ≠ .error .fuel := by
  unfold assign
  split_ifs <;> simp

theorem vectorAt_ne_fuel {α : Type} (v : List α) (i : Int) : vectorAt v i ≠ .error .fuel := by
  unfold vectorAt
  split_ifs
  · split <;> simp
  · simp

theorem load_ne_fuel (im : Image) (p : Int) : im.load p ≠ .error .fuel := by
  unfold Image.load
  split_ifs
  · split <;> simp
  · simp

theorem store_ne_fuel (im : Image) (p : Int) (b : Byte) : im.store p b ≠ .error .fuel := by
  unfold Image.store
  split_ifs <;> simp

theorem corners_assign_ne_fuel (c : Corners) (n : Nat) (p : Vector2d) :
    c.assign n p ≠ .error .fuel := by
  unfold Corners.assign
  split <;> simp

theorem copyPixel_ne_fuel (src : Image) (u0 v0 u2 v2 : Int) (out : Image) :
    copyPixel src u0 v0 u2 v2 out ≠ .error .fuel := by
  intro h
  simp only [copyPixel, bind_eq_error] at h
  rcases h with h | ⟨_, _, h | ⟨_, _, h | ⟨_, _, h | ⟨_, _, h | ⟨_, _, h⟩⟩⟩⟩⟩
  · exact load_ne_fuel _ _ h
  · exact store_ne_fuel _ _ _ h
  · exact load_ne_fuel _ _ h
  · exact store_ne_fuel _ _ _ h
  · exact load_ne_fuel _ _ h
  · exact store_ne_fuel _ _ _ h

theorem sampleStep_ne_fuel (color_array : List Image) (w h w2 h2 : ℚ) (source_image : Int)
    (baryc_alpha baryc_beta : ℚ) (st : State) :
    sampleStep color_array w h w2 h2 source_image baryc_alpha baryc_beta st ≠ .error .fuel := by
  intro h
  simp only [sampleStep, bind_eq_error, pure, Except.pure] at h
  rcases h with h | ⟨_, _, h | ⟨_, _, h⟩⟩
  · exact vectorAt_ne_fuel _ _ h
  · exact copyPixel_ne_fuel _ _ _ _ _ _ h
  · exact absurd h (by simp)

theorem vertexLoop_ne_fuel (m_VertArray : List UvVertT) (w h w2 h2 : ℚ)
    (solutionMatrix : Matrix4d) :
    ∀ (l : List Int) (v_num : Nat) (st : State),
      vertexLoop m_VertArray w h w2 h2 solutionMatrix l v_num st ≠ .error .fuel := by
  intro l
  induction l with
  | nil =>
    intro v_num st h
    simp [vertexLoop] at h
  | cons vertIdx rest ih =>
    intro v_num st h
    simp only [vertexLoop, bind_eq_error] at h
    rcases h with h | ⟨_, _, h | ⟨_, _, h | ⟨_, _, h | ⟨_, _, h | ⟨_, _, h⟩⟩⟩⟩⟩
    · exact index_ne_fuel _ _ h
    · exact corners_assign_ne_fuel _ _ _ h
    · exact assign_ne_fuel _ _ _ h
    · exact assign_ne_fuel _ _ _ h
    · exact corners_assign_ne_fuel _ _ _ h
    · exact ih _ _ h

theorem forEach_ne_fuel {α σ : Type} (body : α → σ → Except Fault σ)
    (hbody : ∀ a s, body a s ≠ .error .fuel) :
    ∀ (l : List α) (s : σ), forEach body l s ≠ .error .fuel := by
  intro l
  induction l with
  | nil =>
    intro s h
    simp [forEach] at h
  | cons a rest ih =>
    intro s h
    rw [forEach] at h
    cases hb : body a s with
    | error e =>
      rw [hb] at h
      exact hbody a s (by rw [hb]; exact h)
    | ok s1 =>
      rw [hb] at h
      exact ih s1 h

/-- A loop whose step is `+∞` needs one test of its condition. -/
theorem forLoop_none_ne_fuel {σ : Type} (body : ℚ → σ → Except Fault σ) (bound : ℚ)
    (hbody : ∀ x s, body x s ≠ .error .fuel) (fuel : Nat) (x : ℚ) (s : σ) :
    forLoop body bound none (fuel + 1) x s ≠ .error .fuel := by
  intro h
  rw [forLoop] at h
  split_ifs at h
  · cases hb : body x s with
    | error e =>
      rw [hb] at h
      exact hbody x s (by rw [hb]; exact h)
    | ok s1 =>
      rw [hb] at h
      exact absurd h (by simp)

/-- A loop with a positive step ends within `⌈(bound - x) / d⌉ + 1` tests. -/
theorem forLoop_some_ne_fuel {σ : Type} (body : ℚ → σ → Except Fault σ) (bound d : ℚ)
    (hd : 0 < d) (hbody : ∀ x s, body x s ≠ .error .fuel) :
    ∀ (fuel : Nat) (x : ℚ) (s : σ), (⌈(bound - x) / d⌉).toNat + 1 ≤ fuel →
      forLoop body bound (some d) fuel x s ≠ .error .fuel := by
  intro fuel
  induction fuel with
  | zero =>
    intro x s hf
    omega
  | succ n ih =>
    intro x s hf h
    rw [forLoop] at h
    split_ifs at h with hx
    cases hb : body x s with
    | error e =>
      rw [hb] at h
      exact hbody x s (by rw [hb]; exact h)
    | ok s1 =>
      rw [hb] at h
      simp only [] at h
      refine ih (x + d) s1 ?_ h
      have hpos : 0 < (bound - x) / d := div_pos (by linarith) hd
      have hceil : 0 < ⌈(bound - x) / d⌉ := Int.ceil_pos.2 hpos
      have hstep : (bound - (x + d)) / d = (bound - x) / d - 1 := by
        field_simp
        ring
      rw [hstep, Int.ceil_sub_one]
      omega

theorem barycStep_pos (m d : ℚ) (hm : 0 ≤ m) (h : barycStep m = some d) : 0 < d := by
  unfold barycStep at h
  split_ifs at h with h0
  cases h
  have hm0 : 0 < m := lt_of_le_of_ne hm (Ne.symm h0)
  exact div_pos (by norm_num [step]) hm0

/-- The loop from 0 with the budget `loopFuel` never uses the budget up. -/
theorem forLoop_loopFuel {σ : Type} (body : ℚ → σ → Except Fault σ) (bound m : ℚ)
    (hm : 0 ≤ m) (hbody : ∀ x s, body x s ≠ .error .fuel) (s : σ) :
    forLoop body bound (barycStep m) (loopFuel bound (barycStep m)) 0 s ≠ .error .fuel := by
  cases hs : barycStep m with
  | none => exact forLoop_none_ne_fuel body bound hbody 1 0 s
  | some d =>
    refine forLoop_some_ne_fuel body bound d (barycStep_pos m d hm hs) hbody _ 0 s ?_
    simp [loopFuel]

theorem floorLog2_spec : ∀ (fuel n : Nat), n ≤ fuel → n ≠ 0 →
    2 ^ floorLog2 fuel n ≤ n ∧ n < 2 ^ (floorLog2 fuel n + 1) := by
  intro fuel
  induction fuel with
  | zero =>
    intro n hn h0
    omega
  | succ k ih =>
    intro n hn h0
    rw [floorLog2]
    split_ifs with h2
    · have h1 : n = 1 := by omega
      subst h1
      simp
    · obtain ⟨hlo, hhi⟩ := ih (n / 2) (by omega) (by omega)
      constructor
      · rw [pow_succ]
        omega
      · rw [pow_succ]
        omega

theorem pow2_eq (e : Int) : pow2 e = (2 : ℚ) ^ e := by
  unfold pow2
  split_ifs with h
  · have he : e = (e.toNat : Int) := (Int.toNat_of_nonneg h).symm
    rw [he, zpow_natCast, Int.toNat_natCast]
    push_cast
    rfl
  · have he : e = -(((-e).toNat : Nat) : Int) := by omega
    generalize (-e).toNat = k at he
    subst he
    rw [zpow_neg, zpow_natCast]
    simp

theorem pow2_pos (e : Int) : 0 < pow2 e := by
  rw [pow2_eq]
  positivity

theorem pow2_add (a b : Int) : pow2 (a + b) = pow2 a * pow2 b := by
  rw [pow2_eq, pow2_eq, pow2_eq, zpow_add₀ (by norm_num)]

/-- The binade of a positive number is not above the number. -/
theorem pow2_binade_le (q : ℚ) (hq : 0 < q) : pow2 (binade q) ≤ q := by
  unfold binade
  dsimp only
  split_ifs with h
  · exact h
  · have hnum : 0 < q.num := Rat.num_pos.2 hq
    have hn0 : q.num.natAbs ≠ 0 := by omega
    obtain ⟨hlo, _⟩ := floorLog2_spec q.num.natAbs q.num.natAbs (Nat.le_refl _) hn0
    obtain ⟨_, hhi⟩ := floorLog2_spec q.den q.den (Nat.le_refl _) q.den_nz
    generalize floorLog2 q.num.natAbs q.num.natAbs = a at hlo ⊢
    generalize floorLog2 q.den q.den = b at hhi ⊢
    have h2 : ((q.num.natAbs : ℚ)) = (q.num : ℚ) := by
      rw [Nat.cast_natAbs, abs_of_pos hnum]
    have hden : (0 : ℚ) < (q.den : ℚ) := by exact_mod_cast q.den_pos
    have hqd : (q.num.natAbs : ℚ) = q * (q.den : ℚ) := by
      rw [h2]
      exact (Rat.mul_den_eq_num q).symm
    have e1 : pow2 ((a : Int) - (b : Int) - 1) = (2 : ℚ) ^ a / (2 : ℚ) ^ (b + 1) := by
      have hb : ((b : Int) + 1) = ((b + 1 : Nat) : Int) := by push_cast; rfl
      rw [pow2_eq, sub_sub, zpow_sub₀ (by norm_num), zpow_natCast, hb, zpow_natCast]
    rw [e1, div_le_iff₀ (by positivity)]
    have hlo' : ((2 : ℚ) ^ a) ≤ (q.num.natAbs : ℚ) := by exact_mod_cast hlo
    have hhi' : (q.den : ℚ) ≤ (2 : ℚ) ^ (b + 1) := by exact_mod_cast le_of_lt hhi
    calc (2 : ℚ) ^ a ≤ (q.num.natAbs : ℚ) := hlo'
      _ = q * (q.den : ℚ) := hqd
      _ ≤ q * (2 : ℚ) ^ (b + 1) := mul_le_mul_of_nonneg_left hhi' (le_of_lt hq)

theorem roundHalfEven_near (q : ℚ) : |(roundHalfEven q : ℚ) - q| ≤ 1 / 2 := by
  have h1 : (⌊q⌋ : ℚ) ≤ q := Int.floor_le q
  have h2 : q < (⌊q⌋ : ℚ) + 1 := Int.lt_floor_add_one q
  unfold roundHalfEven
  split_ifs with ha hb hc
  · rw [abs_le]
    constructor <;> linarith
  · push_cast
    rw [abs_le]
    constructor <;> linarith
  · have : q - (⌊q⌋ : ℚ) = 1 / 2 := le_antisymm (not_lt.1 hb) (not_lt.1 ha)
    rw [abs_le]
    constructor <;> linarith
  · have : q - (⌊q⌋ : ℚ) = 1 / 2 := le_antisymm (not_lt.1 hb) (not_lt.1 ha)
    push_cast
    rw [abs_le]
    constructor <;> linarith

/-- In the normal range of `float` the rounding changes a number by at most
the fraction `2 ^ -24` of it. -/
theorem float32_near (q : ℚ) (hq : pow2 (-126) ≤ |q|) :
    |float32 q - q| ≤ pow2 (-24) * |q| := by
  have hpos : 0 < |q| := lt_of_lt_of_le (pow2_pos _) hq
  have hq0 : q ≠ 0 := abs_pos.1 hpos
  unfold float32
  rw [if_neg hq0]
  generalize hU : pow2 (max (binade |q|) (-126) - 23) = ulp
  have hulp : 0 < ulp := by rw [← hU]; exact pow2_pos _
  have hle : ulp ≤ pow2 (-23) * |q| := by
    rw [← hU, sub_eq_add_neg, pow2_add, mul_comm]
    apply mul_le_mul_of_nonneg_left _ (le_of_lt (pow2_pos _))
    rcases max_cases (binade |q|) (-126) with ⟨h1, _⟩ | ⟨h1, _⟩
    · rw [h1]
      exact pow2_binade_le |q| hpos
    · rw [h1]
      exact hq
  have hr := roundHalfEven_near (q / ulp)
  have e : (roundHalfEven (q / ulp) : ℚ) * ulp - q
      = ((roundHalfEven (q / ulp) : ℚ) - q / ulp) * ulp := by
    field_simp
  rw [e, abs_mul, abs_of_pos hulp]
  have h24 : pow2 (-24) = pow2 (-23) / 2 := by
    rw [pow2_eq, pow2_eq]
    norm_num
  calc |(roundHalfEven (q / ulp) : ℚ) - q / ulp| * ulp ≤ 1 / 2 * ulp :=
        mul_le_mul_of_nonneg_right hr (le_of_lt hulp)
    _ ≤ 1 / 2 * (pow2 (-23) * |q|) := by linarith
    _ = pow2 (-24) * |q| := by rw [h24]; ring

theorem float32_nonneg (q : ℚ) (hq : 0 ≤ q) : 0 ≤ float32 q := by
  unfold float32
  split_ifs with h0
  · exact le_refl _
  · apply mul_nonneg _ (le_of_lt (pow2_pos _))
    have hx : 0 ≤ q / pow2 (max (binade |q|) (-126) - 23) :=
      div_nonneg hq (le_of_lt (pow2_pos _))
    have hf : (0 : Int) ≤ ⌊q / pow2 (max (binade |q|) (-126) - 23)⌋ := Int.floor_nonneg.2 hx
    have : (0 : Int) ≤ roundHalfEven (q / pow2 (max (binade |q|) (-126) - 23)) := by
      unfold roundHalfEven
      split_ifs <;> omega
    exact_mod_cast this

/-- The step of an edge is `+∞`, positive or, for an extent that is infinite
as a `float`, zero. -/
theorem floatStep_nonneg (extent d : ℚ) (hm : 0 ≤ extent) (h : floatStep extent = some d) :
    0 ≤ d ∧ (d = 0 → toFloat extent = none) := by
  unfold floatStep at h
  cases hf : toFloat extent with
  | none =>
    exact ⟨by rw [hf] at h; cases h; exact le_refl _, fun _ => rfl⟩
  | some f =>
    rw [hf] at h
    dsimp only at h
    have hf0 : 0 ≤ f := by
      unfold toFloat at hf
      split_ifs at hf
      cases hf
      exact float32_nonneg extent hm
    have hpos := barycStep_pos f d hf0 h
    exact ⟨le_of_lt hpos, fun h0 => absurd h0 (ne_of_gt hpos)⟩

/-- The sweep of a face uses the budget up only when a step is zero. -/
theorem sweep_ne_fuel (color_array : List Image) (w h w2 h2 : ℚ) (source_image : Int)
    (baryc_step_a baryc_step_b : Option ℚ) (st : State)
    (ha : ∀ d, baryc_step_a = some d → 0 < d) (hb : ∀ d, baryc_step_b = some d → 0 < d) :
    sweep color_array w h w2 h2 source_image baryc_step_a baryc_step_b st ≠ .error .fuel := by
  have hloop : ∀ {σ : Type} (body : ℚ → σ → Except Fault σ) (bound : ℚ) (stp : Option ℚ)
      (_ : ∀ d, stp = some d → 0 < d) (_ : ∀ x s, body x s ≠ .error .fuel) (s : σ),
      forLoop body bound stp (loopFuel bound stp) 0 s ≠ .error .fuel := by
    intro σ body bound stp hs hbody s
    cases hstp : stp with
    | none => exact forLoop_none_ne_fuel body bound hbody 1 0 s
    | some d =>
      refine forLoop_some_ne_fuel body bound d (hs d hstp) hbody _ 0 s ?_
      simp [loopFuel]
  unfold sweep
  refine hloop _ 1 _ ha ?_ st
  intro alpha s
  exact hloop _ (1 - alpha) _ hb
    (fun beta s1 => sampleStep_ne_fuel _ _ _ _ _ _ alpha beta s1) s

/-- Processing a face uses the budget up only when the extent of one of the
two edges is infinite as a `float`: the step is then zero and the loop of the
program does not end. -/
theorem faceStep_fuel (color_array : List Image) (m_VertArray : List UvVertT)
    (m_FaceArray : List UvFaceT) (w h w2 h2 : ℚ) (solutionMatrix : Matrix4d)
    (faceId : Int) (st : State)
    (hrun : faceStep color_array m_VertArray m_FaceArray w h w2 h2 solutionMatrix faceId st
      = .error .fuel) :
    ∃ face sv, index m_FaceArray faceId = .ok face ∧
      vertexLoop m_VertArray w h w2 h2 solutionMatrix face.m_Verts 0 st = .ok sv ∧
      (toFloat (max |(sv.baryc.c0.sub sv.baryc.c1).x| |(sv.baryc.c0.sub sv.baryc.c1).y|) = none ∨
        toFloat (max |(sv.baryc.c0.sub sv.baryc.c2).x| |(sv.baryc.c0.sub sv.baryc.c2).y|)
          = none) := by
  simp only [faceStep, bind_eq_error] at hrun
  rcases hrun with h | ⟨face, hface, h | ⟨_, _, h | ⟨sv, hv, h⟩⟩⟩
  · exact absurd h (index_ne_fuel _ _)
  · exact absurd h (index_ne_fuel _ _)
  · exact absurd h (vertexLoop_ne_fuel _ _ _ _ _ _ _ _ _)
  · refine ⟨face, sv, hface, hv, ?_⟩
    by_contra hcon
    push_neg at hcon
    refine sweep_ne_fuel _ _ _ _ _ _ _ _ sv ?_ ?_ h
    · intro d hd
      obtain ⟨h0, hz⟩ := floatStep_nonneg _ d (le_max_of_le_left (abs_nonneg _)) hd
      exact lt_of_le_of_ne h0 (fun e => hcon.1 (hz e.symm))
    · intro d hd
      obtain ⟨h0, hz⟩ := floatStep_nonneg _ d (le_max_of_le_left (abs_nonneg _)) hd
      exact lt_of_le_of_ne h0 (fun e => hcon.2 (hz e.symm))

/-! ## The claims -/

/-- For an atlas of width `w ≥ 1` and height `h ≥ 1` and a sample point
`pixel1` with finite coordinates, the atlas pixel `(u0, v0)` of the sample
satisfies `0 ≤ u0 < w` and `0 ≤ v0 < h`. -/
theorem destPixel_inside_atlas (w h : Int) (hw : 1 ≤ w) (hh : 1 ≤ h) (pixel1 : Vector2d) :
    0 ≤ (destPixel w h pixel1).1 ∧ (destPixel w h pixel1).1 < w ∧
    0 ≤ (destPixel w h pixel1).2 ∧ (destPixel w h pixel1).2 < h :=
  destPixel_bounds w h hw hh pixel1

/-- C1, at the failing input: a face with the finite UV coordinates (0, 0),
(2 ^ 1023, 0), (0, 1), the identity transform and a 4×4 atlas.  The corner of
vertex 1 is `2 ^ 1023 * 4`, which overflows to `+∞`; at the first sample the
weight of that corner is 0 and line 257 gives `+∞ * 0`, a NaN, for the x
coordinate; `std::floor` and `std::clamp` return the NaN, the conversion to
`int` gives `u0 = -2147483648`, and the pixel `(u0, v0) = (-2147483648, 3)`
that line 280 writes is not inside the atlas: its offset is negative.  The
same pixel results for the UV coordinates (0, 0), (1, 0), (0, 1) with a
transform that scales `u` by `2 ^ 1023`. -/
theorem nan_sample_outside_atlas :
    cornerDouble Matrix4d.identity ⟨2 ^ 1023, 0⟩ (Double.ofInt 4) (Double.ofInt 4)
      = (.posInf, .finite 0) ∧
    barycentricDouble
        (cornerDouble Matrix4d.identity ⟨0, 0⟩ (Double.ofInt 4) (Double.ofInt 4))
        (cornerDouble Matrix4d.identity ⟨2 ^ 1023, 0⟩ (Double.ofInt 4) (Double.ofInt 4))
        (cornerDouble Matrix4d.identity ⟨0, 1⟩ (Double.ofInt 4) (Double.ofInt 4))
        (.finite 1) (.finite 0) (.finite 0)
      = (.nan, .finite 0) ∧
    Double.clamp (Double.floor .nan) (.finite 0) ((Double.ofInt 4).sub (.finite 1)) = .nan ∧
    firstSampleDouble Matrix4d.identity ⟨0, 0⟩ ⟨2 ^ 1023, 0⟩ ⟨0, 1⟩ 4 4 = (-2147483648, 3) ∧
    ¬ (0 ≤ (firstSampleDouble Matrix4d.identity ⟨0, 0⟩ ⟨2 ^ 1023, 0⟩ ⟨0, 1⟩ 4 4).1) ∧
    atlas4.width_ = 4 ∧ atlas4.height_ = 4 ∧
    atlas4.PointerAt (-2147483648) 3 0 < 0 ∧
    cornerDouble hugeScale ⟨1, 0⟩ (Double.ofInt 4) (Double.ofInt 4) = (.posInf, .finite 0) ∧
    firstSampleDouble hugeScale ⟨0, 0⟩ ⟨1, 0⟩ ⟨0, 1⟩ 4 4 = (-2147483648, 3) := by
  decide!

/-- C3: when a run executes the `PACK` request and the request does not return
`SUCCESS`, or returns it without an `ISLANDS` or a `PACK_SOLUTION` message,
the function returns false with the atlas and the mesh as they were passed. -/
theorem pack_failure_leaves_atlas_and_mesh (engine : Engine)
    (islandSolutionToMatrix : UvpIslandPackSolutionT → Matrix4d)
    (color_array : List Image) (mesh : TriangleMesh) (outputImage : Image)
    (uvpInput : UvpOperationInputT)
    (hexec : (PerformTextureUnpack engine islandSolutionToMatrix color_array mesh
      outputImage).requests = [reportVersionInput, uvpInput])
    (hfail :
      (engine uvpInput (engine reportVersionInput Messages.empty).2).1 ≠ .SUCCESS ∨
      (engine uvpInput (engine reportVersionInput Messages.empty).2).2.ISLANDS = none ∨
      (engine uvpInput (engine reportVersionInput Messages.empty).2).2.PACK_SOLUTION = none) :
    (PerformTextureUnpack engine islandSolutionToMatrix color_array mesh outputImage).result
      = .ok ⟨false, outputImage, mesh, []⟩ := by
  obtain ⟨m_VertArray, v, hcode, hv, hbuild, hq⟩ :=
    run_requests_pack engine islandSolutionToMatrix color_array mesh outputImage uvpInput hexec
  rw [← hq] at hfail
  unfold PerformTextureUnpack
  dsimp only
  rw [if_neg (not_not.2 hcode), hv]
  dsimp only
  rw [hbuild]
  dsimp only
  split_ifs with h2
  · rfl
  · rcases hfail with h | h | h
    · exact absurd h h2
    · split
      · rename_i hI _
        rw [h] at hI
        exact absurd hI (by simp)
      · rfl
    · split
      · rename_i _ hP
        rw [h] at hP
        exact absurd hP (by simp)
      · rfl

/-- Witness of C3: the engine reports success for `PACK` but sends no
`ISLANDS` message. -/
theorem pack_failure_leaves_atlas_and_mesh_witness :
    (PerformTextureUnpack engineNoIslands (fun _ => Matrix4d.identity) [source4]
        triangleMesh atlas4).requests
      = [reportVersionInput,
          packInput
            [⟨⟨0, 0⟩, 0⟩, ⟨⟨1, 0⟩, 1⟩, ⟨⟨0, 1⟩, 2⟩] [⟨0, [0, 1, 2]⟩]] ∧
    (PerformTextureUnpack engineNoIslands (fun _ => Matrix4d.identity) [source4]
        triangleMesh atlas4).result
      = .ok ⟨false, atlas4, triangleMesh, []⟩ :=
  ⟨by decide!,
    pack_failure_leaves_atlas_and_mesh engineNoIslands (fun _ => Matrix4d.identity) [source4]
      triangleMesh atlas4
      (packInput [⟨⟨0, 0⟩, 0⟩, ⟨⟨1, 0⟩, 1⟩, ⟨⟨0, 1⟩, 2⟩] [⟨0, [0, 1, 2]⟩])
      (by decide!) (Or.inr (Or.inl (by decide)))⟩

/-- C4: the first request of every run is `REPORT_VERSION`; when it does not
return `SUCCESS` or no `VERSION` message is available, it is the only request
(no `PACK` request is executed) and the function returns false with the atlas
and the mesh as they were passed. -/
theorem version_failure_fails_fast (engine : Engine)
    (islandSolutionToMatrix : UvpIslandPackSolutionT → Matrix4d)
    (color_array : List Image) (mesh : TriangleMesh) (outputImage : Image) :
    (PerformTextureUnpack engine islandSolutionToMatrix color_array mesh outputImage).requests.head?
      = some reportVersionInput ∧
    (((engine reportVersionInput Messages.empty).1 ≠ .SUCCESS ∨
      (engine reportVersionInput Messages.empty).2.VERSION = none) →
      (PerformTextureUnpack engine islandSolutionToMatrix color_array mesh outputImage).requests
        = [reportVersionInput] ∧
      (∀ q ∈ (PerformTextureUnpack engine islandSolutionToMatrix color_array mesh
          outputImage).requests, q.m_Opcode ≠ .PACK) ∧
      (PerformTextureUnpack engine islandSolutionToMatrix color_array mesh outputImage).result
        = .ok ⟨false, outputImage, mesh, []⟩) := by
  constructor
  · unfold PerformTextureUnpack
    dsimp only
    split_ifs
    · rfl
    · split
      · rfl
      · split
        · rfl
        · split_ifs
          · rfl
          · split
            · split <;> rfl
            · rfl
  · intro hfail
    have key : PerformTextureUnpack engine islandSolutionToMatrix color_array mesh outputImage
        = ⟨[reportVersionInput], .ok ⟨false, outputImage, mesh, []⟩⟩ := by
      unfold PerformTextureUnpack
      dsimp only
      split_ifs with h1
      · rfl
      · rcases hfail with h | h
        · exact absurd h h1
        · split
          · rfl
          · rename_i hV
            rw [h] at hV
            exact absurd hV (by simp)
    rw [key]
    refine ⟨rfl, ?_, rfl⟩
    intro q hq
    rw [List.mem_singleton.1 hq]
    decide

/-- Witness of C4: the version query returns an error code. -/
theorem version_failure_fails_fast_witness :
    (PerformTextureUnpack engineVersionFails (fun _ => Matrix4d.identity) [source4]
        triangleMesh atlas4).requests = [reportVersionInput] ∧
    (∀ q ∈ (PerformTextureUnpack engineVersionFails (fun _ => Matrix4d.identity) [source4]
        triangleMesh atlas4).requests, q.m_Opcode ≠ .PACK) ∧
    (PerformTextureUnpack engineVersionFails (fun _ => Matrix4d.identity) [source4]
        triangleMesh atlas4).result = .ok ⟨false, atlas4, triangleMesh, []⟩ :=
  (version_failure_fails_fast engineVersionFails (fun _ => Matrix4d.identity) [source4]
    triangleMesh atlas4).2 (Or.inl (by decide))

/-- C5, as the code behaves: the builder compares no array lengths.  When the
version query succeeded and the UV array has at least as many entries as the
mesh has vertices, it builds one vertex per mesh vertex and one face per
triangle and the `PACK` request is executed with that model, whatever the
number of faces and of per-face source-image ids. -/
theorem model_built_without_length_check (engine : Engine)
    (islandSolutionToMatrix : UvpIslandPackSolutionT → Matrix4d)
    (color_array : List Image) (mesh : TriangleMesh) (outputImage : Image)
    (hcode : (engine reportVersionInput Messages.empty).1 = .SUCCESS)
    (hmsg : (engine reportVersionInput Messages.empty).2.VERSION ≠ none)
    (huv : mesh.vertices_.length ≤ mesh.triangle_uvs_.length) :
    ∃ m_VertArray, buildVertArray mesh = .ok m_VertArray ∧
      m_VertArray.length = mesh.vertices_.length ∧
      (buildFaceArray mesh).length = mesh.triangles_.length ∧
      (PerformTextureUnpack engine islandSolutionToMatrix color_array mesh outputImage).requests
        = [reportVersionInput, packInput m_VertArray (buildFaceArray mesh)] := by
  refine ⟨_, buildVertArray_ok mesh huv, by simp, buildFaceArray_length mesh, ?_⟩
  unfold PerformTextureUnpack
  rw [buildVertArray_ok mesh huv]
  dsimp only
  rw [if_neg (not_not.2 hcode)]
  obtain ⟨v, hv⟩ := Option.ne_none_iff_exists'.1 hmsg
  rw [hv]
  dsimp only
  split_ifs
  · rfl
  · split
    · split <;> rfl
    · rfl

/-- Witness of C5 as amended: a mesh with 3 vertices, 5 UV entries, 1 face and
no source-image id. -/
theorem model_built_without_length_check_witness :
    ∃ m_VertArray, buildVertArray mismatchedMesh = .ok m_VertArray ∧
      m_VertArray.length = mismatchedMesh.vertices_.length ∧
      (buildFaceArray mismatchedMesh).length = mismatchedMesh.triangles_.length ∧
      (PerformTextureUnpack (engineOk [[0]] []) (fun _ => Matrix4d.identity) [source4]
          mismatchedMesh atlas4).requests
        = [reportVersionInput, packInput m_VertArray (buildFaceArray mismatchedMesh)] :=
  model_built_without_length_check (engineOk [[0]] []) (fun _ => Matrix4d.identity) [source4]
    mismatchedMesh atlas4 (by decide) (by decide) (by decide)

/-- Counterexample to C5: on a mesh with 3 vertices, 5 UV entries, 1 face and
no source-image id the builder reports no error, the `PACK` request is
executed and the function returns true. -/
theorem length_mismatch_not_rejected :
    mismatchedMesh.triangle_uvs_.length ≠ mismatchedMesh.triangles_.length ∧
    mismatchedMesh.triangle_uvs_.length ≠ 3 * mismatchedMesh.triangles_.length ∧
    mismatchedMesh.triangle_uvs_.length ≠ mismatchedMesh.vertices_.length ∧
    mismatchedMesh.triangle_material_ids_.length ≠ mismatchedMesh.triangles_.length ∧
    (PerformTextureUnpack (engineOk [[0]] []) (fun _ => Matrix4d.identity) [source4]
        mismatchedMesh atlas4).opcodes = [.REPORT_VERSION, .PACK] ∧
    (PerformTextureUnpack (engineOk [[0]] []) (fun _ => Matrix4d.identity) [source4]
        mismatchedMesh atlas4).returned = some true := by
  decide!

/-- C6: when every triangle only references vertex indices smaller than the
vertex count, the face list has one face per triangle, the face of triangle
`i` holds exactly the 3 indices of the triangle in their order, and each of
those indices is smaller than the length of any vertex table the builder
returns (and resolves in it when it is not negative); the table is returned
whenever the UV array has an entry for every vertex. -/
theorem faces_resolve_in_vertex_table (mesh : TriangleMesh)
    (htri : ∀ t ∈ mesh.triangles_, t.x < mesh.vertices_.length ∧
      t.y < mesh.vertices_.length ∧ t.z < mesh.vertices_.length) :
    (buildFaceArray mesh).length = mesh.triangles_.length ∧
    (∀ (i : Nat) (t : Vector3i), mesh.triangles_[i]? = some t →
      ∃ face, (buildFaceArray mesh)[i]? = some face ∧
        face.m_Verts = [t.x, t.y, t.z] ∧ face.m_Verts.length = 3) ∧
    (mesh.vertices_.length ≤ mesh.triangle_uvs_.length →
      ∃ m_VertArray, buildVertArray mesh = .ok m_VertArray) ∧
    (∀ m_VertArray, buildVertArray mesh = .ok m_VertArray →
      ∀ face ∈ buildFaceArray mesh, ∀ v ∈ face.m_Verts,
        v < m_VertArray.length ∧ (0 ≤ v → ∃ vert, index m_VertArray v = .ok vert)) := by
  refine ⟨buildFaceArray_length mesh, ?_, ?_, ?_⟩
  · intro i t ht
    exact ⟨_, buildFaceArray_getElem? mesh i t ht, rfl, rfl⟩
  · intro h
    exact ⟨_, buildVertArray_ok mesh h⟩
  · intro m_VertArray hb face hface v hv
    have hlen : m_VertArray.length = mesh.vertices_.length := by
      rw [(buildVertArray_length mesh m_VertArray hb).2]; simp
    rcases List.getElem?_of_mem hface with ⟨i, hi⟩
    have hi_lt : i < mesh.triangles_.length := by
      have := (List.getElem?_eq_some_iff.1 hi).1
      rwa [buildFaceArray_length] at this
    have ht : mesh.triangles_[i]? = some mesh.triangles_[i] := List.getElem?_eq_getElem hi_lt
    have hf := buildFaceArray_getElem? mesh i _ ht
    rw [hi] at hf
    have hface_eq := Option.some.inj hf
    rw [hface_eq] at hv
    have hb3 := htri _ (List.getElem_mem hi_lt)
    have hvlt : v < m_VertArray.length := by
      rw [hlen]
      simp only [List.mem_cons, List.mem_singleton, List.not_mem_nil, or_false] at hv
      rcases hv with rfl | rfl | rfl
      · exact hb3.1
      · exact hb3.2.1
      · exact hb3.2.2
    exact ⟨hvlt, fun h0 => index_ok_of_lt m_VertArray v h0 hvlt⟩

/-- Witness of C6: the single triangle (0, 1, 2) over three vertices. -/
theorem faces_resolve_in_vertex_table_witness :
    (buildFaceArray triangleMesh).length = 1 ∧
    (∃ m_VertArray, buildVertArray triangleMesh = .ok m_VertArray ∧
      ∀ face ∈ buildFaceArray triangleMesh, ∀ v ∈ face.m_Verts,
        v < m_VertArray.length ∧ (0 ≤ v → ∃ vert, index m_VertArray v = .ok vert)) :=
  have h := faces_resolve_in_vertex_table triangleMesh (by decide)
  ⟨h.1, (h.2.2.1 (by decide)).elim (fun m hm => ⟨m, hm, h.2.2.2 m hm⟩)⟩

/-- C7: the vertex table has one entry per mesh vertex; entry `i` carries the
UV stored at index `i` and the control id `i`; the table has no duplicates, and
two entries at different positions differ (in their control ids), also when
their UV coordinates are equal.  The table is returned whenever the UV array
has an entry for every vertex. -/
theorem vertex_table_nodup (mesh : TriangleMesh) :
    (mesh.vertices_.length ≤ mesh.triangle_uvs_.length →
      ∃ m_VertArray, buildVertArray mesh = .ok m_VertArray) ∧
    (∀ m_VertArray, buildVertArray mesh = .ok m_VertArray →
      m_VertArray.length = mesh.vertices_.length ∧
      (∀ (i : Nat) (uv : Vector2d), i < mesh.vertices_.length →
        mesh.triangle_uvs_[i]? = some uv →
        m_VertArray[i]? = some { m_UvCoords := uv, m_ControlId := i }) ∧
      m_VertArray.Nodup ∧
      (∀ (i j : Nat) (a b : UvVertT), m_VertArray[i]? = some a → m_VertArray[j]? = some b →
        i ≠ j → a.m_ControlId ≠ b.m_ControlId ∧ a ≠ b)) := by
  refine ⟨fun h => ⟨_, buildVertArray_ok mesh h⟩, ?_⟩
  intro m_VertArray hb
  obtain ⟨_, heq⟩ := buildVertArray_length mesh m_VertArray hb
  have entry : ∀ (i : Nat) (a : UvVertT), m_VertArray[i]? = some a →
      i < mesh.vertices_.length ∧
      a = { m_UvCoords := mesh.triangle_uvs_.getD i ⟨0, 0⟩, m_ControlId := (i : Int) } := by
    intro i a ha
    rw [heq, List.getElem?_map] at ha
    by_cases hi : i < mesh.vertices_.length
    · rw [List.getElem?_range hi] at ha
      exact ⟨hi, (Option.some.inj ha).symm⟩
    · rw [List.getElem?_eq_none (by simpa using hi)] at ha
      exact absurd ha (by simp)
  have distinct : ∀ (i j : Nat) (a b : UvVertT), m_VertArray[i]? = some a →
      m_VertArray[j]? = some b → i ≠ j → a.m_ControlId ≠ b.m_ControlId ∧ a ≠ b := by
    intro i j a b ha hb2 hij
    have h1 := (entry i a ha).2
    have h2 := (entry j b hb2).2
    have hid : a.m_ControlId ≠ b.m_ControlId := by
      rw [h1, h2]
      simpa using hij
    exact ⟨hid, fun hab => hid (by rw [hab])⟩
  refine ⟨by rw [heq]; simp, ?_, ?_, distinct⟩
  · intro i uv hi huv
    rw [heq, List.getElem?_map, List.getElem?_range hi]
    simp [List.getD_eq_getElem?_getD, huv]
  · rw [List.nodup_iff_getElem?_ne_getElem?]
    intro i j hij hj hcontra
    have hi : i < m_VertArray.length := by omega
    rw [List.getElem?_eq_getElem hi] at hcontra
    have hj2 := List.getElem?_eq_getElem hj
    exact (distinct i j _ _ (List.getElem?_eq_getElem hi) hj2 (by omega)).2
      (Option.some.inj (hcontra.trans hj2))

/-- Witness of C7: the first two vertices of `seamMesh` share the UV (0, 0)
and stay two entries of the table. -/
theorem vertex_table_nodup_witness :
    ∃ m_VertArray, buildVertArray seamMesh = .ok m_VertArray ∧
      m_VertArray.length = 3 ∧
      m_VertArray[0]? = some { m_UvCoords := ⟨0, 0⟩, m_ControlId := 0 } ∧
      m_VertArray[1]? = some { m_UvCoords := ⟨0, 0⟩, m_ControlId := 1 } ∧
      m_VertArray.Nodup :=
  have h := vertex_table_nodup seamMesh
  (h.1 (by decide)).elim (fun m hm =>
    ⟨m, hm, (h.2 m hm).1, (h.2 m hm).2.1 0 ⟨0, 0⟩ (by decide) rfl,
      (h.2 m hm).2.1 1 ⟨0, 0⟩ (by decide) rfl, (h.2 m hm).2.2.1⟩)

/-- C8: the atlas row a sample writes is `h - 1 - clamp(floor(py), 0, h-1)` and
the source row it reads is `h2 - 1 - trunc(clamp(qy, 0, h2-1))`; a sample whose
destination `y` lies in `[h-1, h)` writes atlas row 0; and after a sample has
run, the atlas pixel in the flipped destination row holds the bytes of the
source pixel in the flipped source row. -/
theorem vertical_flip_rows (w h w2 h2 : Int) :
    (∀ pixel1 : Vector2d,
      (destPixel w h pixel1).2
        = h - 1 - toInt (clamp ((⌊pixel1.y⌋ : Int) : ℚ) 0 ((h : ℚ) - 1))) ∧
    (∀ pixel2 : Vector2d,
      (srcPixel w2 h2 pixel2).2 = h2 - 1 - toInt (clamp pixel2.y 0 ((h2 : ℚ) - 1))) ∧
    (∀ pixel1 : Vector2d, 1 ≤ h → (h : ℚ) - 1 ≤ pixel1.y → pixel1.y < h →
      (destPixel w h pixel1).2 = 0) ∧
    (∀ (color_array : List Image) (source_image : Int) (baryc_alpha baryc_beta : ℚ)
      (st st1 : State),
      sampleStep color_array w h w2 h2 source_image baryc_alpha baryc_beta st = .ok st1 →
      ∃ src, vectorAt color_array source_image = .ok src ∧
        ∀ ch : Int, 0 ≤ ch → ch < 3 →
          ∃ b,
            src.load (src.PointerAt
              (srcPixel w2 h2 (barycentric st.baryc2 (1 - baryc_alpha - baryc_beta)
                baryc_alpha baryc_beta)).1
              (h2 - 1 - toInt (clamp (barycentric st.baryc2 (1 - baryc_alpha - baryc_beta)
                baryc_alpha baryc_beta).y 0 ((h2 : ℚ) - 1))) ch) = .ok b ∧
            st1.outputImage.load (st1.outputImage.PointerAt
              (destPixel w h (barycentric st.baryc (1 - baryc_alpha - baryc_beta)
                baryc_alpha baryc_beta)).1
              (h - 1 - toInt (clamp ((⌊(barycentric st.baryc (1 - baryc_alpha - baryc_beta)
                baryc_alpha baryc_beta).y⌋ : Int) : ℚ) 0 ((h : ℚ) - 1))) ch) = .ok b) := by
  refine ⟨destPixel_snd_flip w h, srcPixel_snd_flip w2 h2,
    fun p hh hlo hhi => destPixel_top_row w h p hh hlo hhi, ?_⟩
  intro color_array source_image baryc_alpha baryc_beta st st1 hstep
  obtain ⟨src, out, hsrc, hcopy, rfl⟩ := sampleStep_spec _ _ _ _ _ _ _ _ _ _ hstep
  obtain ⟨cw, _, cn, cwrite, _⟩ := copyPixel_spec _ _ _ _ _ _ _ hcopy
  refine ⟨src, hsrc, ?_⟩
  intro ch hc hc3
  obtain ⟨b, hb1, hb2⟩ := cwrite ch hc hc3
  refine ⟨b, ?_, ?_⟩
  · rw [← srcPixel_snd_flip w2 h2]
    exact hb1
  · rw [← destPixel_snd_flip w h]
    show out.load (out.PointerAt _ _ ch) = _
    rw [PointerAt_layout st.outputImage out cw cn]
    exact hb2

/-- Witness of C8: in a 4×4 atlas a sample at destination `y = 7/2` writes row 0. -/
theorem vertical_flip_rows_witness :
    (destPixel (4 : Int) (4 : Int) ⟨1, 7 / 2⟩).2 = 0 :=
  (vertical_flip_rows 4 4 4 4).2.2.1 ⟨1, 7 / 2⟩ (by decide) (by norm_num) (by norm_num)

/-- C9: with a single source image of the size of the atlas (an RGB atlas of
at least one pixel) and an engine whose pack solutions all have the identity
transform, every atlas pixel that a sample of the run wrote ends up, in its 3
colour channels, with the bytes of the source pixel at the same column and
row. -/
theorem identity_mapping (engine : Engine)
    (islandSolutionToMatrix : UvpIslandPackSolutionT → Matrix4d)
    (src : Image) (mesh : TriangleMesh) (outputImage : Image) (o : Output)
    (hn : outputImage.num_of_channels_ = 3)
    (hw1 : 1 ≤ outputImage.width_) (hh1 : 1 ≤ outputImage.height_)
    (hw : src.width_ = outputImage.width_) (hh : src.height_ = outputImage.height_)
    (hid : ∀ input msgs p, (engine input msgs).2.PACK_SOLUTION = some p →
      ∀ sol ∈ p.m_IslandSolutions, islandSolutionToMatrix sol = Matrix4d.identity)
    (hrun : (PerformTextureUnpack engine islandSolutionToMatrix [src] mesh
      outputImage).result = .ok o) :
    ∀ s ∈ o.samples, ∀ ch : Int, 0 ≤ ch → ch < 3 →
      ∃ b, src.load (src.PointerAt s.u0 s.v0 ch) = .ok b ∧
        o.outputImage.load (o.outputImage.PointerAt s.u0 s.v0 ch) = .ok b := by
  intro s hs ch hc hc3
  rcases run_spec engine islandSolutionToMatrix [src] mesh outputImage o hrun with h | h
  · rw [h] at hs
    simp at hs
  · obtain ⟨m_VertArray, pI, pP, st, _, _, hP, hcomp, rfl⟩ := h
    have hC := composite_composited _ _ _ _ _ _ _ _ st hn hw1 hh1 hcomp
    have hA := composite_aligned _ src _ _ _ _ _ _ st hw hh (hid _ _ pP hP) hcomp
    obtain ⟨_, _, _, hS, hL⟩ := hC
    have hb := hS s hs
    obtain ⟨s1, hs1⟩ := lastSample_of_mem st.samples s hs
    obtain ⟨b, hb1, hb2⟩ := (hL s.u0 s.v0 ch hb.1 hb.2.1 hb.2.2.1 hb.2.2.2 hc hc3).2 s1 hs1
    obtain ⟨hmem, hu, hv⟩ := lastSample_some _ _ _ _ hs1
    obtain ⟨hsi, hu2, hv2⟩ := hA.2 s1 hmem
    refine ⟨b, ?_, hb2⟩
    have hsrc : vectorAt [src] s1.source_image = .ok src := by
      rw [hsi]; rfl
    simp only [sourceByte, hsrc] at hb1
    rw [hu2, hv2, hu, hv] at hb1
    exact hb1

/-- C10: after the function returned true on an RGB atlas, an atlas pixel that
no sample wrote has its bytes unchanged, and any other atlas pixel has, in its
3 colour channels, exactly the bytes of the source pixel that the last sample
writing it (in processing order) read. -/
theorem last_write_wins (engine : Engine)
    (islandSolutionToMatrix : UvpIslandPackSolutionT → Matrix4d)
    (color_array : List Image) (mesh : TriangleMesh) (outputImage : Image) (o : Output)
    (hn : outputImage.num_of_channels_ = 3)
    (hrun : (PerformTextureUnpack engine islandSolutionToMatrix color_array mesh
      outputImage).result = .ok o) (hret : o.ret = true)
    (u v ch : Int) (hu : 0 ≤ u) (huw : u < outputImage.width_) (hv : 0 ≤ v)
    (hvh : v < outputImage.height_) (hc : 0 ≤ ch) (hc3 : ch < 3) :
    ((∀ s ∈ o.samples, ¬ (s.u0 = u ∧ s.v0 = v)) →
      o.outputImage.load (o.outputImage.PointerAt u v ch)
        = outputImage.load (outputImage.PointerAt u v ch)) ∧
    (∀ (earlier later : List Sample) (s : Sample), o.samples = earlier ++ s :: later →
      s.u0 = u → s.v0 = v → (∀ t ∈ later, ¬ (t.u0 = u ∧ t.v0 = v)) →
      ∃ src b, vectorAt color_array s.source_image = .ok src ∧
        src.load (src.PointerAt s.u2 s.v2 ch) = .ok b ∧
        o.outputImage.load (o.outputImage.PointerAt u v ch) = .ok b) := by
  obtain ⟨m_VertArray, pI, pP, st, _, _, _, hcomp, rfl⟩ :=
    run_true_spec engine islandSolutionToMatrix color_array mesh outputImage o hrun hret
  have hC := composite_composited _ _ _ _ _ _ _ _ st hn (by omega) (by omega) hcomp
  obtain ⟨_, _, _, _, hL⟩ := hC
  have hpix := hL u v ch hu huw hv hvh hc hc3
  constructor
  · intro hnone
    apply hpix.1
    unfold lastSample
    rw [List.find?_eq_none]
    intro s hs
    have := hnone s (List.mem_reverse.1 hs)
    simpa using this
  · intro earlier later s hsplit hsu hsv hlater
    have hlast : lastSample u v st.samples = some s := by
      show lastSample u v st.samples = some s
      have hsplit2 : st.samples = earlier ++ s :: later := hsplit
      unfold lastSample
      rw [hsplit2, List.reverse_append, List.reverse_cons, List.append_assoc, List.find?_append]
      have h1 : List.find? (fun s => decide (s.u0 = u ∧ s.v0 = v)) later.reverse = none := by
        rw [List.find?_eq_none]
        intro t ht
        have := hlater t (List.mem_reverse.1 ht)
        simpa using this
      rw [h1]
      simp [hsu, hsv]
    obtain ⟨b, hb1, hb2⟩ := hpix.2 s hlast
    unfold sourceByte at hb1
    cases hsrc : vectorAt color_array s.source_image with
    | error e =>
      rw [hsrc] at hb1
      exact absurd hb1 (by simp)
    | ok src =>
      rw [hsrc] at hb1
      exact ⟨src, b, rfl, hb1, hb2⟩

theorem Run.result_eq_output (r : Run) (fallback : Output) (h : r.returned ≠ none) :
    r.result = .ok (r.output fallback) := by
  unfold Run.returned at h
  unfold Run.output
  cases hr : r.result with
  | error e => rw [hr] at h; exact absurd rfl h
  | ok o => rfl

/-- Witness of C9: the spec's scenario returns true after 21 samples, and every
pixel it wrote agrees with the source image. -/
theorem identity_mapping_witness :
    identityRun.returned = some true ∧ identityOutput.samples.length = 21 ∧
    (∀ s ∈ identityOutput.samples, ∀ ch : Int, 0 ≤ ch → ch < 3 →
      ∃ b, source4.load (source4.PointerAt s.u0 s.v0 ch) = .ok b ∧
        identityOutput.outputImage.load (identityOutput.outputImage.PointerAt s.u0 s.v0 ch)
          = .ok b) :=
  ⟨by decide!, by decide!,
    identity_mapping (engineOk [[0]] [islandZero]) (fun _ => Matrix4d.identity) source4
      triangleMesh atlas4 identityOutput (by decide) (by decide) (by decide) (by decide)
      (by decide) (fun _ _ _ _ _ _ => rfl)
      (Run.result_eq_output identityRun _ (by decide!))⟩

/-- Witness of C10: in the spec's scenario the atlas pixel (3, 0) is written by
no sample and keeps its bytes, and the atlas pixel (3, 3), written by the last
of the 21 samples, holds the bytes that sample read at source pixel (3, 3). -/
theorem last_write_wins_witness :
    identityOutput.ret = true ∧
    ((∀ s ∈ identityOutput.samples, ¬ (s.u0 = 3 ∧ s.v0 = 0)) ∧
      identityOutput.outputImage.load (identityOutput.outputImage.PointerAt 3 0 1)
        = atlas4.load (atlas4.PointerAt 3 0 1)) ∧
    (identityOutput.samples = identityOutput.samples.take 20 ++ ⟨3, 3, 0, 3, 3⟩ :: [] ∧
      ∃ src b, vectorAt [source4] 0 = .ok src ∧
        src.load (src.PointerAt 3 3 1) = .ok b ∧
        identityOutput.outputImage.load (identityOutput.outputImage.PointerAt 3 3 1) = .ok b) :=
  ⟨by decide!,
    ⟨by decide!,
      (last_write_wins (engineOk [[0]] [islandZero]) (fun _ => Matrix4d.identity) [source4]
        triangleMesh atlas4 identityOutput (by decide)
        (Run.result_eq_output identityRun _ (by decide!)) (by decide!)
        3 0 1 (by decide) (by decide) (by decide) (by decide) (by decide) (by decide)).1
        (by decide!)⟩,
    ⟨by decide!,
      (last_write_wins (engineOk [[0]] [islandZero]) (fun _ => Matrix4d.identity) [source4]
        triangleMesh atlas4 identityOutput (by decide)
        (Run.result_eq_output identityRun _ (by decide!)) (by decide!)
        3 3 1 (by decide) (by decide) (by decide) (by decide) (by decide) (by decide)).2
        (identityOutput.samples.take 20) [] ⟨3, 3, 0, 3, 3⟩ (by decide!) rfl rfl
        (fun _ h => absurd h (List.not_mem_nil _))⟩⟩

/-- C2, at the failing input: with a 4×4 image 0 and a 2×2 image 1 that the face
selects, the first sample (source point (0, 0), clamped and flipped with the
size of image 0) reads source pixel (0, 3); row 3 is outside the 2 rows of
image 1, the read at that offset is outside its 12 bytes and the run ends with
an out-of-bounds access. -/
theorem srcPixel_outside_selected_image :
    srcPixel (source4.width_ : ℚ) (source4.height_ : ℚ) ⟨0, 0⟩ = (0, 3) ∧
    source2.height_ = 2 ∧ source2.data_.length = 12 ∧
    source2.PointerAt 0 3 0 = 18 ∧
    secondImageRun.fault = some .outOfBounds := by
  decide!

/-! ## The steps of the sweep -/

theorem step_pos : 0 < step := by norm_num [step]

/-- Scaling an edge by `step / max(|dx|, |dy|)` gives a vector whose larger
absolute coordinate is `step`. -/
theorem scaled_edge_extent (dx dy : ℚ) (h : max |dx| |dy| ≠ 0) :
    max |(-dx) * (step / max |dx| |dy|)| |(-dy) * (step / max |dx| |dy|)| = step := by
  have hm : 0 < max |dx| |dy| :=
    lt_of_le_of_ne (le_max_of_le_left (abs_nonneg dx)) (Ne.symm h)
  have hd : 0 ≤ step / max |dx| |dy| := le_of_lt (div_pos step_pos hm)
  rw [abs_mul, abs_mul, abs_neg, abs_neg, abs_of_nonneg hd, ← max_mul_of_nonneg _ _ hd]
  field_simp

/-! ## The vertex loop of a face -/

theorem stateOr_of_succeeds (r : Except Fault State) (fallback : State)
    (h : succeeds r = true) : r = .ok (stateOr r fallback) := by
  cases r with
  | error e => simp [succeeds] at h
  | ok st => rfl

theorem assign_spec {α : Type} (v v1 : List α) (i : Int) (a : α)
    (h : assign v i a = .ok v1) :
    (0 ≤ i ∧ i.toNat < v.length) ∧ v1 = v.set i.toNat a := by
  unfold assign at h
  split_ifs at h with hc
  exact ⟨hc, (Except.ok.inj h).symm⟩

theorem index_assign {α : Type} (v v1 : List α) (i : Int) (a : α)
    (h : assign v i a = .ok v1) (q : Int) :
    index v1 q = if q = i then .ok a else index v q := by
  obtain ⟨⟨h0, hlt⟩, rfl⟩ := assign_spec v v1 i a h
  unfold index
  by_cases hq : q = i
  · subst hq
    simp [h0, List.getElem?_set_self hlt]
  · simp only [hq, if_false]
    by_cases hq0 : 0 ≤ q
    · have hne : i.toNat ≠ q.toNat := by omega
      simp [hq0, List.getElem?_set_ne hne]
    · simp [hq0]

/-- After the vertex loop the UV entry of every vertex of the list is the
transform of its entry in the vertex table, and no other UV entry changed. -/
theorem vertexLoop_uvs (m_VertArray : List UvVertT) (w h w2 h2 : ℚ)
    (solutionMatrix : Matrix4d) :
    ∀ (l : List Int) (v_num : Nat) (st st1 : State),
      vertexLoop m_VertArray w h w2 h2 solutionMatrix l v_num st = .ok st1 →
      (∀ v ∈ l, ∃ vert, index m_VertArray v = .ok vert ∧
        index st1.mesh.triangle_uvs_ v = .ok (transformUV solutionMatrix vert.m_UvCoords)) ∧
      (∀ q, q ∉ l → index st1.mesh.triangle_uvs_ q = index st.mesh.triangle_uvs_ q) := by
  intro l
  induction l with
  | nil =>
    intro v_num st st1 h
    simp only [vertexLoop] at h
    cases h
    exact ⟨fun v hv => absurd hv (List.not_mem_nil v), fun q _ => rfl⟩
  | cons vertIdx rest ih =>
    intro v_num st st1 h
    simp only [vertexLoop, bind_eq_ok] at h
    obtain ⟨origVert, hvert, b2, _, uvs, huvs, sol, _, b1, _, hrec⟩ := h
    obtain ⟨hin, hout⟩ := ih _ _ _ hrec
    have hset := index_assign _ _ _ _ huvs
    constructor
    · intro v hv
      by_cases hvr : v ∈ rest
      · exact hin v hvr
      · have hv0 : v = vertIdx := by
          rcases List.mem_cons.1 hv with h1 | h1
          · exact h1
          · exact absurd h1 hvr
        subst hv0
        refine ⟨origVert, hvert, ?_⟩
        rw [hout v hvr]
        show index uvs v = _
        rw [hset v, if_pos rfl]
    · intro q hq
      have hq1 : q ≠ vertIdx := fun e => hq (by rw [e]; exact List.mem_cons_self _ _)
      have hq2 : q ∉ rest := fun e => hq (List.mem_cons_of_mem _ e)
      rw [hout q hq2]
      show index uvs q = _
      rw [hset q, if_neg hq1]

/-- After the vertex loop over three vertices both corner triples hold the
scaled UV of the three vertices. -/
theorem vertexLoop_three (m_VertArray : List UvVertT) (w h w2 h2 : ℚ)
    (solutionMatrix : Matrix4d) (a b c : Int) (st st1 : State)
    (hrun : vertexLoop m_VertArray w h w2 h2 solutionMatrix [a, b, c] 0 st = .ok st1) :
    ∃ va vb vc, index m_VertArray a = .ok va ∧ index m_VertArray b = .ok vb ∧
      index m_VertArray c = .ok vc ∧
      st1.baryc =
        ⟨⟨(transformUV solutionMatrix va.m_UvCoords).x * w,
            (transformUV solutionMatrix va.m_UvCoords).y * h⟩,
          ⟨(transformUV solutionMatrix vb.m_UvCoords).x * w,
            (transformUV solutionMatrix vb.m_UvCoords).y * h⟩,
          ⟨(transformUV solutionMatrix vc.m_UvCoords).x * w,
            (transformUV solutionMatrix vc.m_UvCoords).y * h⟩⟩ ∧
      st1.baryc2 =
        ⟨⟨va.m_UvCoords.x * w2, va.m_UvCoords.y * h2⟩,
          ⟨vb.m_UvCoords.x * w2, vb.m_UvCoords.y * h2⟩,
          ⟨vc.m_UvCoords.x * w2, vc.m_UvCoords.y * h2⟩⟩ ∧
      st1.outputImage = st.outputImage ∧ st1.samples = st.samples ∧
      st1.mesh.triangle_material_ids_ = st.mesh.triangle_material_ids_ := by
  simp only [vertexLoop, bind_eq_ok, Corners.assign] at hrun
  obtain ⟨va, hva, b2a, hb2a, uvs1, _, sol1, _, b1a, hb1a,
    vb, hvb, b2b, hb2b, uvs2, _, sol2, _, b1b, hb1b,
    vc, hvc, b2c, hb2c, uvs3, _, sol3, _, b1c, hb1c, hst⟩ := hrun
  cases hb2a
  cases hb1a
  cases hb2b
  cases hb1b
  cases hb2c
  cases hb1c
  cases hst
  exact ⟨va, vb, vc, hva, hvb, hvc, rfl, rfl, rfl, rfl, rfl⟩

/-- The sweep writes the atlas and nothing else. -/
theorem sweep_frame (color_array : List Image) (w h w2 h2 : ℚ) (source_image : Int)
    (baryc_step_a baryc_step_b : Option ℚ) (st st1 : State)
    (hrun : sweep color_array w h w2 h2 source_image baryc_step_a baryc_step_b st = .ok st1) :
    st1.baryc = st.baryc ∧ st1.baryc2 = st.baryc2 ∧ st1.mesh = st.mesh ∧
    st1.uv_solution = st.uv_solution ∧ st1.island_matrices = st.island_matrices := by
  refine sweep_inv
    (fun s => s.baryc = st.baryc ∧ s.baryc2 = st.baryc2 ∧ s.mesh = st.mesh ∧
      s.uv_solution = st.uv_solution ∧ s.island_matrices = st.island_matrices)
    color_array w h w2 h2 source_image baryc_step_a baryc_step_b ?_ st st1
    ⟨rfl, rfl, rfl, rfl, rfl⟩ hrun
  intro a b s s1 hs hstep
  obtain ⟨_, _, _, _, rfl⟩ := sampleStep_spec _ _ _ _ _ _ _ _ _ _ hstep
  exact hs

/-- An entry of the vertex table is the UV entry of the mesh it was built
from. -/
theorem buildVertArray_index (mesh : TriangleMesh) (m_VertArray : List UvVertT)
    (hbuild : buildVertArray mesh = .ok m_VertArray) (v : Int) (vert : UvVertT)
    (hv : index m_VertArray v = .ok vert) :
    index mesh.triangle_uvs_ v = .ok vert.m_UvCoords ∧ vert.m_ControlId = v := by
  obtain ⟨hlen, heq⟩ := buildVertArray_length mesh m_VertArray hbuild
  unfold index at hv ⊢
  split_ifs at hv ⊢ with h0
  cases hget : m_VertArray[v.toNat]? with
  | none =>
    rw [hget] at hv
    exact absurd hv (by simp)
  | some x =>
    rw [hget] at hv
    have hx : x = vert := Except.ok.inj hv
    subst hx
    rw [heq, List.getElem?_map] at hget
    have hlt : v.toNat < mesh.vertices_.length := by
      by_contra hcon
      rw [List.getElem?_eq_none (by simpa using hcon)] at hget
      exact absurd hget (by simp)
    rw [List.getElem?_range hlt] at hget
    have hx := (Option.some.inj hget).symm
    have hlt2 : v.toNat < mesh.triangle_uvs_.length := by omega
    rw [hx, List.getElem?_eq_getElem hlt2]
    dsimp only
    rw [List.getD_eq_getElem _ _ hlt2]
    exact ⟨rfl, by omega⟩

theorem forEach_congr {α σ : Type} (body1 body2 : α → σ → Except Fault σ) (l : List α)
    (h : ∀ a ∈ l, ∀ s, body1 a s = body2 a s) :
    ∀ s, forEach body1 l s = forEach body2 l s := by
  induction l with
  | nil => intro s; rfl
  | cons a rest ih =>
    intro s
    rw [forEach, forEach, h a (List.mem_cons_self _ _) s]
    cases body2 a s with
    | error e => rfl
    | ok s1 => exact ih (fun b hb => h b (List.mem_cons_of_mem _ hb)) s1

/-! ## Two runs in lockstep -/

theorem store_spec (im out : Image) (p : Int) (b : Byte) (h : im.store p b = .ok out) :
    (0 ≤ p ∧ p.toNat < im.data_.length) ∧ out.data_.length = im.data_.length ∧
    out.bytes_per_channel_ = im.bytes_per_channel_ := by
  unfold Image.store at h
  split_ifs at h with hc
  cases h
  exact ⟨hc, by simp, rfl⟩

theorem store_of_lt (im : Image) (p : Int) (b : Byte) (h0 : 0 ≤ p)
    (hlt : p.toNat < im.data_.length) :
    ∃ out, im.store p b = .ok out := by
  unfold Image.store
  rw [if_pos ⟨h0, hlt⟩]
  exact ⟨_, rfl⟩

/-- A store that succeeds on one image succeeds on any image with a buffer of
the same size. -/
theorem store_sim (im1 im2 out1 : Image) (p : Int) (b : Byte)
    (hlen : im1.data_.length = im2.data_.length) (h : im1.store p b = .ok out1) :
    ∃ out2, im2.store p b = .ok out2 := by
  obtain ⟨⟨h0, hlt⟩, _, _⟩ := store_spec im1 out1 p b h
  exact store_of_lt im2 p b h0 (by omega)

theorem copyPixel_shape (src out res : Image) (u0 v0 u2 v2 : Int)
    (h : copyPixel src u0 v0 u2 v2 out = .ok res) :
    res.data_.length = out.data_.length ∧
    res.bytes_per_channel_ = out.bytes_per_channel_ := by
  simp only [copyPixel, bind_eq_ok] at h
  obtain ⟨b0, _, o1, ho1, b1, _, o2, ho2, b2, _, ho3⟩ := h
  obtain ⟨_, l1, c1⟩ := store_spec _ _ _ _ ho1
  obtain ⟨_, l2, c2⟩ := store_spec _ _ _ _ ho2
  obtain ⟨_, l3, c3⟩ := store_spec _ _ _ _ ho3
  exact ⟨by rw [l3, l2, l1], by rw [c3, c2, c1]⟩

/-- A pixel copy that succeeds on one atlas succeeds on any atlas of the same
layout and buffer size. -/
theorem copyPixel_sim (src out1 out2 res1 : Image) (u0 v0 u2 v2 : Int)
    (hw : out1.width_ = out2.width_) (hn : out1.num_of_channels_ = out2.num_of_channels_)
    (hlen : out1.data_.length = out2.data_.length)
    (h : copyPixel src u0 v0 u2 v2 out1 = .ok res1) :
    ∃ res2, copyPixel src u0 v0 u2 v2 out2 = .ok res2 := by
  simp only [copyPixel, bind_eq_ok] at h ⊢
  obtain ⟨b0, hb0, o1, ho1, b1, hb1, o2, ho2, b2, hb2, ho3⟩ := h
  obtain ⟨w1, _, n1⟩ := store_layout _ _ _ _ ho1
  obtain ⟨w2, _, n2⟩ := store_layout _ _ _ _ ho2
  obtain ⟨_, l1, _⟩ := store_spec _ _ _ _ ho1
  obtain ⟨_, l2, _⟩ := store_spec _ _ _ _ ho2
  have p0 : out2.PointerAt u0 v0 0 = out1.PointerAt u0 v0 0 :=
    PointerAt_layout out1 out2 hw.symm hn.symm u0 v0 0
  obtain ⟨q1, hq1⟩ := store_sim out1 out2 o1 _ b0 hlen (by rw [← p0] at ho1; exact ho1)
  obtain ⟨qw1, _, qn1⟩ := store_layout _ _ _ _ hq1
  obtain ⟨_, ql1, _⟩ := store_spec _ _ _ _ hq1
  have p1 : q1.PointerAt u0 v0 1 = o1.PointerAt u0 v0 1 := by
    apply PointerAt_layout
    · rw [qw1, w1, hw]
    · rw [qn1, n1, hn]
  obtain ⟨q2, hq2⟩ := store_sim o1 q1 o2 _ b1 (by rw [l1, ql1, hlen])
    (by rw [← p1] at ho2; exact ho2)
  obtain ⟨qw2, _, qn2⟩ := store_layout _ _ _ _ hq2
  obtain ⟨_, ql2, _⟩ := store_spec _ _ _ _ hq2
  have p2 : q2.PointerAt u0 v0 2 = o2.PointerAt u0 v0 2 := by
    apply PointerAt_layout
    · rw [qw2, qw1, w2, w1, hw]
    · rw [qn2, qn1, n2, n1, hn]
  obtain ⟨q3, hq3⟩ := store_sim o2 q2 res1 _ b2 (by rw [l2, l1, ql2, ql1, hlen])
    (by rw [← p2] at ho3; exact ho3)
  exact ⟨q3, b0, hb0, q1, hq1, b1, hb1, q2, hq2, b2, hb2, hq3⟩

theorem sameShape_symm {st1 st2 : State} (h : SameShape st1 st2) : SameShape st2 st1 := by
  obtain ⟨h1, h2, h3, h4, h5, h6⟩ := h
  exact ⟨h1.symm, h2.symm, h3.symm, h4.symm, h5.symm, h6.symm⟩

theorem sameShape_trans {st1 st2 st3 : State} (h : SameShape st1 st2) (g : SameShape st2 st3) :
    SameShape st1 st3 := by
  obtain ⟨h1, h2, h3, h4, h5, h6⟩ := h
  obtain ⟨g1, g2, g3, g4, g5, g6⟩ := g
  exact ⟨h1.trans g1, h2.trans g2, h3.trans g3, h4.trans g4, h5.trans g5, h6.trans g6⟩

theorem sameShape_refl (st : State) : SameShape st st := ⟨rfl, rfl, rfl, rfl, rfl, rfl⟩

/-- What a sample does to the state, read forwards. -/
theorem sampleStep_of (color_array : List Image) (w h w2 h2 : ℚ) (source_image : Int)
    (baryc_alpha baryc_beta : ℚ) (st : State) (src out : Image)
    (hsrc : vectorAt color_array source_image = .ok src)
    (hcopy : copyPixel src
      (destPixel w h (barycentric st.baryc (1 - baryc_alpha - baryc_beta) baryc_alpha baryc_beta)).1
      (destPixel w h (barycentric st.baryc (1 - baryc_alpha - baryc_beta) baryc_alpha baryc_beta)).2
      (srcPixel w2 h2 (barycentric st.baryc2 (1 - baryc_alpha - baryc_beta) baryc_alpha baryc_beta)).1
      (srcPixel w2 h2 (barycentric st.baryc2 (1 - baryc_alpha - baryc_beta) baryc_alpha baryc_beta)).2
      st.outputImage = .ok out) :
    sampleStep color_array w h w2 h2 source_image baryc_alpha baryc_beta st
      = .ok { st with
        outputImage := out,
        samples := st.samples ++ [⟨
          (destPixel w h (barycentric st.baryc (1 - baryc_alpha - baryc_beta) baryc_alpha baryc_beta)).1,
          (destPixel w h (barycentric st.baryc (1 - baryc_alpha - baryc_beta) baryc_alpha baryc_beta)).2,
          source_image,
          (srcPixel w2 h2 (barycentric st.baryc2 (1 - baryc_alpha - baryc_beta) baryc_alpha baryc_beta)).1,
          (srcPixel w2 h2 (barycentric st.baryc2 (1 - baryc_alpha - baryc_beta) baryc_alpha baryc_beta)).2⟩] } := by
  simp only [sampleStep, hsrc, hcopy, bind, Except.bind, pure, Except.pure]

/-- A sample keeps the shape of the state. -/
theorem sampleStep_shape (color_array : List Image) (w h w2 h2 : ℚ) (source_image : Int)
    (baryc_alpha baryc_beta : ℚ) (st st1 : State)
    (hstep : sampleStep color_array w h w2 h2 source_image baryc_alpha baryc_beta st = .ok st1) :
    SameShape st st1 := by
  obtain ⟨src, out, _, hcopy, rfl⟩ := sampleStep_spec _ _ _ _ _ _ _ _ _ _ hstep
  obtain ⟨cw, _, cn, _, _⟩ := copyPixel_spec _ _ _ _ _ _ _ hcopy
  obtain ⟨cl, _⟩ := copyPixel_shape _ _ _ _ _ _ _ hcopy
  exact ⟨cw.symm, cn.symm, cl.symm, rfl, rfl, rfl⟩

/-- Two runs in lockstep execute the same sample. -/
theorem sampleStep_sim (color_array : List Image) (w h w2 h2 : ℚ) (source_image : Int)
    (baryc_alpha baryc_beta : ℚ) (p1 p2 : List Sample) (st1 st2 st1a : State)
    (hL : LockstepSweep p1 p2 st1 st2)
    (hstep : sampleStep color_array w h w2 h2 source_image baryc_alpha baryc_beta st1 = .ok st1a) :
    ∃ st2a, sampleStep color_array w h w2 h2 source_image baryc_alpha baryc_beta st2 = .ok st2a ∧
      LockstepSweep p1 p2 st1a st2a := by
  obtain ⟨⟨hS, y, hy1, hy2⟩, hb, hb2⟩ := hL
  obtain ⟨src, out1, hsrc, hcopy, rfl⟩ := sampleStep_spec _ _ _ _ _ _ _ _ _ _ hstep
  rw [hb, hb2] at hcopy
  obtain ⟨out2, hcopy2⟩ := copyPixel_sim src _ st2.outputImage _ _ _ _ _ hS.1 hS.2.1 hS.2.2.1 hcopy
  have hstep2 := sampleStep_of color_array w h w2 h2 source_image baryc_alpha baryc_beta st2
    src out2 hsrc hcopy2
  refine ⟨_, hstep2, ⟨?_, ?_⟩, hb, hb2⟩
  · have s1 := sampleStep_shape _ _ _ _ _ _ _ _ _ _ hstep
    have s2 := sampleStep_shape _ _ _ _ _ _ _ _ _ _ hstep2
    exact sameShape_trans (sameShape_trans (sameShape_symm s1) hS) s2
  · refine ⟨?y, ?h1, ?h2⟩
    case h1 =>
      show st1.samples ++ _ = _
      rw [hy1, List.append_assoc]
      exact rfl
    case h2 =>
      show st2.samples ++ _ = _
      rw [hy2, List.append_assoc, hb, hb2]

theorem forLoop_sim {σ : Type} (R : σ → σ → Prop) (body : ℚ → σ → Except Fault σ)
    (bound : ℚ) (step : Option ℚ)
    (hbody : ∀ x s1 s2 s1a, R s1 s2 → body x s1 = .ok s1a →
      ∃ s2a, body x s2 = .ok s2a ∧ R s1a s2a) :
    ∀ (fuel : Nat) (x : ℚ) (s1 s2 s1a : σ), R s1 s2 →
      forLoop body bound step fuel x s1 = .ok s1a →
      ∃ s2a, forLoop body bound step fuel x s2 = .ok s2a ∧ R s1a s2a := by
  intro fuel
  induction fuel with
  | zero =>
    intro x s1 s2 s1a _ h
    simp [forLoop] at h
  | succ n ih =>
    intro x s1 s2 s1a hR h
    rw [forLoop] at h ⊢
    split_ifs at h ⊢ with hx
    · cases hb : body x s1 with
      | error e => rw [hb] at h; exact absurd h (by simp)
      | ok s1b =>
        rw [hb] at h
        obtain ⟨s2b, hb2, hR2⟩ := hbody x s1 s2 s1b hR hb
        rw [hb2]
        cases step with
        | none =>
          simp only [] at h ⊢
          cases h
          exact ⟨s2b, rfl, hR2⟩
        | some d =>
          simp only [] at h ⊢
          exact ih (x + d) s1b s2b s1a hR2 h
    · cases h
      exact ⟨s2, rfl, hR⟩

theorem forEach_sim {α σ : Type} (R : σ → σ → Prop) (body : α → σ → Except Fault σ)
    (l : List α)
    (hbody : ∀ a ∈ l, ∀ s1 s2 s1a, R s1 s2 → body a s1 = .ok s1a →
      ∃ s2a, body a s2 = .ok s2a ∧ R s1a s2a) :
    ∀ (s1 s2 s1a : σ), R s1 s2 → forEach body l s1 = .ok s1a →
      ∃ s2a, forEach body l s2 = .ok s2a ∧ R s1a s2a := by
  induction l with
  | nil =>
    intro s1 s2 s1a hR h
    simp only [forEach] at h ⊢
    cases h
    exact ⟨s2, rfl, hR⟩
  | cons a rest ih =>
    intro s1 s2 s1a hR h
    rw [forEach] at h ⊢
    cases hb : body a s1 with
    | error e => rw [hb] at h; exact absurd h (by simp)
    | ok s1b =>
      rw [hb] at h
      obtain ⟨s2b, hb2, hR2⟩ := hbody a (List.mem_cons_self _ _) s1 s2 s1b hR hb
      rw [hb2]
      exact ih (fun b hbm => hbody b (List.mem_cons_of_mem _ hbm)) s1b s2b s1a hR2 h

/-- Two runs in lockstep sweep a face alike. -/
theorem sweep_sim (color_array : List Image) (w h w2 h2 : ℚ) (source_image : Int)
    (baryc_step_a baryc_step_b : Option ℚ) (p1 p2 : List Sample) (st1 st2 st1a : State)
    (hL : LockstepSweep p1 p2 st1 st2)
    (hrun : sweep color_array w h w2 h2 source_image baryc_step_a baryc_step_b st1 = .ok st1a) :
    ∃ st2a, sweep color_array w h w2 h2 source_image baryc_step_a baryc_step_b st2 = .ok st2a ∧
      LockstepSweep p1 p2 st1a st2a := by
  unfold sweep at hrun ⊢
  refine forLoop_sim (LockstepSweep p1 p2) _ _ _ ?_ _ _ st1 st2 st1a hL hrun
  intro alpha s1 s2 s1a hR hinner
  exact forLoop_sim (LockstepSweep p1 p2) _ _ _
    (fun beta t1 t2 t1a hT hs => sampleStep_sim color_array w h w2 h2 source_image alpha beta
      p1 p2 t1 t2 t1a hT hs) _ _ s1 s2 s1a hR hinner

theorem index_mem {α : Type} (v : List α) (i : Int) (a : α) (h : index v i = .ok a) :
    a ∈ v := by
  unfold index at h
  split_ifs at h with h0
  cases hget : v[i.toNat]? with
  | none =>
    rw [hget] at h
    exact absurd h (by simp)
  | some x =>
    rw [hget] at h
    have hx : x = a := Except.ok.inj h
    subst hx
    exact List.getElem?_mem hget

/-- An assignment that succeeds on one vector succeeds on any vector of the
same length. -/
theorem assign_sim {α : Type} (v v1 w : List α) (i : Int) (a b : α)
    (hlen : v.length = w.length) (h : assign v i a = .ok v1) :
    ∃ w1, assign w i b = .ok w1 ∧ v1.length = v.length ∧ w1.length = w.length := by
  obtain ⟨⟨h0, hlt⟩, rfl⟩ := assign_spec v v1 i a h
  refine ⟨w.set i.toNat b, ?_, by simp, by simp⟩
  unfold assign
  rw [if_pos ⟨h0, by omega⟩]

/-- An assignment to a corner succeeds whatever the corners hold. -/
theorem corners_assign_sim (b b1 c : Corners) (v_num : Nat) (p : Vector2d)
    (h : b.assign v_num p = .ok b1) : ∃ c1, c.assign v_num p = .ok c1 := by
  unfold Corners.assign at h ⊢
  split at h
  · exact ⟨_, rfl⟩
  · exact ⟨_, rfl⟩
  · exact ⟨_, rfl⟩
  · exact absurd h (by simp)

/-- One round of the vertex loop, read forwards. -/
theorem vertexLoop_cons_of (m_VertArray : List UvVertT) (w h w2 h2 : ℚ)
    (solutionMatrix : Matrix4d) (vertIdx : Int) (rest : List Int) (v_num : Nat) (st : State)
    (origVert : UvVertT) (baryc2 : Corners) (uvs : List Vector2d) (uv_solution : List Int)
    (baryc : Corners)
    (hvert : index m_VertArray vertIdx = .ok origVert)
    (hb2 : st.baryc2.assign v_num ⟨origVert.m_UvCoords.x * w2, origVert.m_UvCoords.y * h2⟩
      = .ok baryc2)
    (huvs : assign st.mesh.triangle_uvs_ vertIdx
      ⟨(transformUV solutionMatrix origVert.m_UvCoords).x,
        (transformUV solutionMatrix origVert.m_UvCoords).y⟩ = .ok uvs)
    (hsol : assign st.uv_solution vertIdx (st.island_matrices.length : Int) = .ok uv_solution)
    (hb : st.baryc.assign v_num
      ⟨(transformUV solutionMatrix origVert.m_UvCoords).x * w,
        (transformUV solutionMatrix origVert.m_UvCoords).y * h⟩ = .ok baryc) :
    vertexLoop m_VertArray w h w2 h2 solutionMatrix (vertIdx :: rest) v_num st =
      vertexLoop m_VertArray w h w2 h2 solutionMatrix rest (v_num + 1)
        { st with mesh := { st.mesh with triangle_uvs_ := uvs },
                  uv_solution := uv_solution, baryc := baryc, baryc2 := baryc2 } := by
  simp only [vertexLoop, hvert, hb2, huvs, hsol, hb, bind, Except.bind]

/-- The vertex loop keeps the shape of the state. -/
theorem vertexLoop_shape (m_VertArray : List UvVertT) (w h w2 h2 : ℚ)
    (solutionMatrix : Matrix4d) :
    ∀ (l : List Int) (v_num : Nat) (st st1 : State),
      vertexLoop m_VertArray w h w2 h2 solutionMatrix l v_num st = .ok st1 →
      SameShape st st1 := by
  intro l
  induction l with
  | nil =>
    intro v_num st st1 h
    simp only [vertexLoop] at h
    cases h
    exact sameShape_refl st
  | cons vertIdx rest ih =>
    intro v_num st st1 h
    simp only [vertexLoop, bind_eq_ok] at h
    obtain ⟨origVert, _, b2, _, uvs, huvs, sol, hsol, b1, _, hrec⟩ := h
    obtain ⟨_, rfl⟩ := assign_spec _ _ _ _ huvs
    obtain ⟨_, rfl⟩ := assign_spec _ _ _ _ hsol
    refine sameShape_trans ?_ (ih _ _ _ hrec)
    exact ⟨rfl, rfl, rfl, by simp, rfl, by simp⟩

/-- A vertex loop that succeeds on one state succeeds on any state of the
same shape. -/
theorem vertexLoop_sim (m_VertArray : List UvVertT) (w h w2 h2 : ℚ)
    (solutionMatrix : Matrix4d) :
    ∀ (l : List Int) (v_num : Nat) (st1 st2 st1a : State), SameShape st1 st2 →
      vertexLoop m_VertArray w h w2 h2 solutionMatrix l v_num st1 = .ok st1a →
      ∃ st2a, vertexLoop m_VertArray w h w2 h2 solutionMatrix l v_num st2 = .ok st2a := by
  intro l
  induction l with
  | nil =>
    intro v_num st1 st2 st1a _ _
    exact ⟨st2, by simp only [vertexLoop]⟩
  | cons vertIdx rest ih =>
    intro v_num st1 st2 st1a hS h
    simp only [vertexLoop, bind_eq_ok] at h
    obtain ⟨origVert, hvert, b2, hb2, uvs, huvs, sol, hsol, b1, hb1, hrec⟩ := h
    obtain ⟨c2, hc2⟩ := corners_assign_sim _ _ st2.baryc2 _ _ hb2
    obtain ⟨c1, hc1⟩ := corners_assign_sim _ _ st2.baryc _ _ hb1
    obtain ⟨uvs2, huvs2, hl1, hl2⟩ := assign_sim _ _ st2.mesh.triangle_uvs_ _ _
      ⟨(transformUV solutionMatrix origVert.m_UvCoords).x,
        (transformUV solutionMatrix origVert.m_UvCoords).y⟩ hS.2.2.2.1 huvs
    obtain ⟨sol2, hsol2, hs1, hs2⟩ := assign_sim _ _ st2.uv_solution _ _
      (st2.island_matrices.length : Int) hS.2.2.2.2.2 hsol
    rw [vertexLoop_cons_of m_VertArray w h w2 h2 solutionMatrix vertIdx rest v_num st2
      origVert c2 uvs2 sol2 c1 hvert hc2 huvs2 hsol2 hc1]
    refine ih _ _ _ st1a ?_ hrec
    exact ⟨hS.1, hS.2.1, hS.2.2.1, by rw [hl1, hl2]; exact hS.2.2.2.1, hS.2.2.2.2.1,
      by rw [hs1, hs2]; exact hS.2.2.2.2.2⟩

/-- The body of the loop over the faces, read forwards. -/
theorem faceStep_of (color_array : List Image) (m_VertArray : List UvVertT)
    (m_FaceArray : List UvFaceT) (w h w2 h2 : ℚ) (solutionMatrix : Matrix4d)
    (faceId : Int) (st sv : State) (face : UvFaceT) (source_image : Int)
    (hface : index m_FaceArray faceId = .ok face)
    (hsi : index st.mesh.triangle_material_ids_ faceId = .ok source_image)
    (hv : vertexLoop m_VertArray w h w2 h2 solutionMatrix face.m_Verts 0 st = .ok sv) :
    faceStep color_array m_VertArray m_FaceArray w h w2 h2 solutionMatrix faceId st =
      sweep color_array w h w2 h2 source_image
        (floatStep (max |(sv.baryc.c0.sub sv.baryc.c1).x| |(sv.baryc.c0.sub sv.baryc.c1).y|))
        (floatStep (max |(sv.baryc.c0.sub sv.baryc.c2).x| |(sv.baryc.c0.sub sv.baryc.c2).y|))
        sv := by
  simp only [faceStep, hface, hsi, hv, bind, Except.bind]

/-- Two runs in lockstep process a face of three vertices alike. -/
theorem faceStep_sim (color_array : List Image) (m_VertArray : List UvVertT)
    (m_FaceArray : List UvFaceT) (w h w2 h2 : ℚ) (solutionMatrix : Matrix4d)
    (hthree : ∀ face ∈ m_FaceArray, ∃ a b c, face.m_Verts = [a, b, c])
    (faceId : Int) (p1 p2 : List Sample) (st1 st2 st1a : State)
    (hL : Lockstep p1 p2 st1 st2)
    (hrun : faceStep color_array m_VertArray m_FaceArray w h w2 h2 solutionMatrix faceId st1
      = .ok st1a) :
    ∃ st2a, faceStep color_array m_VertArray m_FaceArray w h w2 h2 solutionMatrix faceId st2
        = .ok st2a ∧ Lockstep p1 p2 st1a st2a := by
  obtain ⟨hS, y, hy1, hy2⟩ := hL
  simp only [faceStep, bind_eq_ok] at hrun
  obtain ⟨face, hface, si, hsi, sv1, hv1, hsw1⟩ := hrun
  obtain ⟨a, b, c, habc⟩ := hthree face (index_mem _ _ _ hface)
  obtain ⟨sv2, hv2⟩ := vertexLoop_sim _ _ _ _ _ _ _ _ st1 st2 sv1 hS hv1
  have hsh1 := vertexLoop_shape _ _ _ _ _ _ _ _ _ _ hv1
  have hsh2 := vertexLoop_shape _ _ _ _ _ _ _ _ _ _ hv2
  obtain ⟨_, hsm1⟩ := vertexLoop_frame _ _ _ _ _ _ _ _ _ _ hv1
  obtain ⟨_, hsm2⟩ := vertexLoop_frame _ _ _ _ _ _ _ _ _ _ hv2
  have hv1c := hv1
  have hv2c := hv2
  rw [habc] at hv1c hv2c
  obtain ⟨va, vb, vc, ha, hb, hc, hbar1, hbar1b, _⟩ := vertexLoop_three _ _ _ _ _ _ _ _ _ _ _ hv1c
  obtain ⟨va2, vb2, vc2, ha2, hb2, hc2, hbar2, hbar2b, _⟩ :=
    vertexLoop_three _ _ _ _ _ _ _ _ _ _ _ hv2c
  rw [ha] at ha2
  rw [hb] at hb2
  rw [hc] at hc2
  cases ha2
  cases hb2
  cases hc2
  have hbe : sv1.baryc = sv2.baryc := by rw [hbar1, hbar2]
  have hbe2 : sv1.baryc2 = sv2.baryc2 := by rw [hbar1b, hbar2b]
  have hLs : LockstepSweep p1 p2 sv1 sv2 :=
    ⟨⟨sameShape_trans (sameShape_trans (sameShape_symm hsh1) hS) hsh2, y, by rw [hsm1, hy1], by rw [hsm2, hy2]⟩, hbe, hbe2⟩
  rw [hbe] at hsw1
  obtain ⟨st2a, hsw2, hL2⟩ := sweep_sim color_array w h w2 h2 si _ _ p1 p2 sv1 sv2 st1a hLs hsw1
  refine ⟨st2a, ?_, hL2.1⟩
  rw [faceStep_of color_array m_VertArray m_FaceArray w h w2 h2 solutionMatrix faceId st2 sv2
    face si hface (by rw [← hS.2.2.2.2.1]; exact hsi) hv2]
  exact hsw2

/-- Two runs in lockstep process an island alike. -/
theorem islandStep_sim (islandSolutionToMatrix : UvpIslandPackSolutionT → Matrix4d)
    (color_array : List Image) (m_VertArray : List UvVertT) (m_FaceArray : List UvFaceT)
    (islands : List (List Int)) (w h w2 h2 : ℚ)
    (hthree : ∀ face ∈ m_FaceArray, ∃ a b c, face.m_Verts = [a, b, c])
    (islandSolution : UvpIslandPackSolutionT) (p1 p2 : List Sample) (st1 st2 st1a : State)
    (hL : Lockstep p1 p2 st1 st2)
    (hrun : islandStep islandSolutionToMatrix color_array m_VertArray m_FaceArray islands
      w h w2 h2 islandSolution st1 = .ok st1a) :
    ∃ st2a, islandStep islandSolutionToMatrix color_array m_VertArray m_FaceArray islands
        w h w2 h2 islandSolution st2 = .ok st2a ∧ Lockstep p1 p2 st1a st2a := by
  simp only [islandStep, bind_eq_ok, pure, Except.pure] at hrun
  obtain ⟨island, hisl, sf1, hfaces, hst⟩ := hrun
  cases hst
  obtain ⟨sf2, hf2, hS, y, hy1, hy2⟩ := forEach_sim (Lockstep p1 p2) _ island
    (fun faceId _ s1 s2 s1a hR hf =>
      faceStep_sim color_array m_VertArray m_FaceArray w h w2 h2 _ hthree faceId p1 p2
        s1 s2 s1a hR hf) st1 st2 sf1 hL hfaces
  refine ⟨{ sf2 with island_matrices :=
      sf2.island_matrices ++ [islandSolutionToMatrix islandSolution] }, ?_, ?_⟩
  · simp only [islandStep, hisl, hf2, bind, Except.bind, pure, Except.pure]
  · exact ⟨hS, y, hy1, hy2⟩

/-- Processing an island keeps the shape of the state. -/
theorem islandStep_shape (islandSolutionToMatrix : UvpIslandPackSolutionT → Matrix4d)
    (color_array : List Image) (m_VertArray : List UvVertT) (m_FaceArray : List UvFaceT)
    (islands : List (List Int)) (w h w2 h2 : ℚ) (islandSolution : UvpIslandPackSolutionT)
    (st st1 : State)
    (hrun : islandStep islandSolutionToMatrix color_array m_VertArray m_FaceArray islands
      w h w2 h2 islandSolution st = .ok st1) : SameShape st st1 := by
  refine islandStep_inv (SameShape st) _ _ _ _ _ _ _ _ _ islandSolution ?_ ?_ ?_ st st1
    (sameShape_refl st) hrun
  · intro si a b s s1 hs hstep
    exact sameShape_trans hs (sampleStep_shape _ _ _ _ _ _ _ _ _ _ hstep)
  · intro l n s s1 hs hv
    exact sameShape_trans hs (vertexLoop_shape _ _ _ _ _ _ _ _ _ _ hv)
  · intro s m hs
    exact hs

/-! ## The trace of a run, island by island -/

/-- The samples of a run over a list of solutions are the samples of the
islands one after the other, each as processed from `st0`; and every solution
of the list can be processed from `st0`. -/
theorem islands_trace (islandSolutionToMatrix : UvpIslandPackSolutionT → Matrix4d)
    (color_array : List Image) (m_VertArray : List UvVertT) (m_FaceArray : List UvFaceT)
    (islands : List (List Int)) (w h w2 h2 : ℚ)
    (hthree : ∀ face ∈ m_FaceArray, ∃ a b c, face.m_Verts = [a, b, c])
    (st0 : State) (h0 : st0.samples = []) :
    ∀ (L : List UvpIslandPackSolutionT) (st st1 : State), SameShape st0 st →
      forEach (islandStep islandSolutionToMatrix color_array m_VertArray m_FaceArray islands
        w h w2 h2) L st = .ok st1 →
      st1.samples = st.samples ++ L.flatMap (fun sol =>
        samplesOr (islandStep islandSolutionToMatrix color_array m_VertArray m_FaceArray
          islands w h w2 h2 sol st0)) ∧
      ∀ sol ∈ L, ∃ s, islandStep islandSolutionToMatrix color_array m_VertArray m_FaceArray
        islands w h w2 h2 sol st0 = .ok s := by
  intro L
  induction L with
  | nil =>
    intro st st1 _ hrun
    simp only [forEach] at hrun
    cases hrun
    exact ⟨by simp, fun sol hsol => absurd hsol (List.not_mem_nil sol)⟩
  | cons sol rest ih =>
    intro st st1 hS hrun
    rw [forEach] at hrun
    cases hb : islandStep islandSolutionToMatrix color_array m_VertArray m_FaceArray islands
        w h w2 h2 sol st with
    | error e => rw [hb] at hrun; exact absurd hrun (by simp)
    | ok sa =>
      rw [hb] at hrun
      obtain ⟨s0, hs0, _, y, hy1, hy2⟩ := islandStep_sim islandSolutionToMatrix color_array
        m_VertArray m_FaceArray islands w h w2 h2 hthree sol st.samples [] st st0 sa
        ⟨sameShape_symm hS, [], by simp, by simp [h0]⟩ hb
      have hsa := islandStep_shape _ _ _ _ _ _ _ _ _ _ _ _ hb
      obtain ⟨htr, hall⟩ := ih sa st1 (sameShape_trans hS hsa) hrun
      constructor
      · rw [htr, hy1, List.flatMap_cons, List.append_assoc]
        congr 2
        rw [hs0]
        simpa [samplesOr] using hy2.symm
      · intro sol1 hsol1
        rcases List.mem_cons.1 hsol1 with h1 | h1
        · rw [h1]
          exact ⟨s0, hs0⟩
        · exact hall sol1 h1

/-- A list of solutions each of which can be processed from `st0` can be
processed, one after the other, from any state of the same shape. -/
theorem islands_succeed (islandSolutionToMatrix : UvpIslandPackSolutionT → Matrix4d)
    (color_array : List Image) (m_VertArray : List UvVertT) (m_FaceArray : List UvFaceT)
    (islands : List (List Int)) (w h w2 h2 : ℚ)
    (hthree : ∀ face ∈ m_FaceArray, ∃ a b c, face.m_Verts = [a, b, c])
    (st0 : State) :
    ∀ (L : List UvpIslandPackSolutionT),
      (∀ sol ∈ L, ∃ s, islandStep islandSolutionToMatrix color_array m_VertArray m_FaceArray
        islands w h w2 h2 sol st0 = .ok s) →
      ∀ st, SameShape st0 st →
      ∃ st1, forEach (islandStep islandSolutionToMatrix color_array m_VertArray m_FaceArray
        islands w h w2 h2) L st = .ok st1 := by
  intro L
  induction L with
  | nil =>
    intro _ st _
    exact ⟨st, by simp only [forEach]⟩
  | cons sol rest ih =>
    intro hall st hS
    obtain ⟨s0, hs0⟩ := hall sol (List.mem_cons_self _ _)
    obtain ⟨sa, hsa, _⟩ := islandStep_sim islandSolutionToMatrix color_array
      m_VertArray m_FaceArray islands w h w2 h2 hthree sol st0.samples st.samples st0 st s0
      ⟨hS, [], by simp, by simp⟩ hs0
    have hsh := islandStep_shape _ _ _ _ _ _ _ _ _ _ _ _ hs0
    have hsh2 := islandStep_shape _ _ _ _ _ _ _ _ _ _ _ _ hsa
    obtain ⟨st1, hst1⟩ := ih (fun s hs => hall s (List.mem_cons_of_mem _ hs)) sa (sameShape_trans hS hsh2)
    refine ⟨st1, ?_⟩
    rw [forEach, hsa]
    exact hst1

/-! ## The last sample of a pixel, island by island -/

theorem lastSample_append_list (u v : Int) (x y : List Sample) :
    lastSample u v (x ++ y) = (lastSample u v y).or (lastSample u v x) := by
  simp only [lastSample, List.reverse_append, List.find?_append]

theorem lastSample_flatMap_mem {α : Type} (f : α → List Sample) (u v : Int) (r : Sample) :
    ∀ (L : List α), lastSample u v (L.flatMap f) = some r →
      ∃ a ∈ L, lastSample u v (f a) = some r := by
  intro L
  induction L with
  | nil =>
    intro h
    simp [lastSample] at h
  | cons a rest ih =>
    intro h
    rw [List.flatMap_cons, lastSample_append_list] at h
    cases hrest : lastSample u v (rest.flatMap f) with
    | some t =>
      rw [hrest] at h
      obtain ⟨b, hb, hbr⟩ := ih (by rw [hrest]; exact h)
      exact ⟨b, List.mem_cons_of_mem _ hb, hbr⟩
    | none =>
      rw [hrest] at h
      exact ⟨a, List.mem_cons_self _ _, h⟩

theorem disjointPixels_symm {x y : List Sample} (h : DisjointPixels x y) :
    DisjointPixels y x :=
  fun s hs t ht hst => h t ht s hs ⟨hst.1.symm, hst.2.symm⟩

/-- When the islands write disjoint sets of pixels, the last sample of a pixel
in the run is its last sample in the one island that writes it. -/
theorem lastSample_flatMap_of_mem {α : Type} (f : α → List Sample) (u v : Int) (r : Sample) :
    ∀ (L : List α), L.Pairwise (fun a b => DisjointPixels (f a) (f b)) →
      ∀ a ∈ L, lastSample u v (f a) = some r → lastSample u v (L.flatMap f) = some r := by
  intro L
  induction L with
  | nil =>
    intro _ a ha
    exact absurd ha (List.not_mem_nil a)
  | cons b rest ih =>
    intro hpw a ha hr
    obtain ⟨hhead, htail⟩ := List.pairwise_cons.1 hpw
    rw [List.flatMap_cons, lastSample_append_list]
    cases hrest : lastSample u v (rest.flatMap f) with
    | some t =>
      obtain ⟨c, hc, hct⟩ := lastSample_flatMap_mem f u v t rest hrest
      rcases List.mem_cons.1 ha with h1 | h1
      · subst h1
        obtain ⟨hrm, hru, hrv⟩ := lastSample_some u v _ r hr
        obtain ⟨htm, htu, htv⟩ := lastSample_some u v _ t hct
        exact absurd ⟨hru.trans htu.symm, hrv.trans htv.symm⟩ (hhead c hc r hrm t htm)
      · have h3 : t = r := Option.some.inj (hrest.symm.trans (ih htail a h1 hr))
        rw [h3]
        rfl
    | none =>
      rcases List.mem_cons.1 ha with h1 | h1
      · subst h1
        exact hr
      · have := ih htail a h1 hr
        rw [hrest] at this
        exact absurd this (by simp)

/-- When the islands write disjoint sets of pixels, the last sample of a pixel
does not depend on the order of the islands. -/
theorem lastSample_flatMap_perm {α : Type} (f : α → List Sample) (u v : Int)
    (L L1 : List α) (hperm : L1.Perm L)
    (hpw : L.Pairwise (fun a b => DisjointPixels (f a) (f b))) :
    lastSample u v (L1.flatMap f) = lastSample u v (L.flatMap f) := by
  have hpw1 : L1.Pairwise (fun a b => DisjointPixels (f a) (f b)) :=
    hperm.symm.pairwise hpw (fun hxy => disjointPixels_symm hxy)
  cases hL : lastSample u v (L.flatMap f) with
  | some r =>
    obtain ⟨a, ha, har⟩ := lastSample_flatMap_mem f u v r L hL
    exact lastSample_flatMap_of_mem f u v r L1 hpw1 a (hperm.mem_iff.2 ha) har
  | none =>
    cases hL1 : lastSample u v (L1.flatMap f) with
    | none => rfl
    | some r =>
      obtain ⟨a, ha, har⟩ := lastSample_flatMap_mem f u v r L1 hL1
      have := lastSample_flatMap_of_mem f u v r L hpw a (hperm.mem_iff.1 ha) har
      rw [hL] at this
      exact absurd this (by simp)

/-! ## The atlas after compositing, byte by byte -/

/-- A sample keeps the bytes that belong to no pixel. -/
theorem sampleStep_kept (color_array : List Image) (init : Image)
    (hw : 1 ≤ init.width_) (hh : 1 ≤ init.height_)
    (w2 h2 : ℚ) (source_image : Int) (baryc_alpha baryc_beta : ℚ) (st st1 : State)
    (hP : Composited color_array init st) (hK : Kept init st)
    (hstep : sampleStep color_array init.width_ init.height_ w2 h2 source_image
      baryc_alpha baryc_beta st = .ok st1) :
    Kept init st1 := by
  obtain ⟨src, out, hsrc, hcopy, rfl⟩ := sampleStep_spec _ _ _ _ _ _ _ _ _ _ hstep
  obtain ⟨hW, hH, hN, _, _⟩ := hP
  obtain ⟨kb, kl, kf⟩ := hK
  obtain ⟨cw, chh, cn, _, cframe⟩ := copyPixel_spec _ _ _ _ _ _ _ hcopy
  obtain ⟨cl, cb⟩ := copyPixel_shape _ _ _ _ _ _ _ hcopy
  have hd := destPixel_bounds init.width_ init.height_ hw hh
    (barycentric st.baryc (1 - baryc_alpha - baryc_beta) baryc_alpha baryc_beta)
  refine ⟨cb.trans kb, cl.trans kl, ?_⟩
  intro q hq
  show out.load q = init.load q
  rw [cframe q ?_, kf q hq]
  intro ch hc0 hc3
  rw [PointerAt_layout init st.outputImage hW hN]
  exact hq _ _ ch hd.1 hd.2.1 hd.2.2.1 hd.2.2.2 hc0 hc3

/-- Compositing keeps the bytes of the atlas that belong to no pixel. -/
theorem composite_kept (islandSolutionToMatrix : UvpIslandPackSolutionT → Matrix4d)
    (color_array : List Image) (mesh : TriangleMesh) (outputImage : Image)
    (m_VertArray : List UvVertT) (m_FaceArray : List UvFaceT)
    (pIslandsMsg : UvpIslandsMessageT) (pPackSolutionMsg : UvpPackSolutionMessageT)
    (st : State) (hn : outputImage.num_of_channels_ = 3)
    (hw : 1 ≤ outputImage.width_) (hh : 1 ≤ outputImage.height_)
    (hrun : composite islandSolutionToMatrix color_array mesh outputImage m_VertArray
      m_FaceArray pIslandsMsg pPackSolutionMsg = .ok st) :
    Kept outputImage st := by
  obtain ⟨first, _, hloop⟩ := composite_spec _ _ _ _ _ _ _ _ _ hrun
  have hboth : Composited color_array outputImage st ∧ Kept outputImage st := by
    refine forEach_inv (fun s => Composited color_array outputImage s ∧ Kept outputImage s)
      _ _ ?_ _ _ ?_ hloop
    · intro sol _ s s1 hs hstep
      refine islandStep_inv
        (fun s => Composited color_array outputImage s ∧ Kept outputImage s)
        _ _ _ _ _ _ _ _ _ sol ?_ ?_ ?_ s s1 hs hstep
      · intro si a b s2 s3 h2 h3
        exact ⟨sampleStep_composited color_array outputImage hn hw hh _ _ si a b s2 s3 h2.1 h3,
          sampleStep_kept color_array outputImage hw hh _ _ si a b s2 s3 h2.1 h2.2 h3⟩
      · intro l n s2 s3 h2 h3
        obtain ⟨hi, hsm⟩ := vertexLoop_frame _ _ _ _ _ _ l n s2 s3 h3
        refine ⟨Composited_frame color_array outputImage s2 s3 hi hsm h2.1, ?_⟩
        unfold Kept
        rw [hi]
        exact h2.2
      · intro s2 m h2
        exact h2
    · refine ⟨⟨rfl, rfl, rfl, ?_, ?_⟩, rfl, rfl, fun _ _ => rfl⟩
      · intro s hs
        simp at hs
      · intro u v ch _ _ _ _ _ _
        refine ⟨fun _ => rfl, fun s hs => ?_⟩
        simp [lastSample] at hs
  exact hboth.2

/-- Two images with the same fields that hold the same byte at every offset
are the same image. -/
theorem Image.eq_of_load (im1 im2 : Image) (hw : im1.width_ = im2.width_)
    (hh : im1.height_ = im2.height_) (hn : im1.num_of_channels_ = im2.num_of_channels_)
    (hb : im1.bytes_per_channel_ = im2.bytes_per_channel_)
    (hload : ∀ q : Int, 0 ≤ q → im1.load q = im2.load q) : im1 = im2 := by
  have hd : im1.data_ = im2.data_ := by
    apply List.ext_getElem?
    intro n
    have h := hload (n : Int) (Int.ofNat_nonneg n)
    unfold Image.load at h
    rw [if_pos (Int.ofNat_nonneg n), if_pos (Int.ofNat_nonneg n)] at h
    simp only [Int.toNat_ofNat] at h
    cases h1 : im1.data_[n]? with
    | none =>
      cases h2 : im2.data_[n]? with
      | none => rfl
      | some y =>
        rw [h1, h2] at h
        exact absurd h (by simp)
    | some x =>
      cases h2 : im2.data_[n]? with
      | none =>
        rw [h1, h2] at h
        exact absurd h (by simp)
      | some y =>
        rw [h1, h2] at h
        rw [Except.ok.inj h]
  cases im1
  cases im2
  simp only at hw hh hn hb hd
  subst hw hh hn hb hd
  rfl

theorem buildFaceArray_three (mesh : TriangleMesh) :
    ∀ face ∈ buildFaceArray mesh, ∃ a b c, face.m_Verts = [a, b, c] := by
  intro face hface
  rw [buildFaceArray_eq] at hface
  obtain ⟨i, _, rfl⟩ := List.mem_map.1 hface
  exact ⟨_, _, _, pushFaceVerts_three _⟩

/-- When the islands of the solutions write disjoint sets of pixels, the atlas
after compositing does not depend on the order of the solutions. -/
theorem composite_perm (islandSolutionToMatrix : UvpIslandPackSolutionT → Matrix4d)
    (color_array : List Image) (mesh : TriangleMesh) (outputImage : Image)
    (m_VertArray : List UvVertT) (m_FaceArray : List UvFaceT)
    (pIslandsMsg : UvpIslandsMessageT) (L L1 : List UvpIslandPackSolutionT) (st : State)
    (hthree : ∀ face ∈ m_FaceArray, ∃ a b c, face.m_Verts = [a, b, c])
    (hn : outputImage.num_of_channels_ = 3)
    (hw : 1 ≤ outputImage.width_) (hh : 1 ≤ outputImage.height_)
    (hperm : L1.Perm L)
    (hdisj : L.Pairwise (fun a b => DisjointPixels
      (islandSamples islandSolutionToMatrix color_array mesh outputImage m_VertArray
        m_FaceArray pIslandsMsg.m_Islands a)
      (islandSamples islandSolutionToMatrix color_array mesh outputImage m_VertArray
        m_FaceArray pIslandsMsg.m_Islands b)))
    (hrun : composite islandSolutionToMatrix color_array mesh outputImage m_VertArray
      m_FaceArray pIslandsMsg ⟨L⟩ = .ok st) :
    ∃ st1, composite islandSolutionToMatrix color_array mesh outputImage m_VertArray
        m_FaceArray pIslandsMsg ⟨L1⟩ = .ok st1 ∧ st1.outputImage = st.outputImage := by
  obtain ⟨first, hfirst, hloop⟩ := composite_spec _ _ _ _ _ _ _ _ _ hrun
  obtain ⟨htr, hall⟩ := islands_trace islandSolutionToMatrix color_array m_VertArray
    m_FaceArray pIslandsMsg.m_Islands _ _ _ _ hthree (initialState mesh outputImage) rfl
    L (initialState mesh outputImage) st (sameShape_refl _) hloop
  obtain ⟨st1, hloop1⟩ := islands_succeed islandSolutionToMatrix color_array m_VertArray
    m_FaceArray pIslandsMsg.m_Islands _ _ _ _ hthree (initialState mesh outputImage)
    L1 (fun sol hs => hall sol (hperm.mem_iff.1 hs)) (initialState mesh outputImage)
    (sameShape_refl _)
  obtain ⟨htr1, _⟩ := islands_trace islandSolutionToMatrix color_array m_VertArray
    m_FaceArray pIslandsMsg.m_Islands _ _ _ _ hthree (initialState mesh outputImage) rfl
    L1 (initialState mesh outputImage) st1 (sameShape_refl _) hloop1
  have hrun1 : composite islandSolutionToMatrix color_array mesh outputImage m_VertArray
      m_FaceArray pIslandsMsg ⟨L1⟩ = .ok st1 := by
    simp only [composite, hfirst, bind, Except.bind]
    exact hloop1
  have hC := composite_composited _ _ _ _ _ _ _ _ _ hn hw hh hrun
  have hC1 := composite_composited _ _ _ _ _ _ _ _ _ hn hw hh hrun1
  have hK := composite_kept _ _ _ _ _ _ _ _ _ hn hw hh hrun
  have hK1 := composite_kept _ _ _ _ _ _ _ _ _ hn hw hh hrun1
  have hf : (fun sol => samplesOr (islandStep islandSolutionToMatrix color_array m_VertArray
        m_FaceArray pIslandsMsg.m_Islands outputImage.width_ outputImage.height_
        first.width_ first.height_ sol (initialState mesh outputImage)))
      = islandSamples islandSolutionToMatrix color_array mesh outputImage m_VertArray
          m_FaceArray pIslandsMsg.m_Islands := by
    funext sol
    simp only [islandSamples, hfirst]
  have hlast : ∀ u v, lastSample u v st1.samples = lastSample u v st.samples := by
    intro u v
    rw [htr, htr1, hf]
    show lastSample u v ([] ++ _) = lastSample u v ([] ++ _)
    rw [List.nil_append, List.nil_append]
    exact lastSample_flatMap_perm _ u v L L1 hperm hdisj
  refine ⟨st1, hrun1, ?_⟩
  obtain ⟨cW, cH, cN, _, cP⟩ := hC
  obtain ⟨cW1, cH1, cN1, _, cP1⟩ := hC1
  apply Image.eq_of_load _ _ (cW1.trans cW.symm) (cH1.trans cH.symm) (cN1.trans cN.symm)
    (hK1.1.trans hK.1.symm)
  intro q _
  by_cases hex : ∃ u v ch : Int, (0 ≤ u ∧ u < outputImage.width_ ∧ 0 ≤ v ∧
      v < outputImage.height_ ∧ 0 ≤ ch ∧ ch < 3) ∧ q = outputImage.PointerAt u v ch
  · obtain ⟨u, v, ch, ⟨hu, huw, hv, hvh, hc, hc3⟩, rfl⟩ := hex
    obtain ⟨a0, a1⟩ := cP u v ch hu huw hv hvh hc hc3
    obtain ⟨b0, b1⟩ := cP1 u v ch hu huw hv hvh hc hc3
    rw [PointerAt_layout outputImage st.outputImage cW cN] at a0 a1
    rw [PointerAt_layout outputImage st1.outputImage cW1 cN1] at b0 b1
    rw [hlast u v] at b0 b1
    cases hl : lastSample u v st.samples with
    | none => rw [a0 hl, b0 hl]
    | some s =>
      obtain ⟨x, hx, hxl⟩ := a1 s hl
      obtain ⟨y, hy, hyl⟩ := b1 s hl
      rw [hx] at hy
      rw [hxl, hyl, Except.ok.inj hy]
  · have hq : ∀ u v ch : Int, 0 ≤ u → u < outputImage.width_ → 0 ≤ v →
        v < outputImage.height_ → 0 ≤ ch → ch < 3 → q ≠ outputImage.PointerAt u v ch :=
      fun u v ch hu huw hv hvh hc hc3 heq => hex ⟨u, v, ch, ⟨hu, huw, hv, hvh, hc, hc3⟩, heq⟩
    rw [hK.2.2 q hq, hK1.2.2 q hq]

/-- The result of a run whose two requests succeed with all three messages is
the outcome of the compositing loops. -/
theorem run_result_of_pack (engine : Engine)
    (islandSolutionToMatrix : UvpIslandPackSolutionT → Matrix4d)
    (color_array : List Image) (mesh : TriangleMesh) (outputImage : Image)
    (m_VertArray : List UvVertT) (v : UvpVersionMessageT)
    (pIslandsMsg : UvpIslandsMessageT) (pPackSolutionMsg : UvpPackSolutionMessageT)
    (hcode : (engine reportVersionInput Messages.empty).1 = .SUCCESS)
    (hmsg : (engine reportVersionInput Messages.empty).2.VERSION = some v)
    (hbuild : buildVertArray mesh = .ok m_VertArray)
    (hpack : (engine (packInput m_VertArray (buildFaceArray mesh))
      (engine reportVersionInput Messages.empty).2).1 = .SUCCESS)
    (hislands : (engine (packInput m_VertArray (buildFaceArray mesh))
      (engine reportVersionInput Messages.empty).2).2.ISLANDS = some pIslandsMsg)
    (hsolution : (engine (packInput m_VertArray (buildFaceArray mesh))
      (engine reportVersionInput Messages.empty).2).2.PACK_SOLUTION = some pPackSolutionMsg) :
    (PerformTextureUnpack engine islandSolutionToMatrix color_array mesh outputImage).result
      = match composite islandSolutionToMatrix color_array mesh outputImage m_VertArray
          (buildFaceArray mesh) pIslandsMsg pPackSolutionMsg with
        | .ok st => .ok ⟨true, st.outputImage, st.mesh, st.samples⟩
        | .error e => .error e := by
  unfold PerformTextureUnpack
  dsimp only
  rw [if_neg (not_not.2 hcode), hmsg]
  dsimp only
  rw [hbuild]
  dsimp only
  rw [if_neg (not_not.2 hpack), hislands, hsolution]
  dsimp only
  cases composite islandSolutionToMatrix color_array mesh outputImage m_VertArray
    (buildFaceArray mesh) pIslandsMsg pPackSolutionMsg <;> rfl

/-! ## The UV accesses of the vertex loop -/

theorem assign_of_lt {α : Type} (v : List α) (i : Int) (a : α) (h0 : 0 ≤ i)
    (hlt : i < v.length) : assign v i a = .ok (v.set i.toNat a) := by
  unfold assign
  rw [if_pos ⟨h0, by omega⟩]

theorem corners_assign_of_le (b : Corners) (v_num : Nat) (p : Vector2d) (h : v_num ≤ 2) :
    ∃ b1, b.assign v_num p = .ok b1 := by
  have hcases : v_num = 0 ∨ v_num = 1 ∨ v_num = 2 := by omega
  rcases hcases with rfl | rfl | rfl
  · exact ⟨_, rfl⟩
  · exact ⟨_, rfl⟩
  · exact ⟨_, rfl⟩

/-- The vertex loop over at most three vertex indices that are in range of the
vertex table returns when the UV array and `uv_solution` have an entry for
every vertex of the table. -/
theorem vertexLoop_of_lt (m_VertArray : List UvVertT) (w h w2 h2 : ℚ)
    (solutionMatrix : Matrix4d) :
    ∀ (l : List Int) (v_num : Nat) (st : State),
      (∀ v ∈ l, 0 ≤ v ∧ v < m_VertArray.length) →
      m_VertArray.length ≤ st.mesh.triangle_uvs_.length →
      m_VertArray.length ≤ st.uv_solution.length →
      v_num + l.length ≤ 3 →
      ∃ st1, vertexLoop m_VertArray w h w2 h2 solutionMatrix l v_num st = .ok st1 := by
  intro l
  induction l with
  | nil =>
    intro v_num st _ _ _ _
    exact ⟨st, by simp only [vertexLoop]⟩
  | cons vertIdx rest ih =>
    intro v_num st hl huv hsol hn
    obtain ⟨h0, hlt⟩ := hl vertIdx (List.mem_cons_self _ _)
    obtain ⟨origVert, hvert⟩ := index_ok_of_lt m_VertArray vertIdx h0 hlt
    simp only [List.length_cons] at hn
    obtain ⟨b2, hb2⟩ := corners_assign_of_le st.baryc2 v_num
      ⟨origVert.m_UvCoords.x * w2, origVert.m_UvCoords.y * h2⟩ (by omega)
    obtain ⟨b1, hb1⟩ := corners_assign_of_le st.baryc v_num
      ⟨(transformUV solutionMatrix origVert.m_UvCoords).x * w,
        (transformUV solutionMatrix origVert.m_UvCoords).y * h⟩ (by omega)
    have huvs := assign_of_lt st.mesh.triangle_uvs_ vertIdx
      ⟨(transformUV solutionMatrix origVert.m_UvCoords).x,
        (transformUV solutionMatrix origVert.m_UvCoords).y⟩ h0 (by omega)
    have hso := assign_of_lt st.uv_solution vertIdx (st.island_matrices.length : Int) h0
      (by omega)
    rw [vertexLoop_cons_of m_VertArray w h w2 h2 solutionMatrix vertIdx rest v_num st
      origVert b2 _ _ b1 hvert hb2 huvs hso hb1]
    refine ih _ _ (fun v hv => hl v (List.mem_cons_of_mem _ hv)) ?_ ?_ (by omega)
    · simpa using huv
    · simpa using hsol

/-- After the vertex loop the entry of `uv_solution` of every vertex of the
list is the number of islands composited before, and no other entry changed;
the loop leaves `island_matrices` alone. -/
theorem vertexLoop_solution (m_VertArray : List UvVertT) (w h w2 h2 : ℚ)
    (solutionMatrix : Matrix4d) :
    ∀ (l : List Int) (v_num : Nat) (st st1 : State),
      vertexLoop m_VertArray w h w2 h2 solutionMatrix l v_num st = .ok st1 →
      st1.island_matrices = st.island_matrices ∧
      (∀ v ∈ l, index st1.uv_solution v = .ok (st.island_matrices.length : Int)) ∧
      (∀ q, q ∉ l → index st1.uv_solution q = index st.uv_solution q) := by
  intro l
  induction l with
  | nil =>
    intro v_num st st1 h
    simp only [vertexLoop] at h
    cases h
    exact ⟨rfl, fun v hv => absurd hv (List.not_mem_nil v), fun q _ => rfl⟩
  | cons vertIdx rest ih =>
    intro v_num st st1 h
    simp only [vertexLoop, bind_eq_ok] at h
    obtain ⟨origVert, hvert, b2, _, uvs, _, sol, hsol, b1, _, hrec⟩ := h
    obtain ⟨hmat, hin, hout⟩ := ih _ _ _ hrec
    have hset := index_assign _ _ _ _ hsol
    refine ⟨hmat, ?_, ?_⟩
    · intro v hv
      by_cases hvr : v ∈ rest
      · exact hin v hvr
      · have hv0 : v = vertIdx := by
          rcases List.mem_cons.1 hv with h1 | h1
          · exact h1
          · exact absurd h1 hvr
        subst hv0
        rw [hout v hvr]
        show index sol v = _
        rw [hset v, if_pos rfl]
    · intro q hq
      have hq1 : q ≠ vertIdx := fun e => hq (by rw [e]; exact List.mem_cons_self _ _)
      have hq2 : q ∉ rest := fun e => hq (List.mem_cons_of_mem _ e)
      rw [hout q hq2]
      show index sol q = _
      rw [hset q, if_neg hq1]

/-- Processing a face keeps the shape of the state. -/
theorem faceStep_shape (color_array : List Image) (m_VertArray : List UvVertT)
    (m_FaceArray : List UvFaceT) (w h w2 h2 : ℚ) (solutionMatrix : Matrix4d)
    (faceId : Int) (st st1 : State)
    (hrun : faceStep color_array m_VertArray m_FaceArray w h w2 h2 solutionMatrix faceId st
      = .ok st1) : SameShape st st1 := by
  refine faceStep_inv (SameShape st) color_array m_VertArray m_FaceArray w h w2 h2
    solutionMatrix faceId ?_ ?_ st st1 (sameShape_refl st) hrun
  · intro si a b s s1 hs hstep
    exact sameShape_trans hs (sampleStep_shape _ _ _ _ _ _ _ _ _ _ hstep)
  · intro l n s s1 hs hv
    exact sameShape_trans hs (vertexLoop_shape _ _ _ _ _ _ _ _ _ _ hv)

/-- The vertex indices of the faces are the triangle indices. -/
theorem buildFaceArray_verts (mesh : TriangleMesh) :
    ∀ face ∈ buildFaceArray mesh, ∃ t ∈ mesh.triangles_, face.m_Verts = [t.x, t.y, t.z] := by
  intro face hface
  rw [buildFaceArray_eq] at hface
  obtain ⟨i, hi, rfl⟩ := List.mem_map.1 hface
  have hlt : i < mesh.triangles_.length := List.mem_range.1 hi
  refine ⟨mesh.triangles_[i], List.getElem_mem hlt, ?_⟩
  show pushFaceVerts _ 3 = _
  rw [List.getD_eq_getElem _ _ hlt, pushFaceVerts_three]

/-- A run whose version query succeeded ends with the fault of the vertex
table when the table cannot be built. -/
theorem run_result_of_build_fault (engine : Engine)
    (islandSolutionToMatrix : UvpIslandPackSolutionT → Matrix4d)
    (color_array : List Image) (mesh : TriangleMesh) (outputImage : Image)
    (v : UvpVersionMessageT) (e : Fault)
    (hcode : (engine reportVersionInput Messages.empty).1 = .SUCCESS)
    (hmsg : (engine reportVersionInput Messages.empty).2.VERSION = some v)
    (hbuild : buildVertArray mesh = .error e) :
    (PerformTextureUnpack engine islandSolutionToMatrix color_array mesh outputImage).result
      = .error e := by
  unfold PerformTextureUnpack
  dsimp only
  rw [if_neg (not_not.2 hcode), hmsg]
  dsimp only
  rw [hbuild]

/-! ## The sweep as a loop over its grid of parameters -/

theorem loadRaw_of_ok (memory : Int → Byte) (im : Image) (off : Int) (b : Byte)
    (h : im.load off = .ok b) : im.loadRaw memory off = b := by
  unfold Image.loadRaw
  rw [h]

/-- A copy whose three reads stay inside the source buffer does not depend
on the memory around it. -/
theorem copyPixelRaw_of_ok (memory : Int → Byte) (src : Image) (u0 v0 u2 v2 : Int)
    (out out1 : Image) (h : copyPixel src u0 v0 u2 v2 out = .ok out1) :
    copyPixelRaw memory src u0 v0 u2 v2 out = .ok out1 := by
  simp only [copyPixel, bind_eq_ok] at h
  obtain ⟨b0, hb0, o1, ho1, b1, hb1, o2, ho2, b2, hb2, ho3⟩ := h
  simp only [copyPixelRaw, loadRaw_of_ok memory src _ _ hb0, loadRaw_of_ok memory src _ _ hb1,
    loadRaw_of_ok memory src _ _ hb2, bind_eq_ok]
  exact ⟨o1, ho1, o2, ho2, ho3⟩

theorem sampleStepRaw_of_ok (memory : Int → Int → Byte) (color_array : List Image)
    (w h w2 h2 : ℚ) (source_image : Int) (baryc_alpha baryc_beta : ℚ) (st st1 : State)
    (hrun : sampleStep color_array w h w2 h2 source_image baryc_alpha baryc_beta st = .ok st1) :
    sampleStepRaw memory color_array w h w2 h2 source_image baryc_alpha baryc_beta st
      = .ok st1 := by
  simp only [sampleStep, bind_eq_ok] at hrun
  obtain ⟨src, hsrc, out, hout, hst⟩ := hrun
  simp only [sampleStepRaw, bind_eq_ok]
  exact ⟨src, hsrc, out, copyPixelRaw_of_ok _ _ _ _ _ _ _ _ hout, hst⟩

theorem forLoop_imp {σ : Type} (body1 body2 : ℚ → σ → Except Fault σ) (bound : ℚ)
    (step : Option ℚ) (hbody : ∀ x s t, body1 x s = .ok t → body2 x s = .ok t) :
    ∀ (fuel : Nat) (x : ℚ) (s t : σ), forLoop body1 bound step fuel x s = .ok t →
      forLoop body2 bound step fuel x s = .ok t := by
  intro fuel
  induction fuel with
  | zero =>
    intro x s t h
    simp [forLoop] at h
  | succ n ih =>
    intro x s t h
    rw [forLoop] at h ⊢
    split_ifs at h ⊢ with hx
    · cases hb : body1 x s with
      | error e =>
        rw [hb] at h
        cases step <;> simp at h
      | ok s1 =>
        rw [hb] at h
        rw [hbody x s s1 hb]
        cases step with
        | none => exact h
        | some d => exact ih _ _ _ h
    · exact h

theorem forEach_imp {α σ : Type} (body1 body2 : α → σ → Except Fault σ)
    (hbody : ∀ a s t, body1 a s = .ok t → body2 a s = .ok t) :
    ∀ (l : List α) (s t : σ), forEach body1 l s = .ok t → forEach body2 l s = .ok t := by
  intro l
  induction l with
  | nil => intro s t h; exact h
  | cons a rest ih =>
    intro s t h
    rw [forEach] at h ⊢
    cases hb : body1 a s with
    | error e =>
      rw [hb] at h
      cases h
    | ok s1 =>
      rw [hb] at h
      rw [hbody a s s1 hb]
      exact ih _ _ h

theorem sweepRaw_of_ok (memory : Int → Int → Byte) (color_array : List Image) (w h w2 h2 : ℚ)
    (source_image : Int) (baryc_step_a baryc_step_b : Option ℚ) (st st1 : State)
    (hrun : sweep color_array w h w2 h2 source_image baryc_step_a baryc_step_b st = .ok st1) :
    sweepRaw memory color_array w h w2 h2 source_image baryc_step_a baryc_step_b st
      = .ok st1 := by
  unfold sweep at hrun
  unfold sweepRaw
  refine forLoop_imp _ _ _ _ ?_ _ _ _ _ hrun
  intro x s t hx
  refine forLoop_imp _ _ _ _ ?_ _ _ _ _ hx
  intro y s2 t2 hy
  exact sampleStepRaw_of_ok _ _ _ _ _ _ _ _ _ _ _ hy

theorem faceStepRaw_of_ok (memory : Int → Int → Byte) (color_array : List Image)
    (m_VertArray : List UvVertT) (m_FaceArray : List UvFaceT) (w h w2 h2 : ℚ)
    (solutionMatrix : Matrix4d) (faceId : Int) (st st1 : State)
    (hrun : faceStep color_array m_VertArray m_FaceArray w h w2 h2 solutionMatrix faceId st
      = .ok st1) :
    faceStepRaw memory color_array m_VertArray m_FaceArray w h w2 h2 solutionMatrix faceId st
      = .ok st1 := by
  simp only [faceStep, bind_eq_ok] at hrun
  obtain ⟨face, hface, source_image, hsrc, st2, hv, hsw⟩ := hrun
  simp only [faceStepRaw, bind_eq_ok]
  exact ⟨face, hface, source_image, hsrc, st2, hv, sweepRaw_of_ok _ _ _ _ _ _ _ _ _ _ _ hsw⟩

theorem islandStepRaw_of_ok (memory : Int → Int → Byte)
    (islandSolutionToMatrix : UvpIslandPackSolutionT → Matrix4d)
    (color_array : List Image) (m_VertArray : List UvVertT) (m_FaceArray : List UvFaceT)
    (islands : List (List Int)) (w h w2 h2 : ℚ)
    (islandSolution : UvpIslandPackSolutionT) (st st1 : State)
    (hrun : islandStep islandSolutionToMatrix color_array m_VertArray m_FaceArray islands
      w h w2 h2 islandSolution st = .ok st1) :
    islandStepRaw memory islandSolutionToMatrix color_array m_VertArray m_FaceArray islands
      w h w2 h2 islandSolution st = .ok st1 := by
  simp only [islandStep, bind_eq_ok] at hrun
  obtain ⟨island, hisland, st2, hfaces, hst⟩ := hrun
  simp only [islandStepRaw, bind_eq_ok]
  exact ⟨island, hisland, st2,
    forEach_imp _ _ (fun a s t ha => faceStepRaw_of_ok _ _ _ _ _ _ _ _ _ _ _ _ ha) _ _ _ hfaces,
    hst⟩

theorem compositeRaw_of_ok (memory : Int → Int → Byte)
    (islandSolutionToMatrix : UvpIslandPackSolutionT → Matrix4d)
    (color_array : List Image) (mesh : TriangleMesh) (outputImage : Image)
    (m_VertArray : List UvVertT) (m_FaceArray : List UvFaceT)
    (pIslandsMsg : UvpIslandsMessageT) (pPackSolutionMsg : UvpPackSolutionMessageT)
    (st1 : State)
    (hrun : composite islandSolutionToMatrix color_array mesh outputImage m_VertArray
      m_FaceArray pIslandsMsg pPackSolutionMsg = .ok st1) :
    compositeRaw memory islandSolutionToMatrix color_array mesh outputImage m_VertArray
      m_FaceArray pIslandsMsg pPackSolutionMsg = .ok st1 := by
  simp only [composite, bind_eq_ok] at hrun
  obtain ⟨first, hfirst, hloop⟩ := hrun
  simp only [compositeRaw, bind_eq_ok]
  exact ⟨first, hfirst,
    forEach_imp _ _ (fun a s t ha => islandStepRaw_of_ok _ _ _ _ _ _ _ _ _ _ _ _ _ ha) _ _ _
      hloop⟩

/-- A run that the checked model completes is the same run with unchecked
reads, whatever the memory around the source images holds: as long as no read
leaves a buffer, the result is a function of the arguments alone. -/
theorem unpack_raw_of_returns (memory : Int → Int → Byte) (engine : Engine)
    (islandSolutionToMatrix : UvpIslandPackSolutionT → Matrix4d)
    (color_array : List Image) (mesh : TriangleMesh) (outputImage : Image) (out : Output)
    (hrun : (PerformTextureUnpack engine islandSolutionToMatrix color_array mesh
      outputImage).result = .ok out) :
    (PerformTextureUnpackRaw memory engine islandSolutionToMatrix color_array mesh
        outputImage).requests
      = (PerformTextureUnpack engine islandSolutionToMatrix color_array mesh
          outputImage).requests ∧
    (PerformTextureUnpackRaw memory engine islandSolutionToMatrix color_array mesh
        outputImage).result = .ok out := by
  unfold PerformTextureUnpack at hrun ⊢
  unfold PerformTextureUnpackRaw
  dsimp only at hrun ⊢
  split_ifs at hrun ⊢ with h1
  · exact ⟨rfl, hrun⟩
  · split at hrun
    · exact ⟨rfl, hrun⟩
    · split at hrun
      · exact ⟨rfl, hrun⟩
      · split_ifs at hrun ⊢ with h2
        · exact ⟨rfl, hrun⟩
        · split at hrun
          · rename_i pIslandsMsg pPackSolutionMsg hi hp
            cases hc : composite islandSolutionToMatrix color_array mesh outputImage _
                (buildFaceArray mesh) pIslandsMsg pPackSolutionMsg with
            | error e =>
              rw [hc] at hrun
              cases hrun
            | ok st =>
              rw [hc] at hrun
              rw [compositeRaw_of_ok memory _ _ _ _ _ _ _ _ _ hc]
              exact ⟨rfl, hrun⟩
          · exact ⟨rfl, hrun⟩
/-! ## Single-precision quotients -/

theorem float32_zero : float32 0 = 0 := by simp [float32]

theorem pow2_neg24 : pow2 (-24) = 1 / 16777216 := by
  rw [pow2_eq]; norm_num

theorem pow2_neg126_le : pow2 (-126) ≤ 1 / 2 ^ 100 := by
  rw [pow2_eq]
  norm_num

/-- The rounding to `float` of a number that is 0 or in the normal range stays
within the fraction `2 ^ -24` of it. -/
theorem float32_between (q : ℚ) (hq : q = 0 ∨ pow2 (-126) ≤ q) :
    q * (16777215 / 16777216) ≤ float32 q ∧ float32 q ≤ q * (16777217 / 16777216) := by
  rcases hq with h0 | hq
  · subst h0
    simp [float32_zero]
  · have hpos : 0 < q := lt_of_lt_of_le (pow2_pos _) hq
    have h := float32_near q (by rwa [abs_of_pos hpos])
    rw [abs_of_pos hpos, pow2_neg24, abs_le] at h
    constructor <;> linarith [h.1, h.2]

/-- The start time `(float)low / 1000000.0f`. -/
theorem start_time_near (low : Nat) (hlow : low < 2 ^ 64) :
    |float32 (float32 (low : ℚ) / 1000000)| < pow2 128 ∧
    |float32 (float32 (low : ℚ) / 1000000) - (low : ℚ) / 1000000|
      ≤ pow2 (-22) * ((low : ℚ) / 1000000) := by
  have hL0 : (0 : ℚ) ≤ (low : ℚ) := Nat.cast_nonneg _
  have hLhi : (low : ℚ) ≤ 2 ^ 64 := by exact_mod_cast le_of_lt hlow
  have h22 : pow2 (-22) = 1 / 4194304 := by rw [pow2_eq]; norm_num
  have h128 : pow2 128 = 2 ^ 128 := by rw [pow2_eq]; norm_num
  have hcase : (low : ℚ) = 0 ∨ pow2 (-126) ≤ (low : ℚ) := by
    rcases Nat.eq_zero_or_pos low with h | h
    · left; exact_mod_cast h
    · right
      have : (1 : ℚ) ≤ (low : ℚ) := by exact_mod_cast h
      refine le_trans pow2_neg126_le (le_trans ?_ this)
      norm_num
  obtain ⟨hF1, hF2⟩ := float32_between _ hcase
  have hcase2 : float32 (low : ℚ) / 1000000 = 0 ∨ pow2 (-126) ≤ float32 (low : ℚ) / 1000000 := by
    rcases Nat.eq_zero_or_pos low with h | h
    · left
      subst h
      simp [float32_zero]
    · right
      have : (1 : ℚ) ≤ (low : ℚ) := by exact_mod_cast h
      refine le_trans pow2_neg126_le ?_
      rw [le_div_iff₀ (by norm_num)]
      have : (1 : ℚ) / 2 ^ 100 * 1000000 ≤ 16777215 / 16777216 := by norm_num
      linarith
  obtain ⟨hS1, hS2⟩ := float32_between _ hcase2
  have hS0 : 0 ≤ float32 (float32 (low : ℚ) / 1000000) :=
    float32_nonneg _ (div_nonneg (float32_nonneg _ hL0) (by norm_num))
  rw [h128, h22, abs_of_nonneg hS0, abs_le]
  refine ⟨?_, ?_, ?_⟩
  · have : float32 (float32 (low : ℚ) / 1000000) ≤ 2 ^ 64 * (16777217 / 16777216) / 1000000
        * (16777217 / 16777216) := by
      refine le_trans hS2 ?_
      apply mul_le_mul_of_nonneg_right _ (by norm_num)
      apply div_le_div_of_nonneg_right _ (by norm_num)
      linarith
    refine lt_of_le_of_lt this ?_
    norm_num
  · have : (low : ℚ) * (16777215 / 16777216) / 1000000 * (16777215 / 16777216)
        ≤ float32 (float32 (low : ℚ) / 1000000) := by
      refine le_trans ?_ hS1
      apply mul_le_mul_of_nonneg_right _ (by norm_num)
      apply div_le_div_of_nonneg_right hF1 (by norm_num)
    linarith
  · have : float32 (float32 (low : ℚ) / 1000000)
        ≤ (low : ℚ) * (16777217 / 16777216) / 1000000 * (16777217 / 16777216) := by
      refine le_trans hS2 ?_
      apply mul_le_mul_of_nonneg_right _ (by norm_num)
      apply div_le_div_of_nonneg_right hF2 (by norm_num)
    linarith

set_option maxHeartbeats 1000000 in
/-- The per-frame delta `(float)span / ((float)n * 1000000.0f)`. -/
theorem delta_time_near (span n : Nat) (hspan : span < 2 ^ 64) (hn1 : 1 ≤ n) (hn2 : n < 2 ^ 31) :
    float32 (float32 (n : ℚ) * 1000000) ≠ 0 ∧
    |float32 (float32 (span : ℚ) / float32 (float32 (n : ℚ) * 1000000))| < pow2 128 ∧
    |float32 (float32 (span : ℚ) / float32 (float32 (n : ℚ) * 1000000))
        - (span : ℚ) / ((n : ℚ) * 1000000)|
      ≤ pow2 (-21) * ((span : ℚ) / ((n : ℚ) * 1000000)) := by
  have hH0 : (0 : ℚ) ≤ (span : ℚ) := Nat.cast_nonneg _
  have hHhi : (span : ℚ) ≤ 2 ^ 64 := by exact_mod_cast le_of_lt hspan
  have hn1q : (1 : ℚ) ≤ (n : ℚ) := by exact_mod_cast hn1
  have hn2q : (n : ℚ) ≤ 2 ^ 31 := by exact_mod_cast le_of_lt hn2
  have h21 : pow2 (-21) = 1 / 2097152 := by rw [pow2_eq]; norm_num
  have h128 : pow2 128 = 2 ^ 128 := by rw [pow2_eq]; norm_num
  generalize hm : (n : ℚ) * 1000000 = m
  have hm1 : (1000000 : ℚ) ≤ m := by rw [← hm]; linarith
  have hm2 : m ≤ 2 ^ 31 * 1000000 := by rw [← hm]; linarith
  have hmpos : (0 : ℚ) < m := by linarith
  -- the frame count
  obtain ⟨hN1, hN2⟩ := float32_between (n : ℚ)
    (Or.inr (le_trans pow2_neg126_le (le_trans (by norm_num) hn1q)))
  -- the divisor
  have hP : pow2 (-126) ≤ float32 (n : ℚ) * 1000000 := by
    refine le_trans pow2_neg126_le ?_
    have : (1 : ℚ) / 2 ^ 100 ≤ 1 * (16777215 / 16777216) * 1000000 := by norm_num
    nlinarith
  obtain ⟨hB1, hB2⟩ := float32_between _ (Or.inr hP)
  generalize hB : float32 (float32 (n : ℚ) * 1000000) = B at hB1 hB2 ⊢
  have hBlo : m * (16777215 / 16777216) * (16777215 / 16777216) ≤ B := by
    refine le_trans ?_ hB1
    apply mul_le_mul_of_nonneg_right _ (by norm_num)
    rw [← hm]
    nlinarith
  have hBhi : B ≤ m * (16777217 / 16777216) * (16777217 / 16777216) := by
    refine le_trans hB2 ?_
    apply mul_le_mul_of_nonneg_right _ (by norm_num)
    rw [← hm]
    nlinarith
  have hBpos : 0 < B := by nlinarith
  -- the span
  have hcase : (span : ℚ) = 0 ∨ pow2 (-126) ≤ (span : ℚ) := by
    rcases Nat.eq_zero_or_pos span with h | h
    · left; exact_mod_cast h
    · right
      have : (1 : ℚ) ≤ (span : ℚ) := by exact_mod_cast h
      exact le_trans pow2_neg126_le (le_trans (by norm_num) this)
  obtain ⟨hA1, hA2⟩ := float32_between _ hcase
  have hA0 : 0 ≤ float32 (span : ℚ) := float32_nonneg _ hH0
  generalize hA : float32 (span : ℚ) = A at hA1 hA2 hA0 ⊢
  -- the quotient
  have hQlo : (span : ℚ) / m * (16777215 / 16777216 / ((16777217 / 16777216) * (16777217 / 16777216)))
      ≤ A / B := by
    have h1 : (span : ℚ) * (16777215 / 16777216)
        / (m * (16777217 / 16777216) * (16777217 / 16777216)) ≤ A / B :=
      div_le_div₀ hA0 hA1 hBpos hBhi
    refine le_trans (le_of_eq ?_) h1
    field_simp
    ring
  have hQhi : A / B
      ≤ (span : ℚ) / m * (16777217 / 16777216 / ((16777215 / 16777216) * (16777215 / 16777216))) := by
    have h1 : A / B ≤ (span : ℚ) * (16777217 / 16777216)
        / (m * (16777215 / 16777216) * (16777215 / 16777216)) :=
      div_le_div₀ (by positivity) hA2 (by positivity) hBlo
    refine le_trans h1 (le_of_eq ?_)
    field_simp
    ring
  have hE0 : 0 ≤ (span : ℚ) / m := div_nonneg hH0 (le_of_lt hmpos)
  have hEhi : (span : ℚ) / m ≤ 2 ^ 64 := by
    rw [div_le_iff₀ hmpos]
    nlinarith
  have hcaseQ : A / B = 0 ∨ pow2 (-126) ≤ A / B := by
    rcases Nat.eq_zero_or_pos span with h | h
    · left
      subst h
      rw [← hA]
      simp [float32_zero]
    · right
      have h1 : (1 : ℚ) ≤ (span : ℚ) := by exact_mod_cast h
      refine le_trans pow2_neg126_le (le_trans ?_ hQlo)
      have h2 : (1 : ℚ) / (2 ^ 31 * 1000000) ≤ (span : ℚ) / m := by
        apply div_le_div₀ (by linarith) h1 hmpos hm2
      have h3 : (1 : ℚ) / 2 ^ 100 ≤ 1 / (2 ^ 31 * 1000000)
          * (16777215 / 16777216 / ((16777217 / 16777216) * (16777217 / 16777216))) := by
        norm_num
      refine le_trans h3 ?_
      apply mul_le_mul_of_nonneg_right h2 (by norm_num)
  obtain ⟨hD1, hD2⟩ := float32_between _ hcaseQ
  have hD0 : 0 ≤ float32 (A / B) := float32_nonneg _ (div_nonneg hA0 (le_of_lt hBpos))
  generalize float32 (A / B) = D at hD1 hD2 hD0 ⊢
  generalize (span : ℚ) / m = E at hQlo hQhi hE0 hEhi ⊢
  generalize A / B = Q at hQlo hQhi hD1 hD2
  rw [h128, h21, abs_of_nonneg hD0, abs_le]
  have k1 : (16777215 / 16777216 / ((16777217 / 16777216) * (16777217 / 16777216)) : ℚ)
      = 281474959933440 / 281475010265089 := by norm_num
  have k2 : (16777217 / 16777216 / ((16777215 / 16777216) * (16777215 / 16777216)) : ℚ)
      = 281474993487872 / 281474943156225 := by norm_num
  rw [k1] at hQlo
  rw [k2] at hQhi
  refine ⟨ne_of_gt hBpos, ?_, ?_, ?_⟩ <;> linarith

/-! ## `double` arithmetic on finite values -/

theorem double_ofRat_of_small (q : ℚ) (h : |q| < 2 ^ 1023) : Double.ofRat q = .finite q := by
  obtain ⟨h1, h2⟩ := abs_lt.1 h
  unfold Double.ofRat
  rw [if_neg, if_neg]
  · have : (2 : ℚ) ^ 1023 ≤ 2 ^ 1024 - 2 ^ 970 := by norm_num
    linarith
  · have : (2 : ℚ) ^ 1023 ≤ 2 ^ 1024 - 2 ^ 970 := by norm_num
    linarith

theorem double_clamp_finite (v lo hi : ℚ) :
    Double.clamp (.finite v) (.finite lo) (.finite hi) = .finite (TextureUnpacker.clamp v lo hi) := by
  unfold Double.clamp TextureUnpacker.clamp
  simp only [Double.lt, decide_eq_true_eq]
  split_ifs <;> rfl

/-- The pixel index of a finite coordinate against an extent `n` of an image,
`1 ≤ n < 2 ^ 31`, is the same in `double` arithmetic as in exact arithmetic. -/
theorem double_toInt_clamp_floor (x : ℚ) (n : Int) (h1 : 1 ≤ n) (h2 : n < 2 ^ 31) :
    (Double.clamp (Double.floor (.finite x)) (.finite 0)
        ((Double.ofInt n).sub (.finite 1))).toInt
      = TextureUnpacker.toInt (TextureUnpacker.clamp ((⌊x⌋ : Int) : ℚ) 0 ((n : ℚ) - 1)) := by
  have hn1 : (1 : ℚ) ≤ (n : ℚ) := by exact_mod_cast h1
  have hn2 : (n : ℚ) < 2 ^ 31 := by exact_mod_cast h2
  have hsub : (Double.ofInt n).sub (.finite 1) = .finite ((n : ℚ) - 1) := by
    simp only [Double.sub, Double.ofInt, Double.neg, Double.add]
    rw [double_ofRat_of_small]
    · rw [← sub_eq_add_neg]
    · rw [abs_lt]
      constructor
      · have : -(2 : ℚ) ^ 1023 < 0 := by norm_num
        linarith
      · have : (2 : ℚ) ^ 31 < 2 ^ 1023 := by norm_num
        linarith
  rw [hsub]
  simp only [Double.floor]
  rw [double_clamp_finite]
  have hv := toInt_clamp_floor x n
  have hc := clamp_intCast ⌊x⌋ 0 (n - 1)
  have e : (((n - 1 : Int)) : ℚ) = (n : ℚ) - 1 := by push_cast; ring
  rw [e] at hc
  simp only [Int.cast_zero] at hc
  simp only [Double.toInt]
  rw [if_pos]
  rw [hc]
  split_ifs with ha hb
  · norm_num
  · constructor
    · have : (0 : ℚ) ≤ ((n - 1 : Int) : ℚ) := by exact_mod_cast (by omega : (0 : Int) ≤ n - 1)
      linarith
    · have : ((n - 1 : Int) : ℚ) < 2 ^ 31 := by push_cast; linarith
      exact this
  · have h0 : (0 : ℚ) ≤ ((⌊x⌋ : Int) : ℚ) := by exact_mod_cast (by omega : (0 : Int) ≤ ⌊x⌋)
    have h3 : ((⌊x⌋ : Int) : ℚ) ≤ ((n - 1 : Int) : ℚ) := by
      exact_mod_cast (by omega : ⌊x⌋ ≤ n - 1)
    constructor
    · linarith
    · have : ((n - 1 : Int) : ℚ) < 2 ^ 31 := by push_cast; linarith
      linarith

/-- On a sample point with finite coordinates, and an atlas of `w` by `h`
pixels with `1 ≤ w, h < 2 ^ 31`, the destination pixel in `double` arithmetic
is the destination pixel in exact arithmetic. -/
theorem destPixelDouble_finite (w h : Int) (hw1 : 1 ≤ w) (hw2 : w < 2 ^ 31) (hh1 : 1 ≤ h)
    (hh2 : h < 2 ^ 31) (x y : ℚ) :
    destPixelDouble (Double.ofInt w) (Double.ofInt h) (.finite x, .finite y)
      = destPixel w h ⟨x, y⟩ := by
  have hv := toInt_clamp_floor y h
  have hh1q : (1 : ℚ) ≤ (h : ℚ) := by exact_mod_cast hh1
  have hh2q : (h : ℚ) < 2 ^ 31 := by exact_mod_cast hh2
  unfold destPixelDouble destPixel
  dsimp only
  rw [double_toInt_clamp_floor x w hw1 hw2, double_toInt_clamp_floor y h hh1 hh2]
  generalize hz : TextureUnpacker.toInt (TextureUnpacker.clamp ((⌊y⌋ : Int) : ℚ) 0 ((h : ℚ) - 1)) = z
    at hv ⊢
  have hz0 : 0 ≤ z ∧ z ≤ h - 1 := by
    rw [hv]
    split_ifs <;> omega
  have hzq0 : (0 : ℚ) ≤ (z : ℚ) := by exact_mod_cast hz0.1
  have hzq1 : (z : ℚ) ≤ (h : ℚ) - 1 := by
    have : (z : ℚ) ≤ ((h - 1 : Int) : ℚ) := by exact_mod_cast hz0.2
    push_cast at this
    exact this
  have hbig : (2 : ℚ) ^ 31 < 2 ^ 1023 := by norm_num
  have hsub1 : (Double.ofInt h).sub (Double.ofInt z) = .finite ((h : ℚ) - (z : ℚ)) := by
    simp only [Double.sub, Double.ofInt, Double.neg, Double.add]
    rw [double_ofRat_of_small]
    · rw [← sub_eq_add_neg]
    · rw [abs_lt]
      constructor <;> linarith
  have hsub2 : (Double.finite ((h : ℚ) - (z : ℚ))).sub (.finite 1)
      = .finite ((h : ℚ) - (z : ℚ) - 1) := by
    simp only [Double.sub, Double.neg, Double.add]
    rw [double_ofRat_of_small]
    · rw [← sub_eq_add_neg]
    · rw [abs_lt]
      constructor <;> linarith
  rw [hsub1, hsub2]
  simp only [Double.toInt]
  rw [if_pos]
  constructor <;> linarith

/-- C18: when a face with the vertices `a`, `b`, `c` is processed with the
matrix `solutionMatrix`, from any state of the compositing (whatever earlier
faces wrote into the UV array of the mesh), the destination triangle has at
each vertex the point `(x * w, y * h)`, where `(x, y)` are the first two
components of the product of the matrix with `(u, v, 0, 1)`, for the UV
`(u, v)` that the mesh had when the vertex table was built; and afterwards the
UV entry of the mesh for that vertex is `(x, y)`. -/
theorem transform_applied_to_snapshot (mesh0 : TriangleMesh) (m_VertArray : List UvVertT)
    (hbuild : buildVertArray mesh0 = .ok m_VertArray)
    (color_array : List Image) (m_FaceArray : List UvFaceT) (w h w2 h2 : ℚ)
    (solutionMatrix : Matrix4d) (faceId : Int) (face : UvFaceT) (a b c : Int)
    (st st1 : State)
    (hface : index m_FaceArray faceId = .ok face) (hverts : face.m_Verts = [a, b, c])
    (hrun : faceStep color_array m_VertArray m_FaceArray w h w2 h2 solutionMatrix faceId st
      = .ok st1) :
    ∃ uva uvb uvc : Vector2d,
      index mesh0.triangle_uvs_ a = .ok uva ∧ index mesh0.triangle_uvs_ b = .ok uvb ∧
      index mesh0.triangle_uvs_ c = .ok uvc ∧
      st1.baryc =
        ⟨⟨(solutionMatrix 0 0 * uva.x + solutionMatrix 0 1 * uva.y + solutionMatrix 0 2 * 0
              + solutionMatrix 0 3 * 1) * w,
            (solutionMatrix 1 0 * uva.x + solutionMatrix 1 1 * uva.y + solutionMatrix 1 2 * 0
              + solutionMatrix 1 3 * 1) * h⟩,
          ⟨(solutionMatrix 0 0 * uvb.x + solutionMatrix 0 1 * uvb.y + solutionMatrix 0 2 * 0
              + solutionMatrix 0 3 * 1) * w,
            (solutionMatrix 1 0 * uvb.x + solutionMatrix 1 1 * uvb.y + solutionMatrix 1 2 * 0
              + solutionMatrix 1 3 * 1) * h⟩,
          ⟨(solutionMatrix 0 0 * uvc.x + solutionMatrix 0 1 * uvc.y + solutionMatrix 0 2 * 0
              + solutionMatrix 0 3 * 1) * w,
            (solutionMatrix 1 0 * uvc.x + solutionMatrix 1 1 * uvc.y + solutionMatrix 1 2 * 0
              + solutionMatrix 1 3 * 1) * h⟩⟩ ∧
      index st1.mesh.triangle_uvs_ a
        = .ok ⟨solutionMatrix 0 0 * uva.x + solutionMatrix 0 1 * uva.y + solutionMatrix 0 2 * 0
              + solutionMatrix 0 3 * 1,
            solutionMatrix 1 0 * uva.x + solutionMatrix 1 1 * uva.y + solutionMatrix 1 2 * 0
              + solutionMatrix 1 3 * 1⟩ ∧
      index st1.mesh.triangle_uvs_ b
        = .ok ⟨solutionMatrix 0 0 * uvb.x + solutionMatrix 0 1 * uvb.y + solutionMatrix 0 2 * 0
              + solutionMatrix 0 3 * 1,
            solutionMatrix 1 0 * uvb.x + solutionMatrix 1 1 * uvb.y + solutionMatrix 1 2 * 0
              + solutionMatrix 1 3 * 1⟩ ∧
      index st1.mesh.triangle_uvs_ c
        = .ok ⟨solutionMatrix 0 0 * uvc.x + solutionMatrix 0 1 * uvc.y + solutionMatrix 0 2 * 0
              + solutionMatrix 0 3 * 1,
            solutionMatrix 1 0 * uvc.x + solutionMatrix 1 1 * uvc.y + solutionMatrix 1 2 * 0
              + solutionMatrix 1 3 * 1⟩ := by
  simp only [faceStep, bind_eq_ok] at hrun
  obtain ⟨face1, hface1, source_image, _, st2, hv, hsw⟩ := hrun
  rw [hface] at hface1
  cases hface1
  rw [hverts] at hv
  obtain ⟨va, vb, vc, hva, hvb, hvc, hbar, _, _, _, _⟩ := vertexLoop_three _ _ _ _ _ _ _ _ _ _ _ hv
  obtain ⟨huv, _⟩ := vertexLoop_uvs _ _ _ _ _ _ _ _ _ _ hv
  obtain ⟨hsb, _, hsm, _, _⟩ := sweep_frame _ _ _ _ _ _ _ _ _ _ hsw
  have entry : ∀ v vert, v ∈ [a, b, c] → index m_VertArray v = .ok vert →
      index st1.mesh.triangle_uvs_ v = .ok (transformUV solutionMatrix vert.m_UvCoords) := by
    intro v vert hmem hvert
    obtain ⟨vert1, h1, h2⟩ := huv v hmem
    rw [hvert] at h1
    cases h1
    rw [hsm]
    exact h2
  have hea := entry a va (by simp) hva
  have heb := entry b vb (by simp) hvb
  have hec := entry c vc (by simp) hvc
  rw [← hsb] at hbar
  simp only [transformUV] at hbar hea heb hec
  exact ⟨va.m_UvCoords, vb.m_UvCoords, vc.m_UvCoords,
    (buildVertArray_index mesh0 m_VertArray hbuild a va hva).1,
    (buildVertArray_index mesh0 m_VertArray hbuild b vb hvb).1,
    (buildVertArray_index mesh0 m_VertArray hbuild c vc hvc).1, hbar, hea, heb, hec⟩

/-- Witness of C18: face 0 of `triangleMesh`, with the UVs (0, 0), (1, 0),
(0, 1), processed with `affineMatrix` on the 4×4 atlas from a state in which
earlier faces left (9, 9) in every UV entry of the mesh.  The corners are
(1/2, 1/4), (5/2, 19/12), (3/2, 9/4) and the UV entries are (1/8, 1/16),
(5/8, 19/48), (3/8, 9/16). -/
theorem transform_applied_to_snapshot_witness :
    (∃ uva uvb uvc : Vector2d,
      index triangleMesh.triangle_uvs_ 0 = .ok uva ∧ index triangleMesh.triangle_uvs_ 1 = .ok uvb ∧
      index triangleMesh.triangle_uvs_ 2 = .ok uvc ∧
      (stateOr staleFaceResult staleState).baryc =
        ⟨⟨(affineMatrix 0 0 * uva.x + affineMatrix 0 1 * uva.y + affineMatrix 0 2 * 0
              + affineMatrix 0 3 * 1) * 4,
            (affineMatrix 1 0 * uva.x + affineMatrix 1 1 * uva.y + affineMatrix 1 2 * 0
              + affineMatrix 1 3 * 1) * 4⟩,
          ⟨(affineMatrix 0 0 * uvb.x + affineMatrix 0 1 * uvb.y + affineMatrix 0 2 * 0
              + affineMatrix 0 3 * 1) * 4,
            (affineMatrix 1 0 * uvb.x + affineMatrix 1 1 * uvb.y + affineMatrix 1 2 * 0
              + affineMatrix 1 3 * 1) * 4⟩,
          ⟨(affineMatrix 0 0 * uvc.x + affineMatrix 0 1 * uvc.y + affineMatrix 0 2 * 0
              + affineMatrix 0 3 * 1) * 4,
            (affineMatrix 1 0 * uvc.x + affineMatrix 1 1 * uvc.y + affineMatrix 1 2 * 0
              + affineMatrix 1 3 * 1) * 4⟩⟩ ∧
      index (stateOr staleFaceResult staleState).mesh.triangle_uvs_ 0
        = .ok ⟨affineMatrix 0 0 * uva.x + affineMatrix 0 1 * uva.y + affineMatrix 0 2 * 0
              + affineMatrix 0 3 * 1,
            affineMatrix 1 0 * uva.x + affineMatrix 1 1 * uva.y + affineMatrix 1 2 * 0
              + affineMatrix 1 3 * 1⟩ ∧
      index (stateOr staleFaceResult staleState).mesh.triangle_uvs_ 1
        = .ok ⟨affineMatrix 0 0 * uvb.x + affineMatrix 0 1 * uvb.y + affineMatrix 0 2 * 0
              + affineMatrix 0 3 * 1,
            affineMatrix 1 0 * uvb.x + affineMatrix 1 1 * uvb.y + affineMatrix 1 2 * 0
              + affineMatrix 1 3 * 1⟩ ∧
      index (stateOr staleFaceResult staleState).mesh.triangle_uvs_ 2
        = .ok ⟨affineMatrix 0 0 * uvc.x + affineMatrix 0 1 * uvc.y + affineMatrix 0 2 * 0
              + affineMatrix 0 3 * 1,
            affineMatrix 1 0 * uvc.x + affineMatrix 1 1 * uvc.y + affineMatrix 1 2 * 0
              + affineMatrix 1 3 * 1⟩) ∧
    staleState.mesh.triangle_uvs_ = [⟨9, 9⟩, ⟨9, 9⟩, ⟨9, 9⟩] ∧
    (stateOr staleFaceResult staleState).baryc
      = ⟨⟨1 / 2, 1 / 4⟩, ⟨5 / 2, 19 / 12⟩, ⟨3 / 2, 9 / 4⟩⟩ ∧
    (stateOr staleFaceResult staleState).mesh.triangle_uvs_
      = [⟨1 / 8, 1 / 16⟩, ⟨5 / 8, 19 / 48⟩, ⟨3 / 8, 9 / 16⟩] :=
  ⟨transform_applied_to_snapshot triangleMesh
      [⟨⟨0, 0⟩, 0⟩, ⟨⟨1, 0⟩, 1⟩, ⟨⟨0, 1⟩, 2⟩] (buildVertArray_ok triangleMesh (by decide))
      [source4] (buildFaceArray triangleMesh) 4 4 4 4 affineMatrix 0 ⟨0, [0, 1, 2]⟩ 0 1 2
      staleState (stateOr staleFaceResult staleState) rfl rfl
      (stateOr_of_succeeds staleFaceResult staleState (by decide!)),
    by decide!, by decide!, by decide!⟩

/-- C17, at the failing input: image 0 is 2×2 and the face selects the 4×4
image 1; the source triangle of the face is (0, 0), (2, 0), (0, 2), the UVs
(0, 0), (1, 0), (0, 1) scaled by the size of image 0, and not (0, 0), (4, 0),
(0, 4), their scaling by the size of the face's own image. -/
theorem source_triangle_scaled_by_first_image :
    secondImageMesh.triangle_material_ids_ = [1] ∧
    vectorAt [source2, source4] 1 = .ok source4 ∧
    source4.width_ = 4 ∧ source4.height_ = 4 ∧
    secondImageMesh.triangle_uvs_ = [⟨0, 0⟩, ⟨1, 0⟩, ⟨0, 1⟩] ∧
    sourceCorners swappedImagesState = some ⟨⟨0, 0⟩, ⟨2, 0⟩, ⟨0, 2⟩⟩ := by
  refine ⟨rfl, rfl, rfl, rfl, rfl, ?_⟩
  decide!

/-- Counterexample to C11: the island manifest has the two islands [0] and [1],
the pack-solution manifest has a solution for island 0 only, and the function
returns true after 21 samples, with a changed atlas. -/
theorem partial_solution_accepted :
    partialRun.returned = some true ∧
    partialRun.samples.length = 21 ∧
    (partialRun.output ⟨false, atlas4, twoFaceMesh, []⟩).outputImage ≠ atlas4 := by
  decide!

/-- C11, as the code behaves: the pack-solution manifest is not compared with
the island manifest.  When the `PACK` request returned `SUCCESS` with both
messages, the run ends as the compositing of the solutions of the manifest
ends and, when it returns, returns true; and the islands that no solution
names have no influence on the compositing. -/
theorem partial_solutions_composited (engine : Engine)
    (islandSolutionToMatrix : UvpIslandPackSolutionT → Matrix4d)
    (color_array : List Image) (mesh : TriangleMesh) (outputImage : Image)
    (m_VertArray : List UvVertT) (v : UvpVersionMessageT)
    (pIslandsMsg : UvpIslandsMessageT) (pPackSolutionMsg : UvpPackSolutionMessageT)
    (hcode : (engine reportVersionInput Messages.empty).1 = .SUCCESS)
    (hmsg : (engine reportVersionInput Messages.empty).2.VERSION = some v)
    (hbuild : buildVertArray mesh = .ok m_VertArray)
    (hpack : (engine (packInput m_VertArray (buildFaceArray mesh))
      (engine reportVersionInput Messages.empty).2).1 = .SUCCESS)
    (hislands : (engine (packInput m_VertArray (buildFaceArray mesh))
      (engine reportVersionInput Messages.empty).2).2.ISLANDS = some pIslandsMsg)
    (hsolution : (engine (packInput m_VertArray (buildFaceArray mesh))
      (engine reportVersionInput Messages.empty).2).2.PACK_SOLUTION = some pPackSolutionMsg) :
    ((PerformTextureUnpack engine islandSolutionToMatrix color_array mesh outputImage).result
      = match composite islandSolutionToMatrix color_array mesh outputImage m_VertArray
          (buildFaceArray mesh) pIslandsMsg pPackSolutionMsg with
        | .ok st => .ok ⟨true, st.outputImage, st.mesh, st.samples⟩
        | .error e => .error e) ∧
    (∀ o, (PerformTextureUnpack engine islandSolutionToMatrix color_array mesh
      outputImage).result = .ok o → o.ret = true) ∧
    (∀ otherIslands : UvpIslandsMessageT,
      (∀ sol ∈ pPackSolutionMsg.m_IslandSolutions,
        index otherIslands.m_Islands sol.m_IslandIdx
          = index pIslandsMsg.m_Islands sol.m_IslandIdx) →
      composite islandSolutionToMatrix color_array mesh outputImage m_VertArray
          (buildFaceArray mesh) otherIslands pPackSolutionMsg
        = composite islandSolutionToMatrix color_array mesh outputImage m_VertArray
          (buildFaceArray mesh) pIslandsMsg pPackSolutionMsg) := by
  have hres : (PerformTextureUnpack engine islandSolutionToMatrix color_array mesh
      outputImage).result
      = match composite islandSolutionToMatrix color_array mesh outputImage m_VertArray
          (buildFaceArray mesh) pIslandsMsg pPackSolutionMsg with
        | .ok st => .ok ⟨true, st.outputImage, st.mesh, st.samples⟩
        | .error e => .error e := by
    unfold PerformTextureUnpack
    dsimp only
    rw [if_neg (not_not.2 hcode), hmsg]
    dsimp only
    rw [hbuild]
    dsimp only
    rw [if_neg (not_not.2 hpack), hislands, hsolution]
    dsimp only
    cases composite islandSolutionToMatrix color_array mesh outputImage m_VertArray
      (buildFaceArray mesh) pIslandsMsg pPackSolutionMsg <;> rfl
  refine ⟨hres, ?_, ?_⟩
  · intro o ho
    rw [hres] at ho
    cases hc : composite islandSolutionToMatrix color_array mesh outputImage m_VertArray
        (buildFaceArray mesh) pIslandsMsg pPackSolutionMsg with
    | error e =>
      rw [hc] at ho
      exact absurd ho (by simp)
    | ok st =>
      rw [hc] at ho
      have := Except.ok.inj ho
      rw [← this]
  · intro otherIslands hsame
    unfold composite
    cases vectorAt color_array 0 with
    | error e => rfl
    | ok first =>
      simp only [bind, Except.bind]
      apply forEach_congr
      intro sol hsol s
      simp only [islandStep, hsame sol hsol]

/-- Witness of C11 as amended: the run with a solution for island 0 only
returns true, and replacing the unsolved island [1] by [7, 8, 9] changes
nothing. -/
theorem partial_solutions_composited_witness :
    (∀ o, partialRun.result = .ok o → o.ret = true) ∧
    composite (fun _ => Matrix4d.identity) [source4] twoFaceMesh atlas4
        [⟨⟨0, 0⟩, 0⟩, ⟨⟨1, 0⟩, 1⟩, ⟨⟨0, 1⟩, 2⟩, ⟨⟨1, 1⟩, 3⟩] (buildFaceArray twoFaceMesh)
        ⟨[[0], [7, 8, 9]]⟩ ⟨[islandZero]⟩
      = composite (fun _ => Matrix4d.identity) [source4] twoFaceMesh atlas4
        [⟨⟨0, 0⟩, 0⟩, ⟨⟨1, 0⟩, 1⟩, ⟨⟨0, 1⟩, 2⟩, ⟨⟨1, 1⟩, 3⟩] (buildFaceArray twoFaceMesh)
        ⟨[[0], [1]]⟩ ⟨[islandZero]⟩ :=
  have h := partial_solutions_composited (engineOk [[0], [1]] [islandZero])
    (fun _ => Matrix4d.identity) [source4] twoFaceMesh atlas4
    [⟨⟨0, 0⟩, 0⟩, ⟨⟨1, 0⟩, 1⟩, ⟨⟨0, 1⟩, 2⟩, ⟨⟨1, 1⟩, 3⟩] ⟨3, 0, 0⟩ ⟨[[0], [1]]⟩ ⟨[islandZero]⟩
    rfl rfl (buildVertArray_ok twoFaceMesh (by decide)) rfl rfl rfl
  ⟨h.2.1, h.2.2 ⟨[[0], [7, 8, 9]]⟩
    (fun sol hsol => by rw [List.mem_singleton.1 hsol]; rfl)⟩

/-- C15, at the failing input: with a 4×4 image 0 and a 2×2 image 1 that the
face selects, and a zeroed 4×4 atlas, the source pixel is clamped with the size
of image 0 and the reads of lines 280-282 leave the 12 bytes of image 1.  Two
runs with these same arguments, one with the memory around the source images
holding 0 and one with it holding 255, both return `true` and leave different
atlases: the bytes of atlas rows 2 and 3 are copies of that memory. -/
theorem unchecked_read_breaks_determinism :
    atlas4.zeroed ∧
    secondImageRun.fault = some .outOfBounds ∧
    (secondImageRawRun 0).returned = some true ∧
    (secondImageRawRun 255).returned = some true ∧
    (secondImageRawRun 0).samples = (secondImageRawRun 255).samples ∧
    (secondImageRawAtlas 0).data_
      = [100, 101, 102, 0, 0, 0, 0, 0, 0, 0, 0, 0,
         106, 107, 108, 109, 110, 111, 0, 0, 0, 0, 0, 0,
         0, 0, 0, 0, 0, 0, 0, 0, 0, 0, 0, 0,
         0, 0, 0, 0, 0, 0, 0, 0, 0, 0, 0, 0] ∧
    (secondImageRawAtlas 255).data_
      = [100, 101, 102, 0, 0, 0, 0, 0, 0, 0, 0, 0,
         106, 107, 108, 109, 110, 111, 0, 0, 0, 0, 0, 0,
         255, 255, 255, 255, 255, 255, 255, 255, 255, 0, 0, 0,
         255, 255, 255, 255, 255, 255, 255, 255, 255, 255, 255, 255] ∧
    secondImageRawAtlas 0 ≠ secondImageRawAtlas 255 := by
  decide!

/-- C19: island order is irrelevant for the atlas.  Take two runs on the same
mesh, images and three-channel atlas whose engines answer the two requests
with `SUCCESS`, the same island manifest and pack-solution lists that are
permutations of each other.  When the sets of atlas pixels that the islands of
different solutions write are pairwise disjoint and the first run returns, the
second run returns as well, with the same flag and the same atlas. -/
theorem island_order_irrelevant (engine1 engine2 : Engine)
    (islandSolutionToMatrix : UvpIslandPackSolutionT → Matrix4d)
    (color_array : List Image) (mesh : TriangleMesh) (outputImage : Image)
    (m_VertArray : List UvVertT) (v1 v2 : UvpVersionMessageT)
    (pIslandsMsg : UvpIslandsMessageT) (solutions1 solutions2 : List UvpIslandPackSolutionT)
    (o1 : Output)
    (hn : outputImage.num_of_channels_ = 3)
    (hw : 1 ≤ outputImage.width_) (hh : 1 ≤ outputImage.height_)
    (hbuild : buildVertArray mesh = .ok m_VertArray)
    (hcode1 : (engine1 reportVersionInput Messages.empty).1 = .SUCCESS)
    (hmsg1 : (engine1 reportVersionInput Messages.empty).2.VERSION = some v1)
    (hpack1 : (engine1 (packInput m_VertArray (buildFaceArray mesh))
      (engine1 reportVersionInput Messages.empty).2).1 = .SUCCESS)
    (hislands1 : (engine1 (packInput m_VertArray (buildFaceArray mesh))
      (engine1 reportVersionInput Messages.empty).2).2.ISLANDS = some pIslandsMsg)
    (hsolution1 : (engine1 (packInput m_VertArray (buildFaceArray mesh))
      (engine1 reportVersionInput Messages.empty).2).2.PACK_SOLUTION = some ⟨solutions1⟩)
    (hcode2 : (engine2 reportVersionInput Messages.empty).1 = .SUCCESS)
    (hmsg2 : (engine2 reportVersionInput Messages.empty).2.VERSION = some v2)
    (hpack2 : (engine2 (packInput m_VertArray (buildFaceArray mesh))
      (engine2 reportVersionInput Messages.empty).2).1 = .SUCCESS)
    (hislands2 : (engine2 (packInput m_VertArray (buildFaceArray mesh))
      (engine2 reportVersionInput Messages.empty).2).2.ISLANDS = some pIslandsMsg)
    (hsolution2 : (engine2 (packInput m_VertArray (buildFaceArray mesh))
      (engine2 reportVersionInput Messages.empty).2).2.PACK_SOLUTION = some ⟨solutions2⟩)
    (hperm : solutions2.Perm solutions1)
    (hdisj : solutions1.Pairwise (fun a b => DisjointPixels
      (islandSamples islandSolutionToMatrix color_array mesh outputImage m_VertArray
        (buildFaceArray mesh) pIslandsMsg.m_Islands a)
      (islandSamples islandSolutionToMatrix color_array mesh outputImage m_VertArray
        (buildFaceArray mesh) pIslandsMsg.m_Islands b)))
    (hrun1 : (PerformTextureUnpack engine1 islandSolutionToMatrix color_array mesh
      outputImage).result = .ok o1) :
    ∃ o2, (PerformTextureUnpack engine2 islandSolutionToMatrix color_array mesh
        outputImage).result = .ok o2 ∧
      o2.ret = o1.ret ∧ o2.outputImage = o1.outputImage := by
  rw [run_result_of_pack engine1 islandSolutionToMatrix color_array mesh outputImage
    m_VertArray v1 pIslandsMsg ⟨solutions1⟩ hcode1 hmsg1 hbuild hpack1 hislands1 hsolution1]
    at hrun1
  rw [run_result_of_pack engine2 islandSolutionToMatrix color_array mesh outputImage
    m_VertArray v2 pIslandsMsg ⟨solutions2⟩ hcode2 hmsg2 hbuild hpack2 hislands2 hsolution2]
  cases hc : composite islandSolutionToMatrix color_array mesh outputImage m_VertArray
      (buildFaceArray mesh) pIslandsMsg ⟨solutions1⟩ with
  | error e =>
    rw [hc] at hrun1
    exact absurd hrun1 (by simp)
  | ok st =>
    rw [hc] at hrun1
    have ho := Except.ok.inj hrun1
    obtain ⟨st1, hc1, himg⟩ := composite_perm islandSolutionToMatrix color_array mesh
      outputImage m_VertArray (buildFaceArray mesh) pIslandsMsg solutions1 solutions2 st
      (buildFaceArray_three mesh) hn hw hh hperm hdisj hc
    rw [hc1]
    refine ⟨⟨true, st1.outputImage, st1.mesh, st1.samples⟩, rfl, ?_, ?_⟩
    · rw [← ho]
    · rw [← ho]
      exact himg

/-- Witness of C19: the two triangles of `splitMesh` are written to opposite
corners of the 4×4 atlas, and the run that composites island 1 before island 0
returns with the flag and the atlas of the run that composites island 0
first. -/
theorem island_order_irrelevant_witness :
    ∃ o2, splitRunSwapped.result = .ok o2 ∧
      o2.ret = (splitRun.output ⟨false, atlas4, splitMesh, []⟩).ret ∧
      o2.outputImage = (splitRun.output ⟨false, atlas4, splitMesh, []⟩).outputImage :=
  island_order_irrelevant (engineOk [[0], [1]] [islandZero, islandOne])
    (engineOk [[0], [1]] [islandOne, islandZero]) (fun _ => Matrix4d.identity) [source4]
    splitMesh atlas4 splitVertArray ⟨3, 0, 0⟩ ⟨3, 0, 0⟩ ⟨[[0], [1]]⟩
    [islandZero, islandOne] [islandOne, islandZero]
    (splitRun.output ⟨false, atlas4, splitMesh, []⟩)
    rfl (by decide) (by decide) (buildVertArray_ok splitMesh (by decide))
    rfl rfl rfl rfl rfl rfl rfl rfl rfl rfl
    (List.Perm.swap _ _ _) (by decide!)
    (Run.result_eq_output splitRun _ (by decide!))

/-- C23: `PerformTextureUnpack` indexes the UV array of the mesh by vertex
index.  A vertex table that was built holds, for every `i` below the vertex
count, UV entry `i`, and it is built when the UV array has an entry for every
vertex.  When in addition all triangle indices are vertex indices, the vertex
loop of every face, started in any state of the shape of the initial state,
returns: it finds every vertex `v` of the face in the vertex table and writes
entry `v` of the UV array and of `uv_solution`; processing a face or an island
keeps that shape.  With fewer UV entries than vertices the build step reads
the UV array at its length, out of range, and the run ends with that fault. -/
theorem uv_array_indexed_by_vertex (mesh : TriangleMesh) (outputImage : Image) :
    (∀ m_VertArray, buildVertArray mesh = .ok m_VertArray →
      m_VertArray.length = mesh.vertices_.length ∧
      ∀ i : Nat, i < mesh.vertices_.length →
        ∃ vert, index m_VertArray i = .ok vert ∧
          index mesh.triangle_uvs_ i = .ok vert.m_UvCoords) ∧
    (mesh.vertices_.length ≤ mesh.triangle_uvs_.length →
      ∃ m_VertArray, buildVertArray mesh = .ok m_VertArray) ∧
    (∀ m_VertArray, buildVertArray mesh = .ok m_VertArray →
      (∀ t ∈ mesh.triangles_, (0 ≤ t.x ∧ t.x < mesh.vertices_.length) ∧
        (0 ≤ t.y ∧ t.y < mesh.vertices_.length) ∧ (0 ≤ t.z ∧ t.z < mesh.vertices_.length)) →
      ∀ (w h w2 h2 : ℚ) (solutionMatrix : Matrix4d) (st : State),
        SameShape (initialState mesh outputImage) st →
        ∀ face ∈ buildFaceArray mesh,
          ∃ st1, vertexLoop m_VertArray w h w2 h2 solutionMatrix face.m_Verts 0 st = .ok st1 ∧
            SameShape st st1 ∧
            ∀ v ∈ face.m_Verts,
              (0 ≤ v ∧ v < st.mesh.triangle_uvs_.length ∧ v < st.uv_solution.length) ∧
              ∃ vert, index m_VertArray v = .ok vert ∧
                index st1.mesh.triangle_uvs_ v
                  = .ok (transformUV solutionMatrix vert.m_UvCoords) ∧
                index st1.uv_solution v = .ok (st.island_matrices.length : Int)) ∧
    (∀ (color_array : List Image) (m_VertArray : List UvVertT) (m_FaceArray : List UvFaceT)
        (w h w2 h2 : ℚ) (solutionMatrix : Matrix4d) (faceId : Int) (st st1 : State),
      faceStep color_array m_VertArray m_FaceArray w h w2 h2 solutionMatrix faceId st = .ok st1 →
      SameShape st st1) ∧
    (∀ (islandSolutionToMatrix : UvpIslandPackSolutionT → Matrix4d) (color_array : List Image)
        (m_VertArray : List UvVertT) (m_FaceArray : List UvFaceT) (islands : List (List Int))
        (w h w2 h2 : ℚ) (islandSolution : UvpIslandPackSolutionT) (st st1 : State),
      islandStep islandSolutionToMatrix color_array m_VertArray m_FaceArray islands
        w h w2 h2 islandSolution st = .ok st1 →
      SameShape st st1) ∧
    (mesh.triangle_uvs_.length < mesh.vertices_.length →
      index mesh.triangle_uvs_ (mesh.triangle_uvs_.length : Int) = .error .outOfBounds ∧
      buildVertArray mesh = .error .outOfBounds ∧
      ∀ (engine : Engine) (islandSolutionToMatrix : UvpIslandPackSolutionT → Matrix4d)
          (color_array : List Image) (v : UvpVersionMessageT),
        (engine reportVersionInput Messages.empty).1 = .SUCCESS →
        (engine reportVersionInput Messages.empty).2.VERSION = some v →
        (PerformTextureUnpack engine islandSolutionToMatrix color_array mesh
          outputImage).result = .error .outOfBounds) := by
  refine ⟨?_, ?_, ?_, ?_, ?_, ?_⟩
  · intro m_VertArray hbuild
    have hlen : m_VertArray.length = mesh.vertices_.length := by
      rw [(buildVertArray_length mesh m_VertArray hbuild).2]
      simp
    refine ⟨hlen, ?_⟩
    intro i hi
    obtain ⟨vert, hvert⟩ := index_ok_of_lt m_VertArray (i : Int) (Int.ofNat_nonneg i)
      (by rw [hlen]; exact_mod_cast hi)
    exact ⟨vert, hvert, (buildVertArray_index mesh m_VertArray hbuild _ vert hvert).1⟩
  · intro huv
    exact ⟨_, buildVertArray_ok mesh huv⟩
  · intro m_VertArray hbuild htri w h w2 h2 solutionMatrix st hS face hface
    obtain ⟨huv, htable⟩ := buildVertArray_length mesh m_VertArray hbuild
    have hlen : m_VertArray.length = mesh.vertices_.length := by
      rw [htable]
      simp
    obtain ⟨_, _, _, hS4, _, hS6⟩ := hS
    have h4 : st.mesh.triangle_uvs_.length = mesh.triangle_uvs_.length := hS4.symm
    have h6 : st.uv_solution.length = mesh.triangle_uvs_.length := by
      rw [← hS6]
      simp [initialState]
    obtain ⟨t, ht, hverts⟩ := buildFaceArray_verts mesh face hface
    obtain ⟨hx, hy, hz⟩ := htri t ht
    have hin : ∀ v ∈ face.m_Verts, 0 ≤ v ∧ v < m_VertArray.length := by
      intro v hv
      rw [hverts] at hv
      simp only [List.mem_cons, List.mem_singleton, List.not_mem_nil, or_false] at hv
      rw [hlen]
      rcases hv with rfl | rfl | rfl
      · exact hx
      · exact hy
      · exact hz
    obtain ⟨st1, hrun⟩ := vertexLoop_of_lt m_VertArray w h w2 h2 solutionMatrix face.m_Verts 0
      st hin (by omega) (by omega) (by rw [hverts]; simp)
    obtain ⟨hwritten, _⟩ := vertexLoop_uvs _ _ _ _ _ _ _ _ _ _ hrun
    obtain ⟨_, hsolution, _⟩ := vertexLoop_solution _ _ _ _ _ _ _ _ _ _ hrun
    refine ⟨st1, hrun, vertexLoop_shape _ _ _ _ _ _ _ _ _ _ hrun, ?_⟩
    intro v hv
    obtain ⟨hv0, hvlt⟩ := hin v hv
    obtain ⟨vert, hvert, hvuv⟩ := hwritten v hv
    exact ⟨⟨hv0, by omega, by omega⟩, vert, hvert, hvuv, hsolution v hv⟩
  · intro color_array m_VertArray m_FaceArray w h w2 h2 solutionMatrix faceId st st1 hrun
    exact faceStep_shape _ _ _ _ _ _ _ _ _ _ _ hrun
  · intro islandSolutionToMatrix color_array m_VertArray m_FaceArray islands w h w2 h2
      islandSolution st st1 hrun
    exact islandStep_shape _ _ _ _ _ _ _ _ _ _ _ _ hrun
  · intro hshort
    have hfault := buildVertArray_fault mesh hshort
    refine ⟨?_, hfault, ?_⟩
    · rw [index_natCast, List.getElem?_eq_none (Nat.le_refl _)]
    · intro engine islandSolutionToMatrix color_array v hcode hmsg
      exact run_result_of_build_fault engine islandSolutionToMatrix color_array mesh
        outputImage v _ hcode hmsg hfault

/-- Witness of C23: in the initial state of `triangleMesh` the vertex loop of
its face returns, and on a mesh with 3 vertices and 2 UV entries the build
step reads UV entry 2, out of range. -/
theorem uv_array_indexed_by_vertex_witness :
    (∃ st1, vertexLoop [⟨⟨0, 0⟩, 0⟩, ⟨⟨1, 0⟩, 1⟩, ⟨⟨0, 1⟩, 2⟩] 4 4 4 4 Matrix4d.identity
        [0, 1, 2] 0 (initialState triangleMesh atlas4) = .ok st1 ∧
      SameShape (initialState triangleMesh atlas4) st1 ∧
      ∀ v ∈ [(0 : Int), 1, 2],
        (0 ≤ v ∧ v < (3 : Nat) ∧ v < (3 : Nat)) ∧
        ∃ vert, index [(⟨⟨0, 0⟩, 0⟩ : UvVertT), ⟨⟨1, 0⟩, 1⟩, ⟨⟨0, 1⟩, 2⟩] v = .ok vert ∧
          index st1.mesh.triangle_uvs_ v = .ok (transformUV Matrix4d.identity vert.m_UvCoords) ∧
          index st1.uv_solution v = .ok ((0 : Nat) : Int)) ∧
    (index shortUvMesh.triangle_uvs_ ((2 : Nat) : Int) = .error .outOfBounds ∧
      buildVertArray shortUvMesh = .error .outOfBounds) :=
  ⟨(uv_array_indexed_by_vertex triangleMesh atlas4).2.2.1
      [⟨⟨0, 0⟩, 0⟩, ⟨⟨1, 0⟩, 1⟩, ⟨⟨0, 1⟩, 2⟩] (buildVertArray_ok triangleMesh (by decide))
      (by decide) 4 4 4 4 Matrix4d.identity (initialState triangleMesh atlas4)
      (sameShape_refl _) ⟨0, [0, 1, 2]⟩ (by decide),
    ((uv_array_indexed_by_vertex shortUvMesh atlas4).2.2.2.2.2 (by decide)).1,
    ((uv_array_indexed_by_vertex shortUvMesh atlas4).2.2.2.2.2 (by decide)).2.1⟩

end TextureUnpacker

namespace MKV_Rendering

open TextureUnpacker

/-! ## Flattening loops -/

/-- A loop that writes three entries per index fills the entries `3i`, `3i+1`,
`3i+2` of every index below its bound and keeps the length. -/
theorem fill3_spec {α : Type} (a b c : Nat → α) (init : List α) (k : Nat) :
    ((List.range k).foldl
        (fun (r : List α) (i : Nat) =>
          ((r.set (i * 3) (a i)).set (i * 3 + 1) (b i)).set (i * 3 + 2) (c i)) init).length
      = init.length ∧
    ∀ i, i < k → i * 3 + 2 < init.length →
      ((List.range k).foldl
        (fun (r : List α) (i : Nat) =>
          ((r.set (i * 3) (a i)).set (i * 3 + 1) (b i)).set (i * 3 + 2) (c i)) init)[i * 3]?
        = some (a i) ∧
      ((List.range k).foldl
        (fun (r : List α) (i : Nat) =>
          ((r.set (i * 3) (a i)).set (i * 3 + 1) (b i)).set (i * 3 + 2) (c i)) init)[i * 3 + 1]?
        = some (b i) ∧
      ((List.range k).foldl
        (fun (r : List α) (i : Nat) =>
          ((r.set (i * 3) (a i)).set (i * 3 + 1) (b i)).set (i * 3 + 2) (c i)) init)[i * 3 + 2]?
        = some (c i) := by
  induction k with
  | zero => exact ⟨rfl, fun i hi => absurd hi (Nat.not_lt_zero i)⟩
  | succ k ih =>
    rw [List.range_succ, List.foldl_append]
    simp only [List.foldl_cons, List.foldl_nil]
    generalize (List.range k).foldl
        (fun (r : List α) (i : Nat) =>
          ((r.set (i * 3) (a i)).set (i * 3 + 1) (b i)).set (i * 3 + 2) (c i)) init = L at ih ⊢
    obtain ⟨hlen, hget⟩ := ih
    refine ⟨by simp [hlen], ?_⟩
    intro i hi hin
    simp only [List.getElem?_set, List.length_set, hlen]
    by_cases hik : i = k
    · subst hik
      refine ⟨?_, ?_, ?_⟩
      · rw [if_neg (by omega), if_neg (by omega), if_pos rfl, if_pos (by omega)]
      · rw [if_neg (by omega), if_pos rfl, if_pos (by omega)]
      · rw [if_pos rfl, if_pos (by omega)]
    · obtain ⟨h0, h1, h2⟩ := hget i (by omega) hin
      refine ⟨?_, ?_, ?_⟩
      · rw [if_neg (by omega), if_neg (by omega), if_neg (by omega)]
        exact h0
      · rw [if_neg (by omega), if_neg (by omega), if_neg (by omega)]
        exact h1
      · rw [if_neg (by omega), if_neg (by omega), if_neg (by omega)]
        exact h2

/-- A loop that writes two entries per index. -/
theorem fill2_spec {α : Type} (a b : Nat → α) (init : List α) (k : Nat) :
    ((List.range k).foldl
        (fun (r : List α) (i : Nat) => (r.set (i * 2) (a i)).set (i * 2 + 1) (b i))
        init).length = init.length ∧
    ∀ i, i < k → i * 2 + 1 < init.length →
      ((List.range k).foldl
        (fun (r : List α) (i : Nat) => (r.set (i * 2) (a i)).set (i * 2 + 1) (b i))
        init)[i * 2]? = some (a i) ∧
      ((List.range k).foldl
        (fun (r : List α) (i : Nat) => (r.set (i * 2) (a i)).set (i * 2 + 1) (b i))
        init)[i * 2 + 1]? = some (b i) := by
  induction k with
  | zero => exact ⟨rfl, fun i hi => absurd hi (Nat.not_lt_zero i)⟩
  | succ k ih =>
    rw [List.range_succ, List.foldl_append]
    simp only [List.foldl_cons, List.foldl_nil]
    generalize (List.range k).foldl
        (fun (r : List α) (i : Nat) => (r.set (i * 2) (a i)).set (i * 2 + 1) (b i)) init
        = L at ih ⊢
    obtain ⟨hlen, hget⟩ := ih
    refine ⟨by simp [hlen], ?_⟩
    intro i hi hin
    simp only [List.getElem?_set, List.length_set, hlen]
    by_cases hik : i = k
    · subst hik
      refine ⟨?_, ?_⟩
      · rw [if_neg (by omega), if_pos rfl, if_pos (by omega)]
      · rw [if_pos rfl, if_pos (by omega)]
    · obtain ⟨h0, h1⟩ := hget i (by omega) hin
      refine ⟨?_, ?_⟩
      · rw [if_neg (by omega), if_neg (by omega)]
        exact h0
      · rw [if_neg (by omega), if_neg (by omega)]
        exact h1

theorem double3ToAlembic_spec (source : List Vector3d) :
    (double3ToAlembic source).length = 3 * source.length ∧
    ∀ (i : Nat) (p : Vector3d), source[i]? = some p →
      (double3ToAlembic source)[3 * i]? = some p.x ∧
      (double3ToAlembic source)[3 * i + 1]? = some p.y ∧
      (double3ToAlembic source)[3 * i + 2]? = some p.z := by
  have hstep : double3ToAlembic source
      = (List.range source.length).foldl
          (fun (r : List ℚ) (i : Nat) =>
            ((r.set (i * 3) (source.getD i ⟨0, 0, 0⟩).x).set (i * 3 + 1)
              (source.getD i ⟨0, 0, 0⟩).y).set (i * 3 + 2) (source.getD i ⟨0, 0, 0⟩).z)
          (List.replicate (source.length * 3) 0) := by
    unfold double3ToAlembic
    apply List.foldl_ext
    intro r i hi
    have hlt : i < source.length := List.mem_range.1 hi
    simp [List.getElem?_eq_getElem hlt, List.getD_eq_getElem _ _ hlt]
  obtain ⟨hlen, hget⟩ := fill3_spec (fun i => (source.getD i ⟨0, 0, 0⟩).x)
    (fun i => (source.getD i ⟨0, 0, 0⟩).y) (fun i => (source.getD i ⟨0, 0, 0⟩).z)
    (List.replicate (source.length * 3) 0) source.length
  rw [hstep]
  refine ⟨by rw [hlen]; simp [Nat.mul_comm], ?_⟩
  intro i p hp
  have hlt : i < source.length := (List.getElem?_eq_some_iff.1 hp).1
  have hd : source.getD i ⟨0, 0, 0⟩ = p := by
    rw [List.getD_eq_getElem?_getD, hp]; rfl
  have h := hget i hlt (by simp; omega)
  simp only [hd] at h
  rw [Nat.mul_comm 3 i]
  exact h

theorem toAlembicUVs_spec (source : List Vector2d) :
    (toAlembicUVs source).length = 2 * source.length ∧
    ∀ (i : Nat) (p : Vector2d), source[i]? = some p →
      (toAlembicUVs source)[2 * i]? = some p.x ∧
      (toAlembicUVs source)[2 * i + 1]? = some p.y := by
  have hstep : toAlembicUVs source
      = (List.range source.length).foldl
          (fun (r : List ℚ) (i : Nat) =>
            (r.set (i * 2) (source.getD i ⟨0, 0⟩).x).set (i * 2 + 1)
              (source.getD i ⟨0, 0⟩).y)
          (List.replicate (source.length * 2) 0) := by
    unfold toAlembicUVs
    apply List.foldl_ext
    intro r i hi
    have hlt : i < source.length := List.mem_range.1 hi
    simp [List.getElem?_eq_getElem hlt, List.getD_eq_getElem _ _ hlt]
  obtain ⟨hlen, hget⟩ := fill2_spec (fun i => (source.getD i ⟨0, 0⟩).x)
    (fun i => (source.getD i ⟨0, 0⟩).y) (List.replicate (source.length * 2) 0) source.length
  rw [hstep]
  refine ⟨by rw [hlen]; simp [Nat.mul_comm], ?_⟩
  intro i p hp
  have hlt : i < source.length := (List.getElem?_eq_some_iff.1 hp).1
  have hd : source.getD i ⟨0, 0⟩ = p := by
    rw [List.getD_eq_getElem?_getD, hp]; rfl
  have h := hget i hlt (by simp; omega)
  simp only [hd] at h
  rw [Nat.mul_comm 2 i]
  exact h

theorem fillIndicies_spec (triangles_ : List Vector3i) :
    (fillIndicies triangles_ (triangles_.length * 3)).length = 3 * triangles_.length ∧
    ∀ (i : Nat) (t : Vector3i), triangles_[i]? = some t →
      (fillIndicies triangles_ (triangles_.length * 3))[3 * i]? = some t.x ∧
      (fillIndicies triangles_ (triangles_.length * 3))[3 * i + 1]? = some t.z ∧
      (fillIndicies triangles_ (triangles_.length * 3))[3 * i + 2]? = some t.y := by
  have hdiv : triangles_.length * 3 / 3 = triangles_.length := by omega
  have hstep : fillIndicies triangles_ (triangles_.length * 3)
      = (List.range triangles_.length).foldl
          (fun (r : List Int) (i : Nat) =>
            ((r.set (i * 3) (triangles_.getD i ⟨0, 0, 0⟩).x).set (i * 3 + 1)
              (triangles_.getD i ⟨0, 0, 0⟩).z).set (i * 3 + 2) (triangles_.getD i ⟨0, 0, 0⟩).y)
          (List.replicate (triangles_.length * 3) 0) := by
    unfold fillIndicies
    rw [hdiv]
    apply List.foldl_ext
    intro r i hi
    have hlt : i < triangles_.length := List.mem_range.1 hi
    simp [List.getElem?_eq_getElem hlt, List.getD_eq_getElem _ _ hlt]
  obtain ⟨hlen, hget⟩ := fill3_spec (fun i => (triangles_.getD i ⟨0, 0, 0⟩).x)
    (fun i => (triangles_.getD i ⟨0, 0, 0⟩).z) (fun i => (triangles_.getD i ⟨0, 0, 0⟩).y)
    (List.replicate (triangles_.length * 3) 0) triangles_.length
  rw [hstep]
  refine ⟨by rw [hlen]; simp [Nat.mul_comm], ?_⟩
  intro i t ht
  have hlt : i < triangles_.length := (List.getElem?_eq_some_iff.1 ht).1
  have hd : triangles_.getD i ⟨0, 0, 0⟩ = t := by
    rw [List.getD_eq_getElem?_getD, ht]; rfl
  have h := hget i hlt (by simp; omega)
  simp only [hd] at h
  rw [Nat.mul_comm 3 i]
  exact h

/-! ## The export loop -/

theorem toUInt64_of_lt (n : Nat) (h : n < 2 ^ 64) : toUInt64 (n : Int) = n := by
  unfold toUInt64
  have h2 : ((n : Int)) % 2 ^ 64 = n := Int.emod_eq_of_lt (by omega) (by exact_mod_cast h)
  rw [h2]
  simp

/-- The loop saves one frame per iteration. -/
theorem alembicLoop_frames {σ : Type} (ops : CameraManager σ) :
    ∀ (fuel : Nat) (cm cm1 : σ) (w w1 : AlembicWriter) (i i1 : Nat),
      alembicLoop ops fuel cm w i = some (cm1, w1, i1) →
      w1.frames.length + i = w.frames.length + i1 ∧
      w1.startTime = w.startTime ∧ w1.deltaTime = w.deltaTime := by
  intro fuel
  induction fuel with
  | zero =>
    intro cm cm1 w w1 i i1 h
    simp [alembicLoop] at h
  | succ n ih =>
    intro cm cm1 w w1 i i1 h
    rw [alembicLoop] at h
    dsimp only at h
    split_ifs at h with hc
    · obtain ⟨h1, h2, h3⟩ := ih _ _ _ _ _ _ h
      simp only [saveMesh, AlembicWriter.saveFrame, List.length_append, List.length_singleton]
        at h1 h2 h3
      exact ⟨by omega, h2, h3⟩
    · simp only [Option.some.injEq, Prod.mk.injEq] at h
      obtain ⟨_, hw, hi⟩ := h
      subst hw hi
      exact ⟨rfl, rfl, rfl⟩

/-- A loop that ends within `fuel` tests ends the same way with more. -/
theorem alembicLoop_fuel_mono {σ : Type} (ops : CameraManager σ) :
    ∀ (fuel : Nat) (cm : σ) (w : AlembicWriter) (i : Nat) (r : σ × AlembicWriter × Nat),
      alembicLoop ops fuel cm w i = some r → alembicLoop ops (fuel + 1) cm w i = some r := by
  intro fuel
  induction fuel with
  | zero =>
    intro cm w i r h
    simp [alembicLoop] at h
  | succ n ih =>
    intro cm w i r h
    rw [alembicLoop] at h ⊢
    dsimp only at h ⊢
    split_ifs at h ⊢ with hc
    · exact ih _ _ _ _ h
    · exact h

/-! ## The claims -/

/-- C12: `saveMesh` hands one frame to the exporter whose index array has
length `3t` for `t` triangles and holds, at the entries `3i`, `3i+1`, `3i+2`,
the `x`, `z` and `y` index of triangle `i`. -/
theorem saveMesh_swaps_winding (object_to_draw : TriangleMesh) (alembicWriter : AlembicWriter) :
    (saveMesh object_to_draw alembicWriter).frames
      = alembicWriter.frames ++ [meshDataOf object_to_draw] ∧
    (meshDataOf object_to_draw).indicies.length = 3 * object_to_draw.triangles_.length ∧
    ∀ (i : Nat) (t : Vector3i), object_to_draw.triangles_[i]? = some t →
      (meshDataOf object_to_draw).indicies[3 * i]? = some t.x ∧
      (meshDataOf object_to_draw).indicies[3 * i + 1]? = some t.z ∧
      (meshDataOf object_to_draw).indicies[3 * i + 2]? = some t.y :=
  ⟨rfl, (fillIndicies_spec object_to_draw.triangles_).1,
    (fillIndicies_spec object_to_draw.triangles_).2⟩

/-- Witness of C12: the triangle (0, 1, 2) is exported as 0, 2, 1. -/
theorem saveMesh_swaps_winding_witness :
    (meshDataOf triangleMesh).indicies[3 * 0]? = some 0 ∧
    (meshDataOf triangleMesh).indicies[3 * 0 + 1]? = some 2 ∧
    (meshDataOf triangleMesh).indicies[3 * 0 + 2]? = some 1 :=
  (saveMesh_swaps_winding triangleMesh emptyWriter).2.2 0 ⟨0, 1, 2⟩ rfl

/-- Counterexample to C13: for the two vertices (1, 2, 3) and (4, 5, 6) the
exported sequence is 1, 2, 3, 4, 5, 6; its element `0 * 2 + 1` is component 1
of vertex 0 and not component 0 of vertex 1, and likewise for the UVs. -/
theorem vertices_not_component_major :
    (meshDataOf twoVertexMesh).vertices = [1, 2, 3, 4, 5, 6] ∧
    twoVertexMesh.vertices_[1]? = some ⟨4, 5, 6⟩ ∧
    (meshDataOf twoVertexMesh).vertices[0 * 2 + 1]? ≠ some 4 ∧
    (meshDataOf twoVertexMesh).uvs = [7, 8, 9, 10] ∧
    twoVertexMesh.triangle_uvs_[1]? = some ⟨9, 10⟩ ∧
    (meshDataOf twoVertexMesh).uvs[0 * 2 + 1]? ≠ some 9 := by
  decide!

/-- C13, as the code behaves: the vertex and UV arrays handed to the exporter
are flattened element by element.  For `n` vertices the vertex sequence has
length `3n` and its element `3i+k` is component `k` of vertex `i`; for `m` UV
entries the UV sequence has length `2m` and its element `2i+k` is component
`k` of UV entry `i`. -/
theorem saveMesh_flattens_interleaved (object_to_draw : TriangleMesh) :
    ((meshDataOf object_to_draw).vertices.length = 3 * object_to_draw.vertices_.length ∧
      ∀ (i : Nat) (p : Vector3d), object_to_draw.vertices_[i]? = some p →
        (meshDataOf object_to_draw).vertices[3 * i]? = some p.x ∧
        (meshDataOf object_to_draw).vertices[3 * i + 1]? = some p.y ∧
        (meshDataOf object_to_draw).vertices[3 * i + 2]? = some p.z) ∧
    ((meshDataOf object_to_draw).uvs.length = 2 * object_to_draw.triangle_uvs_.length ∧
      ∀ (i : Nat) (p : Vector2d), object_to_draw.triangle_uvs_[i]? = some p →
        (meshDataOf object_to_draw).uvs[2 * i]? = some p.x ∧
        (meshDataOf object_to_draw).uvs[2 * i + 1]? = some p.y) :=
  ⟨double3ToAlembic_spec object_to_draw.vertices_,
    toAlembicUVs_spec object_to_draw.triangle_uvs_⟩

/-- Witness of C13 as amended: vertex 1 of `twoVertexMesh` is exported at the
entries 3, 4, 5 and its UV entry 1 at the entries 2, 3. -/
theorem saveMesh_flattens_interleaved_witness :
    ((meshDataOf twoVertexMesh).vertices[3 * 1]? = some 4 ∧
      (meshDataOf twoVertexMesh).vertices[3 * 1 + 1]? = some 5 ∧
      (meshDataOf twoVertexMesh).vertices[3 * 1 + 2]? = some 6) ∧
    ((meshDataOf twoVertexMesh).uvs[2 * 1]? = some 9 ∧
      (meshDataOf twoVertexMesh).uvs[2 * 1 + 1]? = some 10) :=
  ⟨(saveMesh_flattens_interleaved twoVertexMesh).1.2 1 ⟨4, 5, 6⟩ rfl,
    (saveMesh_flattens_interleaved twoVertexMesh).2.2 1 ⟨9, 10⟩ rfl⟩

/-- An `int` below `2 ^ 31` is kept by the wrap to 32 bits. -/
theorem toInt32_of_lt (n : Nat) (h : n < 2 ^ 31) : toInt32 (n : Int) = n := by
  unfold toInt32
  omega

/-- A quotient by a number other than zero that stays below `2 ^ 128` is the
rounded quotient. -/
theorem floatDiv_of_lt (a b : ℚ) (hb : b ≠ 0) (hlt : |float32 (a / b)| < pow2 128) :
    floatDiv a b = some (float32 (a / b)) := by
  unfold floatDiv toFloat
  rw [if_neg hb, if_pos hlt]

/-- C14, at the exact quotients: a recording whose first timestamp is
100000 µs and whose three frames are at 200000, 300000 and 400000 µs is
exported as 3 frames, and both the start time and the per-frame delta handed
to `setTimeSampling` are 13421773/134217728, the `float` next to 1/10, where
`low / 1000000` and `(high - low) / (n * 1000000)` are 1/10. -/
theorem time_sampling_not_exact :
    alembicCode recordedCameras 4 (100000, [200000, 300000, 400000])
      = some ((400000, []),
          { frames := [meshDataOf triangleMesh, meshDataOf triangleMesh, meshDataOf triangleMesh],
            startTime := some (13421773 / 134217728),
            deltaTime := some (13421773 / 134217728) }) ∧
    (13421773 / 134217728 : ℚ) ≠ (100000 : ℚ) / 1000000 ∧
    (13421773 / 134217728 : ℚ) ≠ ((400000 : ℚ) - 100000) / (3 * 1000000) := by
  decide!

/-- C14, amended: when `alembicCode` ends after exporting `n` frames,
`1 ≤ n < 2 ^ 31`, with the timestamp `low` read before the loop and the
timestamp `high ≥ low` read after it (microseconds, 64-bit), the start time
passed to `setTimeSampling` is `low` rounded to `float`, divided by 1000000 and
rounded again, and the per-frame delta is the `float` of `high - low` divided
by the `float` product of the `float` of `n` with 1000000, rounded to `float`.
The start time differs from `low / 1000000` by at most the fraction `2 ^ -22`
of it and the delta from `(high - low) / (n * 1000000)` by at most the fraction
`2 ^ -21` of it. -/
theorem alembicCode_time_sampling {σ : Type} (ops : CameraManager σ) (fuel : Nat)
    (cm cm1 : σ) (alembicWriter : AlembicWriter)
    (hrun : alembicCode ops fuel cm = some (cm1, alembicWriter))
    (hn : 1 ≤ alembicWriter.frames.length)
    (hint : alembicWriter.frames.length < 2 ^ 31)
    (hlow : ops.GetHighestTimestamp cm < 2 ^ 64)
    (hhigh : ops.GetHighestTimestamp cm1 < 2 ^ 64)
    (hle : ops.GetHighestTimestamp cm ≤ ops.GetHighestTimestamp cm1) :
    alembicWriter.startTime
      = some (float32 (float32 (ops.GetHighestTimestamp cm : ℚ) / 1000000)) ∧
    alembicWriter.deltaTime
      = some (float32
          (float32 ((ops.GetHighestTimestamp cm1 : ℚ) - (ops.GetHighestTimestamp cm : ℚ))
            / float32 (float32 (alembicWriter.frames.length : ℚ) * 1000000))) ∧
    |float32 (float32 (ops.GetHighestTimestamp cm : ℚ) / 1000000)
        - (ops.GetHighestTimestamp cm : ℚ) / 1000000|
      ≤ pow2 (-22) * ((ops.GetHighestTimestamp cm : ℚ) / 1000000) ∧
    |float32
          (float32 ((ops.GetHighestTimestamp cm1 : ℚ) - (ops.GetHighestTimestamp cm : ℚ))
            / float32 (float32 (alembicWriter.frames.length : ℚ) * 1000000))
        - ((ops.GetHighestTimestamp cm1 : ℚ) - (ops.GetHighestTimestamp cm : ℚ))
            / ((alembicWriter.frames.length : ℚ) * 1000000)|
      ≤ pow2 (-21) * (((ops.GetHighestTimestamp cm1 : ℚ) - (ops.GetHighestTimestamp cm : ℚ))
            / ((alembicWriter.frames.length : ℚ) * 1000000)) := by
  obtain ⟨hs1, hs2⟩ := start_time_near (ops.GetHighestTimestamp cm) hlow
  obtain ⟨hd0, hd1, hd2⟩ := delta_time_near
    (ops.GetHighestTimestamp cm1 - ops.GetHighestTimestamp cm) alembicWriter.frames.length
    (by omega) hn hint
  rw [Nat.cast_sub hle] at hd1 hd2
  refine ⟨?_, ?_, hs2, hd2⟩
  all_goals
    unfold alembicCode at hrun
    dsimp only at hrun
    cases hloop : alembicLoop ops fuel cm
        { frames := [], startTime := some 1, deltaTime := floatDiv 1 30 } 0 with
    | none =>
      rw [hloop] at hrun
      exact absurd hrun (by simp)
    | some r =>
      obtain ⟨cm2, w1, i⟩ := r
      rw [hloop] at hrun
      simp only [Option.some.injEq, Prod.mk.injEq] at hrun
      obtain ⟨hcm, hw⟩ := hrun
      subst hcm
      obtain ⟨hlen, _, _⟩ := alembicLoop_frames ops fuel _ _ _ _ _ _ hloop
      simp only [List.length_nil, Nat.add_zero, Nat.zero_add] at hlen
      have hsub : toUInt64 ((toUInt64 (ops.GetHighestTimestamp cm2 : Int) : Int)
          - (toUInt64 (ops.GetHighestTimestamp cm : Int) : Int))
          = ops.GetHighestTimestamp cm2 - ops.GetHighestTimestamp cm := by
        rw [toUInt64_of_lt _ hlow, toUInt64_of_lt _ hhigh]
        have e : ((ops.GetHighestTimestamp cm2 : Int) - (ops.GetHighestTimestamp cm : Int))
            = ((ops.GetHighestTimestamp cm2 - ops.GetHighestTimestamp cm : Nat) : Int) := by
          omega
        rw [e]
        exact toUInt64_of_lt _ (by omega)
      have hframes : alembicWriter.frames.length = w1.frames.length := by
        rw [← hw]
        rfl
      rw [hframes] at hd0 hd1 hint
      rw [hlen] at hd0 hd1 hint
      rw [hsub, toUInt64_of_lt _ hlow, toInt32_of_lt _ hint, Nat.cast_sub hle,
        Int.cast_natCast] at hw
      rw [← hw]
      simp only [AlembicWriter.setTimeSampling]
      first
        | exact floatDiv_of_lt _ _ (by norm_num) hs1
        | (rw [hlen]; exact floatDiv_of_lt _ _ hd0 hd1)

/-- Witness of C14: a recording that starts at 1 s and yields frames at 2 s and
3 s is exported as 2 frames with start time 1 and delta 1. -/
theorem alembicCode_time_sampling_witness :
    alembicCode recordedCameras 3 (1000000, [2000000, 3000000])
      = some ((3000000, []),
          { frames := [meshDataOf triangleMesh, meshDataOf triangleMesh],
            startTime := some 1, deltaTime := some 1 }) ∧
    float32 (float32 ((1000000 : Nat) : ℚ) / 1000000) = 1 ∧
    float32 (float32 (((3000000 : Nat) : ℚ) - ((1000000 : Nat) : ℚ))
      / float32 (float32 ((2 : Nat) : ℚ) * 1000000)) = 1 ∧
    ((some 1 : Option ℚ) = some (float32 (float32 ((1000000 : Nat) : ℚ) / 1000000)) ∧
      (some 1 : Option ℚ)
        = some (float32 (float32 (((3000000 : Nat) : ℚ) - ((1000000 : Nat) : ℚ))
            / float32 (float32 ((2 : Nat) : ℚ) * 1000000))) ∧
      |float32 (float32 ((1000000 : Nat) : ℚ) / 1000000) - ((1000000 : Nat) : ℚ) / 1000000|
        ≤ pow2 (-22) * (((1000000 : Nat) : ℚ) / 1000000) ∧
      |float32 (float32 (((3000000 : Nat) : ℚ) - ((1000000 : Nat) : ℚ))
            / float32 (float32 ((2 : Nat) : ℚ) * 1000000))
          - (((3000000 : Nat) : ℚ) - ((1000000 : Nat) : ℚ)) / (((2 : Nat) : ℚ) * 1000000)|
        ≤ pow2 (-21) * ((((3000000 : Nat) : ℚ) - ((1000000 : Nat) : ℚ))
            / (((2 : Nat) : ℚ) * 1000000))) :=
  ⟨by decide!, by decide!, by decide!,
    alembicCode_time_sampling recordedCameras 3 (1000000, [2000000, 3000000]) (3000000, [])
      { frames := [meshDataOf triangleMesh, meshDataOf triangleMesh],
        startTime := some 1, deltaTime := some 1 }
      (by decide!) (by decide) (by decide) (by decide) (by decide) (by decide)⟩

/-! ## The flattening functions -/

theorem double3ToAlembic_writes (source : List Vector3d) :
    double3ToAlembic source
      = runWrites (double3Writes source) (List.range source.length)
          (List.replicate (source.length * 3) 0) := by
  unfold double3ToAlembic runWrites
  apply List.foldl_ext
  intro r i _
  unfold double3Writes
  cases source[i]? <;> rfl

theorem toAlembicUVs_writes (source : List Vector2d) :
    toAlembicUVs source
      = runWrites (uvWrites source) (List.range source.length)
          (List.replicate (source.length * 2) 0) := by
  unfold toAlembicUVs runWrites
  apply List.foldl_ext
  intro r i _
  unfold uvWrites
  cases source[i]? <;> rfl

/-- Every entry below `3n` is written by exactly one iteration. -/
theorem double3Writes_unique (source : List Vector3d) (j : Nat)
    (hj : j < 3 * source.length) :
    ∃! i, i < source.length ∧ j ∈ (double3Writes source i).map Prod.fst := by
  have hmem : ∀ i, i < source.length →
      (j ∈ (double3Writes source i).map Prod.fst ↔
        j = i * 3 ∨ j = i * 3 + 1 ∨ j = i * 3 + 2) := by
    intro i hi
    unfold double3Writes
    rw [List.getElem?_eq_getElem hi]
    simp
  refine ⟨j / 3, ⟨by omega, (hmem (j / 3) (by omega)).2 (by omega)⟩, ?_⟩
  rintro i ⟨hi, hin⟩
  have := (hmem i hi).1 hin
  omega

/-- Every entry below `2n` is written by exactly one iteration. -/
theorem uvWrites_unique (source : List Vector2d) (j : Nat)
    (hj : j < 2 * source.length) :
    ∃! i, i < source.length ∧ j ∈ (uvWrites source i).map Prod.fst := by
  have hmem : ∀ i, i < source.length →
      (j ∈ (uvWrites source i).map Prod.fst ↔ j = i * 2 ∨ j = i * 2 + 1) := by
    intro i hi
    unfold uvWrites
    rw [List.getElem?_eq_getElem hi]
    simp
  refine ⟨j / 2, ⟨by omega, (hmem (j / 2) (by omega)).2 (by omega)⟩, ?_⟩
  rintro i ⟨hi, hin⟩
  have := (hmem i hi).1 hin
  omega

/-- C21: `double3ToAlembic` flattens sequentially.  For `n` vectors the result
has length `3n` and its elements `3i`, `3i+1`, `3i+2` are the `x`, `y`, `z` of
vector `i`; the function is the loop whose iteration `i` executes the
assignments `double3Writes source i`, and every entry below `3n` is written by
exactly one iteration.  `toAlembicUVs` does the same with the two components
of a UV: length `2n`, elements `2i`, `2i+1`, one writing iteration per entry. -/
theorem flatten_sequential (source : List Vector3d) (uvs : List Vector2d) :
    ((double3ToAlembic source).length = 3 * source.length ∧
      (∀ (i : Nat) (p : Vector3d), source[i]? = some p →
        (double3ToAlembic source)[3 * i]? = some p.x ∧
        (double3ToAlembic source)[3 * i + 1]? = some p.y ∧
        (double3ToAlembic source)[3 * i + 2]? = some p.z) ∧
      double3ToAlembic source
        = runWrites (double3Writes source) (List.range source.length)
            (List.replicate (source.length * 3) 0) ∧
      (∀ j, j < 3 * source.length →
        ∃! i, i < source.length ∧ j ∈ (double3Writes source i).map Prod.fst)) ∧
    ((toAlembicUVs uvs).length = 2 * uvs.length ∧
      (∀ (i : Nat) (p : Vector2d), uvs[i]? = some p →
        (toAlembicUVs uvs)[2 * i]? = some p.x ∧
        (toAlembicUVs uvs)[2 * i + 1]? = some p.y) ∧
      toAlembicUVs uvs
        = runWrites (uvWrites uvs) (List.range uvs.length)
            (List.replicate (uvs.length * 2) 0) ∧
      (∀ j, j < 2 * uvs.length →
        ∃! i, i < uvs.length ∧ j ∈ (uvWrites uvs i).map Prod.fst)) :=
  ⟨⟨(double3ToAlembic_spec source).1, (double3ToAlembic_spec source).2,
      double3ToAlembic_writes source, double3Writes_unique source⟩,
    ⟨(toAlembicUVs_spec uvs).1, (toAlembicUVs_spec uvs).2,
      toAlembicUVs_writes uvs, uvWrites_unique uvs⟩⟩

/-- Witness of C21: of the vectors (1, 2, 3), (4, 5, 6) vector 1 is at the
elements 3, 4, 5, and of the UVs (7, 8), (9, 10) UV 1 is at the elements 2, 3;
element 4 of the first result is written by one iteration. -/
theorem flatten_sequential_witness :
    ((double3ToAlembic [⟨1, 2, 3⟩, ⟨4, 5, 6⟩])[3 * 1]? = some 4 ∧
      (double3ToAlembic [⟨1, 2, 3⟩, ⟨4, 5, 6⟩])[3 * 1 + 1]? = some 5 ∧
      (double3ToAlembic [⟨1, 2, 3⟩, ⟨4, 5, 6⟩])[3 * 1 + 2]? = some 6) ∧
    ((toAlembicUVs [⟨7, 8⟩, ⟨9, 10⟩])[2 * 1]? = some 9 ∧
      (toAlembicUVs [⟨7, 8⟩, ⟨9, 10⟩])[2 * 1 + 1]? = some 10) ∧
    (∃! i, i < 2 ∧ 4 ∈ (double3Writes [⟨1, 2, 3⟩, ⟨4, 5, 6⟩] i).map Prod.fst) :=
  ⟨(flatten_sequential [⟨1, 2, 3⟩, ⟨4, 5, 6⟩] [⟨7, 8⟩, ⟨9, 10⟩]).1.2.1 1 ⟨4, 5, 6⟩ rfl,
    (flatten_sequential [⟨1, 2, 3⟩, ⟨4, 5, 6⟩] [⟨7, 8⟩, ⟨9, 10⟩]).2.2.1 1 ⟨9, 10⟩ rfl,
    (flatten_sequential [⟨1, 2, 3⟩, ⟨4, 5, 6⟩] [⟨7, 8⟩, ⟨9, 10⟩]).1.2.2.2 4 (by decide)⟩

/-- C22: `double3ToAlembicNegate` returns the sequence that `double3ToAlembic`
returns.  The normals that `saveMesh` hands to the exporter are therefore the
flattened vertex normals of the mesh: for `n` normals the sequence has length
`3n` and its elements `3i`, `3i+1`, `3i+2` are the `x`, `y`, `z` of normal `i`,
with their signs. -/
theorem negate_changes_no_sign (source : List Vector3d) (object_to_draw : TriangleMesh)
    (alembicWriter : AlembicWriter) :
    double3ToAlembicNegate source = double3ToAlembic source ∧
    (saveMesh object_to_draw alembicWriter).frames
      = alembicWriter.frames ++ [meshDataOf object_to_draw] ∧
    (meshDataOf object_to_draw).normals = double3ToAlembic object_to_draw.vertex_normals_ ∧
    (meshDataOf object_to_draw).normals.length = 3 * object_to_draw.vertex_normals_.length ∧
    (∀ (i : Nat) (p : Vector3d), object_to_draw.vertex_normals_[i]? = some p →
      (meshDataOf object_to_draw).normals[3 * i]? = some p.x ∧
      (meshDataOf object_to_draw).normals[3 * i + 1]? = some p.y ∧
      (meshDataOf object_to_draw).normals[3 * i + 2]? = some p.z) :=
  ⟨rfl, rfl, rfl, (double3ToAlembic_spec object_to_draw.vertex_normals_).1,
    (double3ToAlembic_spec object_to_draw.vertex_normals_).2⟩

/-- Witness of C22: the normal (-1, 2, -3) is exported as -1, 2, -3. -/
theorem negate_changes_no_sign_witness :
    (meshDataOf normalsMesh).normals[3 * 0]? = some (-1 : ℚ) ∧
    (meshDataOf normalsMesh).normals[3 * 0 + 1]? = some (2 : ℚ) ∧
    (meshDataOf normalsMesh).normals[3 * 0 + 2]? = some (-3 : ℚ) :=
  (negate_changes_no_sign [] normalsMesh emptyWriter).2.2.2.2 0 ⟨-1, 2, -3⟩ rfl

end MKV_Rendering

namespace MKV_Data

open TextureUnpacker

/-! ## Skipping bad captures -/

theorem returnedOr_of_returns {P : Type} (r : Except Stop (RGBDImage × Camera P))
    (fallback : RGBDImage × Camera P) (h : returns r = true) :
    r = .ok (returnedOr r fallback) := by
  cases r with
  | error e => simp [returns] at h
  | ok x => rfl

theorem LOG_ERROR_plain (fatalThrows : Bool) (message : String) (errors : List String) :
    LOG_ERROR fatalThrows message false errors = .ok (errors ++ [message]) := by
  simp [LOG_ERROR]

/-- The call `DecompressCapture` does not touch the playback. -/
theorem DecompressCapture_advanced {P : Type} (sdk : Sdk P) (cam cam1 : Camera P)
    (r : Option RGBDImage) (h : DecompressCapture sdk cam = .ok (r, cam1)) :
    cam1.advanced = cam.advanced ∧ cam1.handle = cam.handle ∧ cam1.capture = cam.capture := by
  unfold DecompressCapture at h
  dsimp only at h
  repeat' split at h
  all_goals first
    | (cases h; done)
    | (cases h; exact ⟨rfl, rfl, rfl⟩)

/-- The call `CycleCaptureForwards` asks the playback for one capture. -/
theorem CycleCaptureForwards_advanced {P : Type} (sdk : Sdk P) (cam cam1 : Camera P)
    (h : CycleCaptureForwards sdk cam = .ok cam1) : cam1.advanced = cam.advanced + 1 := by
  unfold CycleCaptureForwards at h
  dsimp only at h
  repeat' split at h
  all_goals first
    | (cases h; done)
    | (cases h; rfl)

theorem SkipsTo_advanced {P : Type} (sdk : Sdk P) (cam last : Camera P) (k : Nat)
    (h : SkipsTo sdk cam k last) : last.advanced = cam.advanced + k := by
  induction h with
  | here cam => rfl
  | skip cam cam1 cam2 last k hd hc _ ih =>
    rw [ih, CycleCaptureForwards_advanced sdk cam1 cam2 hc,
      (DecompressCapture_advanced sdk cam cam1 none hd).1]
    omega

/-- A returning `GetFrameRGBD` skipped some captures and decoded the next. -/
theorem GetFrameRGBD_returns {P : Type} (sdk : Sdk P) :
    ∀ (fuel : Nat) (cam cam1 : Camera P) (frame : RGBDImage),
      GetFrameRGBD sdk fuel cam = .ok (frame, cam1) →
      ∃ k last, k < fuel ∧ SkipsTo sdk cam k last ∧
        DecompressCapture sdk last = .ok (some frame, cam1) := by
  intro fuel
  induction fuel with
  | zero =>
    intro cam cam1 frame h
    simp [GetFrameRGBD] at h
  | succ n ih =>
    intro cam cam1 frame h
    rw [GetFrameRGBD] at h
    split at h
    · exact absurd h (by simp)
    · rename_i rgbd cam2 hd
      simp only [Except.ok.injEq, Prod.mk.injEq] at h
      obtain ⟨rfl, rfl⟩ := h
      exact ⟨0, cam, Nat.succ_pos n, SkipsTo.here cam, hd⟩
    · rename_i cam2 hd
      split at h
      · exact absurd h (by simp)
      · rename_i cam3 hc
        obtain ⟨k, last, hk, hs, hl⟩ := ih _ _ _ h
        exact ⟨k + 1, last, by omega, SkipsTo.skip cam cam2 cam3 last k hd hc hs, hl⟩

/-- When the capture `k` captures ahead is the first that decodes,
`GetFrameRGBD` returns its frame within any budget above `k`. -/
theorem GetFrameRGBD_of_skips {P : Type} (sdk : Sdk P) (cam last cam1 : Camera P) (k : Nat)
    (frame : RGBDImage) (hs : SkipsTo sdk cam k last)
    (hl : DecompressCapture sdk last = .ok (some frame, cam1)) :
    ∀ fuel, k < fuel → GetFrameRGBD sdk fuel cam = .ok (frame, cam1) := by
  induction hs with
  | here cam =>
    intro fuel hf
    obtain ⟨n, rfl⟩ : ∃ n, fuel = n + 1 := ⟨fuel - 1, by omega⟩
    rw [GetFrameRGBD, hl]
  | skip cam cam2 cam3 last k hd hc _ ih =>
    intro fuel hf
    obtain ⟨n, rfl⟩ : ∃ n, fuel = n + 1 := ⟨fuel - 1, by omega⟩
    rw [GetFrameRGBD, hd]
    dsimp only
    rw [hc]
    exact ih hl n (by omega)

/-! ## The claim -/

/-- C16: `DecompressCapture` returns null when the current capture lacks its
colour or its depth image, when the colour image is not MJPG, and when the
JPEG decoder fails.  When `GetFrameRGBD` returns, it returns the frame that
`DecompressCapture` decodes from the first capture, at or after the current
one, for which it does not return null, after one call of
`k4a_playback_get_next_capture` for each capture skipped; and it returns
within any budget above the number of captures to skip. -/
theorem bad_captures_are_skipped {P : Type} (sdk : Sdk P) :
    (∀ (cam : Camera P) (capture : Option k4a_capture), cam.capture = some capture →
      (capture.bind (fun c => c.color_image) = none ∨
        capture.bind (fun c => c.depth_image) = none) →
      ∃ cam1, DecompressCapture sdk cam = .ok (none, cam1)) ∧
    (∀ (cam : Camera P) (capture : k4a_capture) (k4a_color k4a_depth : k4a_image),
      cam.capture = some (some capture) → capture.color_image = some k4a_color →
      capture.depth_image = some k4a_depth →
      k4a_color.format ≠ .K4A_IMAGE_FORMAT_COLOR_MJPG →
      ∃ cam1, DecompressCapture sdk cam = .ok (none, cam1)) ∧
    (∀ (cam : Camera P) (capture : k4a_capture) (k4a_color k4a_depth : k4a_image),
      cam.capture = some (some capture) → capture.color_image = some k4a_color →
      capture.depth_image = some k4a_depth →
      k4a_color.format = .K4A_IMAGE_FORMAT_COLOR_MJPG →
      sdk.tjDecompress2 k4a_color.buffer k4a_color.width_pixels k4a_color.height_pixels = none →
      ∃ cam1, DecompressCapture sdk cam = .ok (none, cam1)) ∧
    (∀ (fuel : Nat) (cam cam1 : Camera P) (frame : RGBDImage),
      GetFrameRGBD sdk fuel cam = .ok (frame, cam1) →
      ∃ k last, SkipsTo sdk cam k last ∧
        DecompressCapture sdk last = .ok (some frame, cam1) ∧
        cam1.advanced = cam.advanced + k) ∧
    (∀ (cam last cam1 : Camera P) (k : Nat) (frame : RGBDImage), SkipsTo sdk cam k last →
      DecompressCapture sdk last = .ok (some frame, cam1) →
      ∀ fuel, k < fuel → GetFrameRGBD sdk fuel cam = .ok (frame, cam1)) := by
  refine ⟨?_, ?_, ?_, ?_, ?_⟩
  · intro cam capture hcap hnone
    unfold DecompressCapture
    dsimp only
    rw [hcap]
    dsimp only
    rcases hnone with h | h
    · rw [h]
      simp only [LOG_ERROR_plain]
      exact ⟨_, rfl⟩
    · rw [h]
      cases capture.bind (fun c => c.color_image) with
      | none =>
        simp only [LOG_ERROR_plain]
        exact ⟨_, rfl⟩
      | some x =>
        simp only [LOG_ERROR_plain]
        exact ⟨_, rfl⟩
  · intro cam capture k4a_color k4a_depth hcap hcol hdep hfmt
    unfold DecompressCapture
    dsimp only
    rw [hcap]
    simp only [Option.bind, hcol, hdep, if_pos hfmt, LOG_ERROR_plain]
    exact ⟨_, rfl⟩
  · intro cam capture k4a_color k4a_depth hcap hcol hdep hfmt hjpeg
    unfold DecompressCapture
    dsimp only
    rw [hcap]
    simp only [Option.bind, hcol, hdep, hfmt, ne_eq, not_true_eq_false, if_false, hjpeg,
      LOG_ERROR_plain]
    exact ⟨_, rfl⟩
  · intro fuel cam cam1 frame h
    obtain ⟨k, last, _, hs, hl⟩ := GetFrameRGBD_returns sdk fuel cam cam1 frame h
    refine ⟨k, last, hs, hl, ?_⟩
    rw [(DecompressCapture_advanced sdk last cam1 _ hl).1, SkipsTo_advanced sdk cam last k hs]
  · intro cam last cam1 k frame hs hl
    exact GetFrameRGBD_of_skips sdk cam last cam1 k frame hs hl

/-- Witness of C16: the current capture has no depth image and the next one is
good; `DecompressCapture` returns null on the first and `GetFrameRGBD` returns
after skipping captures, one playback call for each. -/
theorem bad_captures_are_skipped_witness :
    (∃ cam1, DecompressCapture listSdk startCamera = .ok (none, cam1)) ∧
    (∃ k last, SkipsTo listSdk startCamera k last ∧
      DecompressCapture listSdk last
        = .ok (some (returnedOr (GetFrameRGBD listSdk 2 startCamera)
            (⟨emptyImage, emptyImage⟩, startCamera)).1,
          (returnedOr (GetFrameRGBD listSdk 2 startCamera)
            (⟨emptyImage, emptyImage⟩, startCamera)).2) ∧
      (returnedOr (GetFrameRGBD listSdk 2 startCamera)
          (⟨emptyImage, emptyImage⟩, startCamera)).2.advanced
        = startCamera.advanced + k) ∧
    (returnedOr (GetFrameRGBD listSdk 2 startCamera)
      (⟨emptyImage, emptyImage⟩, startCamera)).2.advanced = 1 :=
  ⟨(bad_captures_are_skipped listSdk).1 startCamera (some noDepthCapture) rfl (Or.inr rfl),
    (bad_captures_are_skipped listSdk).2.2.2.1 2 startCamera _ _
      (returnedOr_of_returns (GetFrameRGBD listSdk 2 startCamera)
        (⟨emptyImage, emptyImage⟩, startCamera) (by decide!)),
    by decide!⟩

end MKV_Data

namespace MKV_Data

open TextureUnpacker

/-! ## Loops over lists -/

/-- A loop all of whose iterations return under the invariant `P` returns;
when iteration `a` establishes `W a` and no iteration breaks it, all of them
hold at the end. -/
theorem forEach_post {α σ : Type} (body : α → σ → Except Fault σ) (P : σ → Prop)
    (W : α → σ → Prop) (M : α → Prop)
    (hstep : ∀ a, M a → ∀ s, P s → ∃ s1, body a s = .ok s1 ∧ P s1 ∧ W a s1)
    (hkeep : ∀ a, M a → ∀ b, M b → ∀ s s1, P s → W a s → body b s = .ok s1 → W a s1) :
    ∀ (l : List α), (∀ a ∈ l, M a) → ∀ s, P s →
      ∃ s1, forEach body l s = .ok s1 ∧ P s1 ∧ ∀ a ∈ l, W a s1 := by
  intro l
  induction l with
  | nil =>
    intro _ s hP
    exact ⟨s, rfl, hP, fun a ha => absurd ha (List.not_mem_nil a)⟩
  | cons a rest ih =>
    intro hM s hP
    have hMa := hM a (List.mem_cons_self _ _)
    have hMrest : ∀ b ∈ rest, M b := fun b hb => hM b (List.mem_cons_of_mem _ hb)
    obtain ⟨s1, hs1, hP1, hW1⟩ := hstep a hMa s hP
    obtain ⟨s2, hs2, hP2, hW2⟩ := ih hMrest s1 hP1
    refine ⟨s2, by rw [forEach, hs1]; exact hs2, hP2, ?_⟩
    intro b hb
    rcases List.mem_cons.1 hb with h1 | h1
    · subst h1
      have hinv := forEach_inv (fun t => P t ∧ W b t) body rest
        (fun c hc t t1 ht hbody => by
          obtain ⟨t2, ht2, hPt2, _⟩ := hstep c (hMrest c hc) t ht.1
          rw [hbody] at ht2
          cases ht2
          exact ⟨hPt2, hkeep b hMa c (hMrest c hc) t t1 ht.1 ht.2 hbody⟩)
        s1 s2 ⟨hP1, hW1⟩ hs2
      exact hinv.2
    · exact hW2 b h1

/-! ## The conversion loops -/

theorem load_of_lt (im : Image) (p : Int) (h0 : 0 ≤ p) (hlt : p < im.data_.length) :
    ∃ b, im.load p = .ok b := by
  have h : p.toNat < im.data_.length := by omega
  refine ⟨im.data_[p.toNat], ?_⟩
  unfold Image.load
  rw [if_pos h0, List.getElem?_eq_getElem h]

/-- The offset of a channel of a pixel of an image lies inside a buffer of
the size of the layout. -/
theorem pixel_offset_lt (u v c w h n : Int) (hu : 0 ≤ u) (huw : u < w) (hv : 0 ≤ v)
    (hvh : v < h) (hc : 0 ≤ c) (hcn : c < n) :
    0 ≤ ((v * w + u) * n + c) * 1 ∧ ((v * w + u) * n + c) * 1 < w * h * n := by
  have hw : 0 < w := by omega
  have hn : 0 < n := by omega
  have h1 : 0 ≤ v * w := mul_nonneg hv (by omega)
  have h2 : v * w + u + 1 ≤ h * w := by nlinarith
  have h3 : 0 ≤ (v * w + u) * n := mul_nonneg (by omega) (by omega)
  have h4 : (v * w + u + 1) * n ≤ h * w * n := mul_le_mul_of_nonneg_right h2 (by omega)
  constructor
  · omega
  · nlinarith

theorem convertChannel_spec (bgra rgb rgb1 : Image) (u v : Int) (c : Nat)
    (h : convertChannel bgra u v c rgb = .ok rgb1) :
    ∃ b, bgra.load (bgra.PointerAt u v (2 - (c : Int))) = .ok b ∧
      rgb.store (rgb.PointerAt u v (c : Int)) b = .ok rgb1 := by
  simp only [convertChannel, bind_eq_ok] at h
  exact h

theorem convertChannel_of (bgra rgb rgb1 : Image) (u v : Int) (c : Nat) (b : Byte)
    (hload : bgra.load (bgra.PointerAt u v (2 - (c : Int))) = .ok b)
    (hstore : rgb.store (rgb.PointerAt u v (c : Int)) b = .ok rgb1) :
    convertChannel bgra u v c rgb = .ok rgb1 := by
  simp only [convertChannel, hload, hstore, bind, Except.bind]

/-- The three loops are one loop over the channels of the pixels. -/
theorem convertPixels_flat (bgra rgb : Image) :
    convertPixels bgra rgb
      = forEach (fun (p : Nat × Nat × Nat) (rgb : Image) =>
            convertChannel bgra p.2.1 p.1 p.2.2 rgb)
          (pixelChannels bgra.width_ bgra.height_) rgb := by
  unfold convertPixels pixelChannels
  rw [forEach_flatMap]
  apply forEach_congr
  intro v _ s
  rw [forEach_flatMap]
  apply forEach_congr
  intro u _ t
  rw [forEach_map]

theorem mem_pixelChannels (width height : Int) (p : Nat × Nat × Nat) :
    p ∈ pixelChannels width height ↔
      p.1 < height.toNat ∧ p.2.1 < width.toNat ∧ p.2.2 < 3 := by
  obtain ⟨v, u, c⟩ := p
  simp only [pixelChannels, List.mem_flatMap, List.mem_map, List.mem_range, Prod.mk.injEq]
  constructor
  · rintro ⟨v1, hv1, u1, hu1, c1, hc1, rfl, rfl, rfl⟩
    exact ⟨hv1, hu1, hc1⟩
  · rintro ⟨hv, hu, hc⟩
    exact ⟨v, hv, u, hu, c, hc, rfl, rfl, rfl⟩

/-- On a 4-channel input and a 3-channel output of the same width and height
whose buffers have room for their pixels, the loops return an image of the
layout of the output in which channel `c` of every pixel is channel `2 - c` of
the pixel of the input. -/
theorem convertPixels_spec (bgra rgb : Image)
    (hc1 : bgra.num_of_channels_ = 4) (hc2 : rgb.num_of_channels_ = 3)
    (hw : bgra.width_ = rgb.width_) (hh : bgra.height_ = rgb.height_)
    (hlen1 : bgra.width_ * bgra.height_ * 4 ≤ bgra.data_.length)
    (hlen2 : rgb.width_ * rgb.height_ * 3 ≤ rgb.data_.length) :
    ∃ rgb1, convertPixels bgra rgb = .ok rgb1 ∧
      (rgb1.width_ = rgb.width_ ∧ rgb1.height_ = rgb.height_ ∧
        rgb1.num_of_channels_ = rgb.num_of_channels_ ∧
        rgb1.bytes_per_channel_ = rgb.bytes_per_channel_ ∧
        rgb1.data_.length = rgb.data_.length) ∧
      ∀ u v c : Int, 0 ≤ u → u < rgb.width_ → 0 ≤ v → v < rgb.height_ → 0 ≤ c → c < 3 →
        ∃ b, bgra.load (bgra.PointerAt u v (2 - c)) = .ok b ∧
          rgb1.load (rgb1.PointerAt u v c) = .ok b := by
  have hmain := forEach_post
    (fun (p : Nat × Nat × Nat) (rgb : Image) => convertChannel bgra p.2.1 p.1 p.2.2 rgb)
    (fun s => s.width_ = rgb.width_ ∧ s.height_ = rgb.height_ ∧
      s.num_of_channels_ = rgb.num_of_channels_ ∧
      s.bytes_per_channel_ = rgb.bytes_per_channel_ ∧ s.data_.length = rgb.data_.length)
    (fun p s => ∃ b, bgra.load (bgra.PointerAt p.2.1 p.1 (2 - (p.2.2 : Int))) = .ok b ∧
      s.load (rgb.PointerAt p.2.1 p.1 p.2.2) = .ok b)
    (fun p => p.1 < rgb.height_.toNat ∧ p.2.1 < rgb.width_.toNat ∧ p.2.2 < 3)
    ?_ ?_ (pixelChannels bgra.width_ bgra.height_)
    (fun a ha => by rw [hw, hh] at ha; exact (mem_pixelChannels _ _ a).1 ha) rgb
    ⟨rfl, rfl, rfl, rfl, rfl⟩
  · obtain ⟨rgb1, hrun, hP, hW⟩ := hmain
    refine ⟨rgb1, by rw [convertPixels_flat]; exact hrun, hP, ?_⟩
    intro u v c hu huw hv hvh hc hc3
    have hmem : (v.toNat, u.toNat, c.toNat) ∈ pixelChannels bgra.width_ bgra.height_ := by
      rw [hw, hh, mem_pixelChannels]
      refine ⟨?_, ?_, ?_⟩ <;> dsimp only <;> omega
    obtain ⟨b, hb1, hb2⟩ := hW _ hmem
    simp only [Int.toNat_of_nonneg hu, Int.toNat_of_nonneg hv, Int.toNat_of_nonneg hc]
      at hb1 hb2
    rw [PointerAt_layout rgb rgb1 hP.1 hP.2.2.1]
    exact ⟨b, hb1, hb2⟩
  · rintro ⟨v, u, c⟩ ⟨hv, hu, hc⟩ s ⟨sW, sH, sN, sB, sL⟩
    dsimp only at hv hu hc ⊢
    have hu0 : (0 : Int) ≤ (u : Int) := Int.ofNat_nonneg u
    have hv0 : (0 : Int) ≤ (v : Int) := Int.ofNat_nonneg v
    have hc0 : (0 : Int) ≤ (c : Int) := Int.ofNat_nonneg c
    have huw : (u : Int) < rgb.width_ := by omega
    have hvh : (v : Int) < rgb.height_ := by omega
    have hc3 : (c : Int) < 3 := by omega
    have hp1 := pixel_offset_lt u v (2 - (c : Int)) rgb.width_ rgb.height_ 4 hu0 huw hv0 hvh
      (by omega) (by omega)
    have hp2 := pixel_offset_lt u v c rgb.width_ rgb.height_ 3 hu0 huw hv0 hvh hc0 hc3
    obtain ⟨b, hload⟩ := load_of_lt bgra (bgra.PointerAt u v (2 - (c : Int)))
      (by simp only [Image.PointerAt, hc1, hw]; exact hp1.1)
      (by simp only [Image.PointerAt, hc1, hw]; rw [hw, hh] at hlen1; omega)
    have hptr : s.PointerAt u v c = rgb.PointerAt u v c := PointerAt_layout rgb s sW sN u v c
    obtain ⟨out, hstore⟩ := store_of_lt s (s.PointerAt u v c) b
      (by rw [hptr]; simp only [Image.PointerAt, hc2]; exact hp2.1)
      (by rw [hptr, sL]; simp only [Image.PointerAt, hc2]; omega)
    obtain ⟨oW, oH, oN⟩ := store_layout _ _ _ _ hstore
    obtain ⟨_, oL, oB⟩ := store_spec _ _ _ _ hstore
    refine ⟨out, convertChannel_of bgra s out u v c b hload hstore,
      ⟨oW.trans sW, oH.trans sH, oN.trans sN, oB.trans sB, oL.trans sL⟩, b, hload, ?_⟩
    rw [load_store _ _ _ _ hstore, hptr, if_pos rfl]
  · rintro ⟨v, u, c⟩ ⟨hv, hu, hc⟩ ⟨v1, u1, c1⟩ ⟨hv1, hu1, hc1⟩ s s1 ⟨sW, sH, sN, sB, sL⟩
      ⟨b, hb1, hb2⟩ hbody
    dsimp only at hv hu hc hv1 hu1 hc1 hb1 hb2 hbody ⊢
    obtain ⟨b1, hload1, hstore1⟩ := convertChannel_spec _ _ _ _ _ _ hbody
    have hptr : s.PointerAt u1 v1 c1 = rgb.PointerAt u1 v1 c1 :=
      PointerAt_layout rgb s sW sN u1 v1 c1
    rw [hptr] at hstore1
    have hl := load_store _ _ _ _ hstore1 (rgb.PointerAt u v c)
    by_cases heq : rgb.PointerAt u v c = rgb.PointerAt u1 v1 c1
    · obtain ⟨e1, e2, e3⟩ := PointerAt_inj rgb hc2 u v c u1 v1 c1 (Int.ofNat_nonneg u)
        (by omega) (Int.ofNat_nonneg u1) (by omega) (Int.ofNat_nonneg c) (by omega)
        (Int.ofNat_nonneg c1) (by omega) heq
      rw [if_pos heq] at hl
      rw [← e1, ← e2, ← e3] at hload1
      exact ⟨b1, hload1, hl⟩
    · rw [if_neg heq] at hl
      exact ⟨b, hb1, by rw [hl]; exact hb2⟩

/-! ## The checks and the two references -/

/-- The checks log one message for every requirement that is not met, in the
order of the checks, unless the logger throws at the first of them. -/
theorem requirementChecks_spec (fatalThrows : Bool) (bgra rgb : Image) (errors : List String) :
    requirementChecks fatalThrows bgra rgb errors
      = if fatalThrows = true ∧
            (bgra.bytes_per_channel_ ≠ 1 ∨ rgb.bytes_per_channel_ ≠ 1 ∨
              bgra.num_of_channels_ ≠ 4 ∨ rgb.num_of_channels_ ≠ 3 ∨
              (bgra.width_ ≠ rgb.width_ ∨ bgra.height_ ≠ rgb.height_)) then
          .error .fatal
        else
          .ok (errors
            ++ (if bgra.bytes_per_channel_ ≠ 1 then
                  ["BGRA input image must have 1 byte per channel."] else [])
            ++ (if rgb.bytes_per_channel_ ≠ 1 then
                  ["RGB output image must have 1 byte per channel."] else [])
            ++ (if bgra.num_of_channels_ ≠ 4 then
                  ["BGRA input image must have 4 channels."] else [])
            ++ (if rgb.num_of_channels_ ≠ 3 then
                  ["RGB output image must have 3 channels."] else [])
            ++ (if bgra.width_ ≠ rgb.width_ ∨ bgra.height_ ≠ rgb.height_ then
                  ["BGRA input image and RGB output image have different dimensions."]
                else [])) := by
  unfold requirementChecks LOG_ERROR
  by_cases h1 : bgra.bytes_per_channel_ = 1 <;>
  by_cases h2 : rgb.bytes_per_channel_ = 1 <;>
  by_cases h3 : bgra.num_of_channels_ = 4 <;>
  by_cases h4 : rgb.num_of_channels_ = 3 <;>
  by_cases h5 : (bgra.width_ ≠ rgb.width_ ∨ bgra.height_ ≠ rgb.height_) <;>
  cases fatalThrows <;>
  simp [h1, h2, h3, h4, h5, bind, Except.bind, pure, Except.pure]

/-- `ConvertBGRAToRGB` is its checks followed by its loops. -/
theorem ConvertBGRAToRGB_eq (fatalThrows : Bool) (bgra rgb : Image) (errors : List String) :
    ConvertBGRAToRGB fatalThrows bgra rgb errors
      = match requirementChecks fatalThrows bgra rgb errors with
        | .error e => .error e
        | .ok errors1 =>
          match convertPixels bgra rgb with
          | .error f => .error (.buffer f)
          | .ok rgb1 => .ok (rgb1, errors1) := by
  unfold ConvertBGRAToRGB requirementChecks LOG_ERROR
  by_cases h1 : bgra.bytes_per_channel_ = 1 <;>
  by_cases h2 : rgb.bytes_per_channel_ = 1 <;>
  by_cases h3 : bgra.num_of_channels_ = 4 <;>
  by_cases h4 : rgb.num_of_channels_ = 3 <;>
  by_cases h5 : (bgra.width_ ≠ rgb.width_ ∨ bgra.height_ ≠ rgb.height_) <;>
  cases fatalThrows <;>
  simp only [h1, h2, h3, h4, h5, bind, Except.bind, pure, Except.pure, ne_eq,
    not_true_eq_false, not_false_eq_true, if_true, if_false, Bool.and_self, Bool.and_false,
    Bool.and_true, Bool.false_eq_true, Bool.true_and]

/-- The loops read the input at the channels 0, 1, 2 of its pixels only: two
inputs of the same layout that agree there are converted alike. -/
theorem convertPixels_congr (bgra bgra1 rgb : Image)
    (hw : bgra1.width_ = bgra.width_) (hh : bgra1.height_ = bgra.height_)
    (hagree : ∀ u v c : Int, 0 ≤ u → u < bgra.width_ → 0 ≤ v → v < bgra.height_ →
      0 ≤ c → c < 3 →
      bgra1.load (bgra1.PointerAt u v c) = bgra.load (bgra.PointerAt u v c)) :
    convertPixels bgra1 rgb = convertPixels bgra rgb := by
  rw [convertPixels_flat, convertPixels_flat, hw, hh]
  apply forEach_congr
  rintro ⟨v, u, c⟩ hmem s
  obtain ⟨hv, hu, hc⟩ := (mem_pixelChannels _ _ _).1 hmem
  dsimp only at hv hu hc ⊢
  unfold convertChannel
  rw [hagree u v (2 - (c : Int)) (Int.ofNat_nonneg u) (by omega) (Int.ofNat_nonneg v)
    (by omega) (by omega) (by omega)]

/-- The loops on both references are the loops on the output, and leave the
input as it is. -/
theorem convertPixelsRefs_eq (bgra rgb : Image) :
    convertPixelsRefs ⟨bgra, rgb⟩
      = match convertPixels bgra rgb with
        | .error f => .error f
        | .ok rgb1 => .ok ⟨bgra, rgb1⟩ := by
  have hlift : ∀ {α : Type} (body1 : α → ImageRefs → Except Fault ImageRefs)
      (body : α → Image → Except Fault Image) (l : List α),
      (∀ a r, body1 a ⟨bgra, r⟩ = match body a r with
        | .error f => .error f
        | .ok r1 => .ok ⟨bgra, r1⟩) →
      ∀ r, forEach body1 l ⟨bgra, r⟩ = match forEach body l r with
        | .error f => .error f
        | .ok r1 => .ok ⟨bgra, r1⟩ := by
    intro α body1 body l hbody
    induction l with
    | nil => intro r; rfl
    | cons a rest ih =>
      intro r
      rw [forEach, forEach, hbody a r]
      cases body a r with
      | error e => rfl
      | ok r1 => exact ih r1
  unfold convertPixelsRefs convertPixels
  apply hlift
  intro v r
  apply hlift
  intro u r1
  apply hlift
  intro c r2
  unfold convertChannelRefs convertChannel
  cases bgra.load (bgra.PointerAt u v (2 - (c : Int))) with
  | error e => rfl
  | ok b =>
    simp only [bind, Except.bind, pure, Except.pure]
    cases r2.store (r2.PointerAt u v c) b <;> rfl

/-- C24: `ConvertBGRAToRGB` reverses the colour channels and drops alpha.  On a
4-channel input and a 3-channel output with one byte per channel, the same
width and height and buffers of the size of their layout, it returns without
logging; the output keeps its layout and channel `c` of every pixel is channel
`2 - c` of that pixel of the input, and the input is as before.  Two inputs of
the same layout that agree on the channels 0, 1, 2 of every pixel give the
same result.  The function is its five checks followed by the loops, and the
checks log one message for every requirement that is not met, or end with the
exception of the logger at the first of them. -/
theorem bgra_to_rgb_reverses_channels (fatalThrows : Bool) (bgra rgb : Image)
    (errors : List String) :
    (bgra.bytes_per_channel_ = 1 → rgb.bytes_per_channel_ = 1 →
      bgra.num_of_channels_ = 4 → rgb.num_of_channels_ = 3 →
      bgra.width_ = rgb.width_ → bgra.height_ = rgb.height_ →
      (bgra.data_.length : Int)
        = bgra.width_ * bgra.height_ * bgra.num_of_channels_ * bgra.bytes_per_channel_ →
      (rgb.data_.length : Int)
        = rgb.width_ * rgb.height_ * rgb.num_of_channels_ * rgb.bytes_per_channel_ →
      ∃ rgb1, ConvertBGRAToRGB fatalThrows bgra rgb errors = .ok (rgb1, errors) ∧
        convertPixelsRefs ⟨bgra, rgb⟩ = .ok ⟨bgra, rgb1⟩ ∧
        (rgb1.width_ = rgb.width_ ∧ rgb1.height_ = rgb.height_ ∧
          rgb1.num_of_channels_ = rgb.num_of_channels_ ∧
          rgb1.bytes_per_channel_ = rgb.bytes_per_channel_ ∧
          rgb1.data_.length = rgb.data_.length) ∧
        ∀ u v c : Int, 0 ≤ u → u < rgb.width_ → 0 ≤ v → v < rgb.height_ → 0 ≤ c → c < 3 →
          ∃ b, bgra.load (bgra.PointerAt u v (2 - c)) = .ok b ∧
            rgb1.load (rgb1.PointerAt u v c) = .ok b) ∧
    (∀ bgra1 : Image, bgra1.width_ = bgra.width_ → bgra1.height_ = bgra.height_ →
      bgra1.num_of_channels_ = bgra.num_of_channels_ →
      bgra1.bytes_per_channel_ = bgra.bytes_per_channel_ →
      (∀ u v c : Int, 0 ≤ u → u < bgra.width_ → 0 ≤ v → v < bgra.height_ → 0 ≤ c → c < 3 →
        bgra1.load (bgra1.PointerAt u v c) = bgra.load (bgra.PointerAt u v c)) →
      ConvertBGRAToRGB fatalThrows bgra1 rgb errors
        = ConvertBGRAToRGB fatalThrows bgra rgb errors) ∧
    ConvertBGRAToRGB fatalThrows bgra rgb errors
      = (match requirementChecks fatalThrows bgra rgb errors with
        | .error e => .error e
        | .ok errors1 =>
          match convertPixels bgra rgb with
          | .error f => .error (.buffer f)
          | .ok rgb1 => .ok (rgb1, errors1)) ∧
    requirementChecks fatalThrows bgra rgb errors
      = (if fatalThrows = true ∧
            (bgra.bytes_per_channel_ ≠ 1 ∨ rgb.bytes_per_channel_ ≠ 1 ∨
              bgra.num_of_channels_ ≠ 4 ∨ rgb.num_of_channels_ ≠ 3 ∨
              (bgra.width_ ≠ rgb.width_ ∨ bgra.height_ ≠ rgb.height_)) then
          .error .fatal
        else
          .ok (errors
            ++ (if bgra.bytes_per_channel_ ≠ 1 then
                  ["BGRA input image must have 1 byte per channel."] else [])
            ++ (if rgb.bytes_per_channel_ ≠ 1 then
                  ["RGB output image must have 1 byte per channel."] else [])
            ++ (if bgra.num_of_channels_ ≠ 4 then
                  ["BGRA input image must have 4 channels."] else [])
            ++ (if rgb.num_of_channels_ ≠ 3 then
                  ["RGB output image must have 3 channels."] else [])
            ++ (if bgra.width_ ≠ rgb.width_ ∨ bgra.height_ ≠ rgb.height_ then
                  ["BGRA input image and RGB output image have different dimensions."]
                else []))) := by
  refine ⟨?_, ?_, ConvertBGRAToRGB_eq fatalThrows bgra rgb errors,
    requirementChecks_spec fatalThrows bgra rgb errors⟩
  · intro hb1 hb2 hc1 hc2 hw hh hlen1 hlen2
    rw [hc1, hb1] at hlen1
    rw [hc2, hb2] at hlen2
    obtain ⟨rgb1, hrun, hlayout, hpix⟩ := convertPixels_spec bgra rgb hc1 hc2 hw hh
      (by omega) (by omega)
    refine ⟨rgb1, ?_, ?_, hlayout, hpix⟩
    · rw [ConvertBGRAToRGB_eq, requirementChecks_spec, hrun]
      simp [hb1, hb2, hc1, hc2, hw, hh]
    · rw [convertPixelsRefs_eq, hrun]
  · intro bgra1 hw hh hn hb hagree
    rw [ConvertBGRAToRGB_eq, ConvertBGRAToRGB_eq, requirementChecks_spec,
      requirementChecks_spec, hw, hh, hn, hb, convertPixels_congr bgra bgra1 rgb hw hh hagree]

/-- Witness of C24: the pixels (10, 20, 30, 255) and (40, 50, 60, 255) become
(30, 20, 10) and (60, 50, 40), whatever the bytes of channel 3. -/
theorem bgra_to_rgb_reverses_channels_witness :
    (∃ rgb1, ConvertBGRAToRGB false bgraImage rgbZero [] = .ok (rgb1, []) ∧
      convertPixelsRefs ⟨bgraImage, rgbZero⟩ = .ok ⟨bgraImage, rgb1⟩ ∧
      (rgb1.width_ = rgbZero.width_ ∧ rgb1.height_ = rgbZero.height_ ∧
        rgb1.num_of_channels_ = rgbZero.num_of_channels_ ∧
        rgb1.bytes_per_channel_ = rgbZero.bytes_per_channel_ ∧
        rgb1.data_.length = rgbZero.data_.length) ∧
      ∀ u v c : Int, 0 ≤ u → u < rgbZero.width_ → 0 ≤ v → v < rgbZero.height_ →
        0 ≤ c → c < 3 →
        ∃ b, bgraImage.load (bgraImage.PointerAt u v (2 - c)) = .ok b ∧
          rgb1.load (rgb1.PointerAt u v c) = .ok b) ∧
    ConvertBGRAToRGB false bgraImageClear rgbZero []
      = ConvertBGRAToRGB false bgraImage rgbZero [] ∧
    (imageOr (ConvertBGRAToRGB false bgraImage rgbZero []) emptyImage).data_
      = [30, 20, 10, 60, 50, 40] :=
  ⟨(bgra_to_rgb_reverses_channels false bgraImage rgbZero []).1 rfl rfl rfl rfl rfl rfl
      (by decide) (by decide),
    (bgra_to_rgb_reverses_channels false bgraImage rgbZero []).2.1 bgraImageClear
      rfl rfl rfl rfl
      (fun u v c hu huw hv hvh hc hc3 => by
        have hv0 : v = 0 := by
          have : v < 1 := hvh
          omega
        have hu01 : u = 0 ∨ u = 1 := by
          have : u < 2 := huw
          omega
        have hc012 : c = 0 ∨ c = 1 ∨ c = 2 := by omega
        subst hv0
        rcases hu01 with rfl | rfl <;> rcases hc012 with rfl | rfl | rfl <;> rfl),
    by decide!⟩

end MKV_Data
